import Mathlib

/-!
# Polaris CLI: authentication and configuration persistence

A shallow embedding of `pkg/config/config.go`, `pkg/api/auth.go`,
`pkg/api/client.go`, and of the package `cmd`: the client set-up, the
namespace arguments, the grant construction, the property pairs, and the
commands `auth login`, `auth status`, `config set` and `principals update`.

Go strings are Lean `String`s (well-formed Unicode text), Go `int` is `Int`,
and a Go `(T, error)` result is `Except String T`, the string being the text
of `err.Error()`.

The standard library is modelled as far as the program observes it:

* `encoding/json`: a validating reader from text to `JValue`, the
  reflection decoder into the four record types of the program (field lookup
  by exact name, then by case-folded name; `null` leaves a field untouched; a
  value of the wrong kind is recorded as an error while decoding goes on), and
  `MarshalIndent` for `Config` and `Credentials`.  The wording of the errors
  of the library is abbreviated.
* `os`: a file system of regular files addressed by path components,
  where a node is absent, a regular file, or blocked (every operation on it
  fails with an error other than "not exist").
* `net/http`: a server is a function from requests to exchanges, and
  every request handed to the transport is appended to a log.
* `strings` and `unicode`: trimming, searching, splitting and joining
  are defined on the characters of the text; the case tables for the
  characters above ASCII are a parameter.
* the terminal: the environment variables, the line and the password
  read at a prompt, and the standard output as the list of the byte strings
  written, a string being printed as its UTF-8 bytes.

The generated package `pkg/api/openapi/management` is not part of the
sources: its client is a parameter of `runPrincipalsUpdate`, and the records
it declares are given with the members the command reads.  The record
`Config` of `pkg/config` has host and realm only, so the selector and the
assignment of `cfg.CatalogPrefix` are parameters of the commands that use
them.
-/

namespace Polaris

/-! ## encoding/json: values and the reader -/

/-- A JSON value as the decoder of `encoding/json` sees it.  A number keeps
its literal text, since the decoder converts it according to the target. -/
inductive JValue where
  | null
  | bool (b : Bool)
  | num (lit : String)
  | str (s : String)
  | arr (items : List JValue)
  | obj (members : List (String × JValue))

namespace JSON

/-- The four white-space characters of the JSON scanner. -/
def isSpace (c : Char) : Bool :=
  c == ' ' || c == '\t' || c == '\r' || c == '\n'

/-- Drop leading JSON white space. -/
def skipSpace : List Char → List Char
  | [] => []
  | c :: cs => if isSpace c then skipSpace cs else c :: cs

/-- Value of a hexadecimal digit. -/
def hexVal (c : Char) : Option Nat :=
  if '0' ≤ c ∧ c ≤ '9' then some (c.toNat - '0'.toNat)
  else if 'a' ≤ c ∧ c ≤ 'f' then some (c.toNat - 'a'.toNat + 10)
  else if 'A' ≤ c ∧ c ≤ 'F' then some (c.toNat - 'A'.toNat + 10)
  else none

/-- The sixteen-bit unit written by four hexadecimal digits (`getu4`). -/
def getu4 (a b c d : Char) : Option Nat :=
  match hexVal a, hexVal b, hexVal c, hexVal d with
  | some x, some y, some z, some w => some (((x * 16 + y) * 16 + z) * 16 + w)
  | _, _, _, _ => none

/-- The unit is a UTF-16 surrogate (`utf16.IsSurrogate`). -/
def isSurrogate (r : Nat) : Bool := 0xD800 ≤ r && r < 0xE000

/-- Combine a surrogate pair (`utf16.DecodeRune`); `none` stands for the
replacement character returned on an invalid pair. -/
def decodeSurrogates (r1 r2 : Nat) : Option Nat :=
  if 0xD800 ≤ r1 ∧ r1 < 0xDC00 ∧ 0xDC00 ≤ r2 ∧ r2 < 0xE000 then
    some ((r1 - 0xD800) * 1024 + (r2 - 0xDC00) + 0x10000)
  else none

/-- The Unicode replacement character. -/
def replacementChar : Char := Char.ofNat 0xFFFD

/-- The unit following a `\uXXXX` escape when the text goes on with another
`\uXXXX` escape. -/
def nextUnit : List Char → Option Nat
  | '\\' :: 'u' :: a :: b :: c :: d :: _ => getu4 a b c d
  | _ => none

/-- Read the rest of a string literal, the opening quote already consumed:
the scanner rejects control characters and unknown escapes, `unquote`
resolves the escapes.  `acc` holds the characters read so far, reversed.
The fuel bounds the number of characters read. -/
def readString : Nat → List Char → List Char → Option (String × List Char)
  | 0, _, _ => none
  | _ + 1, _, [] => none
  | n + 1, acc, c :: cs =>
    if c = '"' then some (String.mk acc.reverse, cs)
    else if c = '\\' then
      match cs with
      | [] => none
      | e :: rest =>
        if e = '"' then readString n ('"' :: acc) rest
        else if e = '\\' then readString n ('\\' :: acc) rest
        else if e = '/' then readString n ('/' :: acc) rest
        else if e = 'b' then readString n (Char.ofNat 8 :: acc) rest
        else if e = 'f' then readString n (Char.ofNat 12 :: acc) rest
        else if e = 'n' then readString n ('\n' :: acc) rest
        else if e = 'r' then readString n ('\r' :: acc) rest
        else if e = 't' then readString n ('\t' :: acc) rest
        else if e = 'u' then
          match rest with
          | a :: b :: c :: d :: rest4 =>
            match getu4 a b c d with
            | none => none
            | some r =>
              if isSurrogate r then
                match (nextUnit rest4).bind (decodeSurrogates r) with
                | some dec => readString n (Char.ofNat dec :: acc) (rest4.drop 6)
                | none => readString n (replacementChar :: acc) rest4
              else readString n (Char.ofNat r :: acc) rest4
          | _ => none
        else none
    else if c.toNat < 0x20 then none
    else readString n (c :: acc) cs

/-- Take the leading decimal digits. -/
def spanDigits : List Char → List Char × List Char
  | [] => ([], [])
  | c :: cs =>
    if c.isDigit then ((spanDigits cs).1.cons c, (spanDigits cs).2) else ([], c :: cs)

/-- Read a number literal by the grammar of the scanner: an optional minus,
`0` or a digit sequence without leading zero, an optional fraction, an
optional exponent.  Returns the literal and the remaining text. -/
def readNumber (cs : List Char) : Option (List Char × List Char) :=
  let (sign, cs1) := match cs with
    | '-' :: r => (['-'], r)
    | _ => ([], cs)
  let intPart : Option (List Char × List Char) := match cs1 with
    | '0' :: r => some (['0'], r)
    | c :: _ => if c.isDigit then some (spanDigits cs1) else none
    | [] => none
  match intPart with
  | none => none
  | some (ds, cs2) =>
    let fracPart : Option (List Char × List Char) := match cs2 with
      | '.' :: r =>
        match spanDigits r with
        | ([], _) => none
        | (fs, r2) => some ('.' :: fs, r2)
      | _ => some ([], cs2)
    match fracPart with
    | none => none
    | some (fs, cs3) =>
      let expPart : Option (List Char × List Char) := match cs3 with
        | e :: r =>
          if e = 'e' ∨ e = 'E' then
            let (sg, r1) := match r with
              | '+' :: r2 => (['+'], r2)
              | '-' :: r2 => (['-'], r2)
              | _ => ([], r)
            match spanDigits r1 with
            | ([], _) => none
            | (es, r3) => some (e :: (sg ++ es), r3)
          else some ([], cs3)
        | [] => some ([], cs3)
      match expPart with
      | none => none
      | some (es, cs4) => some (sign ++ ds ++ fs ++ es, cs4)

/-- The deepest nesting of arrays and objects the scanner accepts. -/
def maxNestingDepth : Nat := 10000

/-- Read the elements of an array after its first element, up to and
including the closing bracket.  `pv` reads one value. -/
def readElements (pv : List Char → Option (JValue × List Char)) :
    Nat → List JValue → List Char → Option (List JValue × List Char)
  | 0, _, _ => none
  | n + 1, acc, cs =>
    match skipSpace cs with
    | ',' :: rest =>
      match pv (skipSpace rest) with
      | some (v, rest1) => readElements pv n (v :: acc) rest1
      | none => none
    | ']' :: rest => some (acc.reverse, rest)
    | _ => none

/-- Read one member `"key": value` of an object. -/
def readMember (pv : List Char → Option (JValue × List Char)) (cs : List Char) :
    Option ((String × JValue) × List Char) :=
  match cs with
  | '"' :: rest =>
    match readString (rest.length + 1) [] rest with
    | none => none
    | some (k, rest1) =>
      match skipSpace rest1 with
      | ':' :: rest2 =>
        match pv (skipSpace rest2) with
        | some (v, rest3) => some ((k, v), rest3)
        | none => none
      | _ => none
  | _ => none

/-- Read the members of an object after its first member, up to and
including the closing brace. -/
def readMembers (pv : List Char → Option (JValue × List Char)) :
    Nat → List (String × JValue) → List Char → Option (List (String × JValue) × List Char)
  | 0, _, _ => none
  | n + 1, acc, cs =>
    match skipSpace cs with
    | ',' :: rest =>
      match readMember pv (skipSpace rest) with
      | some (m, rest1) => readMembers pv n (m :: acc) rest1
      | none => none
    | '}' :: rest => some (acc.reverse, rest)
    | _ => none

/-- Read one JSON value at the head of the text (no leading white space).
`depth` counts the enclosing arrays and objects; the fuel bounds the nesting
and is at least the length of the text wherever the function is used. -/
def readValue : Nat → Nat → List Char → Option (JValue × List Char)
  | 0, _, _ => none
  | fuel + 1, depth, cs =>
    match cs with
    | [] => none
    | c :: rest =>
      if c = '{' then
        if depth ≥ maxNestingDepth then none
        else
          match skipSpace rest with
          | '}' :: rest1 => some (JValue.obj [], rest1)
          | rest1 =>
            match readMember (readValue fuel (depth + 1)) rest1 with
            | some (m, rest2) =>
              match readMembers (readValue fuel (depth + 1)) (rest2.length + 1) [m] rest2 with
              | some (ms, rest3) => some (JValue.obj ms, rest3)
              | none => none
            | none => none
      else if c = '[' then
        if depth ≥ maxNestingDepth then none
        else
          match skipSpace rest with
          | ']' :: rest1 => some (JValue.arr [], rest1)
          | rest1 =>
            match readValue fuel (depth + 1) rest1 with
            | some (v, rest2) =>
              match readElements (readValue fuel (depth + 1)) (rest2.length + 1) [v] rest2 with
              | some (vs, rest3) => some (JValue.arr vs, rest3)
              | none => none
            | none => none
      else if c = '"' then
        match readString (rest.length + 1) [] rest with
        | some (s, rest1) => some (JValue.str s, rest1)
        | none => none
      else if c = 't' then
        match rest with
        | 'r' :: 'u' :: 'e' :: rest1 => some (JValue.bool true, rest1)
        | _ => none
      else if c = 'f' then
        match rest with
        | 'a' :: 'l' :: 's' :: 'e' :: rest1 => some (JValue.bool false, rest1)
        | _ => none
      else if c = 'n' then
        match rest with
        | 'u' :: 'l' :: 'l' :: rest1 => some (JValue.null, rest1)
        | _ => none
      else
        match readNumber (c :: rest) with
        | some (lit, rest1) => some (JValue.num (String.mk lit), rest1)
        | none => none

/-- The whole text is one JSON value surrounded by optional white space
(`checkValid` followed by the generic reading of the value). -/
def parse (data : String) : Option JValue :=
  let cs := skipSpace data.toList
  match readValue (cs.length + 1) 0 cs with
  | some (v, rest) => if (skipSpace rest).isEmpty then some v else none
  | none => none


end JSON

/-! ## encoding/json: decoding into records -/

/-- An error returned by `json.Unmarshal`: the text is not valid JSON
(`SyntaxError`), or a value does not fit its target (`UnmarshalTypeError`,
with the kind of the JSON value and the Go target). -/
inductive UnmarshalError where
  | invalid
  | mismatch (value : String) (target : String)
deriving DecidableEq

/-- The text of the error, abbreviated. -/
def UnmarshalError.Error : UnmarshalError → String
  | UnmarshalError.invalid => "invalid JSON input"
  | UnmarshalError.mismatch value target =>
    "json: cannot unmarshal " ++ value ++ " into Go value of type " ++ target

/-- A field of a record as the decoder addresses it: a Go `string` or a Go
`int`, with its setter. -/
inductive Slot (σ : Type) where
  | string (set : String → σ → σ)
  | int (set : Int → σ → σ)

/-- The smallest character of the case-folding orbit, for the orbits that
meet ASCII: the letters, the Kelvin sign and the long s. -/
def foldRune (c : Char) : Char :=
  if 'a' ≤ c ∧ c ≤ 'z' then Char.ofNat (c.toNat - 32)
  else if c.toNat = 0x212A then 'K'
  else if c.toNat = 0x17F then 'S'
  else c

/-- The folded form of a member name (`foldName`). -/
def foldName (s : String) : List Char := s.toList.map foldRune

/-- The field a member name addresses: the field of exactly that name,
otherwise the first field whose folded name equals the folded member name. -/
def findField {σ : Type} (fields : List (String × Slot σ)) (key : String) : Option (Slot σ) :=
  match fields.find? (fun f => f.1 == key) with
  | some f => some f.2
  | none =>
    match fields.find? (fun f => foldName f.1 == foldName key) with
    | some f => some f.2
    | none => none

/-- Convert a number literal the way `strconv.ParseInt(lit, 10, 64)` does:
an optional minus and decimal digits only, within the range of `int64`. -/
def parseInt64 (lit : String) : Option Int :=
  let cs := lit.toList
  let neg := cs.head? == some '-'
  let ds := if neg then cs.tail else cs
  if ds.isEmpty || !ds.all Char.isDigit then none
  else
    let n : Nat := ds.foldl (fun a c => a * 10 + (c.toNat - 48)) 0
    let v : Int := if neg then -(n : Int) else (n : Int)
    if -(2 : Int) ^ 63 ≤ v ∧ v < (2 : Int) ^ 63 then some v else none

/-- Store one JSON value into a field (`literalStore`, and the kind checks of
`object` and `array`): `null` leaves the field as it is, a value of the right
kind is stored, anything else is reported and the field is left as it is. -/
def storeValue {σ : Type} (slot : Slot σ) (v : JValue) (s : σ) : σ × Option UnmarshalError :=
  match slot, v with
  | _, JValue.null => (s, none)
  | Slot.string set, JValue.str x => (set x s, none)
  | Slot.string _, JValue.bool _ => (s, some (UnmarshalError.mismatch "bool" "string"))
  | Slot.string _, JValue.num _ => (s, some (UnmarshalError.mismatch "number" "string"))
  | Slot.string _, JValue.arr _ => (s, some (UnmarshalError.mismatch "array" "string"))
  | Slot.string _, JValue.obj _ => (s, some (UnmarshalError.mismatch "object" "string"))
  | Slot.int set, JValue.num lit =>
    match parseInt64 lit with
    | some n => (set n s, none)
    | none => (s, some (UnmarshalError.mismatch ("number " ++ lit) "int"))
  | Slot.int _, JValue.str _ => (s, some (UnmarshalError.mismatch "string" "int"))
  | Slot.int _, JValue.bool _ => (s, some (UnmarshalError.mismatch "bool" "int"))
  | Slot.int _, JValue.arr _ => (s, some (UnmarshalError.mismatch "array" "int"))
  | Slot.int _, JValue.obj _ => (s, some (UnmarshalError.mismatch "object" "int"))

/-- Decode one member of an object into the record; a member that addresses
no field is skipped.  Only the first error is kept (`saveError`). -/
def storeMember {σ : Type} (fields : List (String × Slot σ))
    (acc : σ × Option UnmarshalError) (m : String × JValue) : σ × Option UnmarshalError :=
  match findField fields m.1 with
  | none => acc
  | some slot =>
    let r := storeValue slot m.2 acc.1
    (r.1, if acc.2.isSome then acc.2 else r.2)

/-- Decode a JSON value into a record whose initial content is `zero`: an
object fills the fields member by member, `null` changes nothing, any other
value is a mismatch. -/
def decodeValue {σ : Type} (target : String) (fields : List (String × Slot σ)) (zero : σ)
    (v : JValue) : σ × Option UnmarshalError :=
  match v with
  | JValue.obj members => members.foldl (storeMember fields) (zero, none)
  | JValue.null => (zero, none)
  | JValue.bool _ => (zero, some (UnmarshalError.mismatch "bool" target))
  | JValue.num _ => (zero, some (UnmarshalError.mismatch "number" target))
  | JValue.str _ => (zero, some (UnmarshalError.mismatch "string" target))
  | JValue.arr _ => (zero, some (UnmarshalError.mismatch "array" target))

/-- The function `json.Unmarshal(data, &v)` for a record `v` holding `zero`:
the content of `v` afterwards and the error returned.  Text that is not
valid JSON leaves `v` untouched; a mismatch leaves `v` filled as far as the
other members go, together with the error. -/
def Unmarshal {σ : Type} (target : String) (fields : List (String × Slot σ)) (zero : σ)
    (data : String) : σ × Option UnmarshalError :=
  match JSON.parse data with
  | none => (zero, some UnmarshalError.invalid)
  | some v => decodeValue target fields zero v

/-! ## encoding/json: MarshalIndent -/

/-- Lower-case hexadecimal digit. -/
def hexDigit (n : Nat) : Char :=
  if n < 10 then Char.ofNat (48 + n) else Char.ofNat (87 + n)

/-- The escape `\u00XY` of a character below 256. -/
def escapeUnicode (c : Char) : List Char :=
  ['\\', 'u', '0', '0', hexDigit (c.toNat / 16), hexDigit (c.toNat % 16)]

/-- How `Marshal` writes one character of a string (HTML escaping on, as
`Marshal` and `MarshalIndent` have it; the short forms of backspace and form
feed are those of Go 1.22 and later). -/
def escapeChar (c : Char) : List Char :=
  if c = '"' then ['\\', '"']
  else if c = '\\' then ['\\', '\\']
  else if c.toNat < 0x20 then
    if c.toNat = 8 then ['\\', 'b']
    else if c.toNat = 12 then ['\\', 'f']
    else if c = '\n' then ['\\', 'n']
    else if c = '\r' then ['\\', 'r']
    else if c = '\t' then ['\\', 't']
    else escapeUnicode c
  else if c = '<' ∨ c = '>' ∨ c = '&' then escapeUnicode c
  else if c.toNat = 0x2028 then ['\\', 'u', '2', '0', '2', '8']
  else if c.toNat = 0x2029 then ['\\', 'u', '2', '0', '2', '9']
  else [c]

/-- A string as a JSON string literal. -/
def quote (s : String) : String :=
  String.mk ('"' :: (s.toList.flatMap escapeChar ++ ['"']))

/-- One line `  "name": value` of an indented object. -/
def indentedMember (name value : String) : String :=
  "  \"" ++ name ++ "\": " ++ value

/-- An object written by `MarshalIndent(v, "", "  ")`: one member per line. -/
def indentedObject (members : List (String × String)) : String :=
  match members with
  | [] => "\x7b\x7d"
  | _ => "\x7b\n" ++ ",\n".intercalate (members.map (fun m => indentedMember m.1 m.2)) ++ "\n\x7d"

/-! ## The environment: file system and network -/

/-- A path as the list of its components (`filepath.Join` appends one). -/
abbrev Path := List String

/-- The function `filepath.Join(dir, name)`. -/
def Join (dir : Path) (name : String) : Path := dir ++ [name]

/-- What the file system holds at a path: nothing, a regular file, or a node
on which reading, writing, removing and creating a directory all fail with
an error other than "not exist" (for instance for lack of permission). -/
inductive Node where
  | absent
  | file (data : String)
  | blocked (reason : String)
deriving DecidableEq

/-- An error of an `os` call. -/
inductive OSError where
  | notExist
  | other (reason : String)
deriving DecidableEq

/-- The function `os.IsNotExist`. -/
def IsNotExist : OSError → Bool
  | OSError.notExist => true
  | OSError.other _ => false

/-- The text of the error. -/
def OSError.Error : OSError → String
  | OSError.notExist => "no such file or directory"
  | OSError.other reason => reason

/-- The body of a request: none, form values (written to the wire by
`url.Values.Encode`), or text. -/
inductive Body where
  | none
  | form (values : List (String × String))
  | text (data : String)
deriving DecidableEq

/-- An HTTP request as the program builds it. -/
structure Request where
  method : String
  url : String
  header : List (String × String)
  body : Body
deriving DecidableEq

/-- What comes of handing a request to `httpClient.Do` and reading the body
with `io.ReadAll`: the call fails, the body cannot be read, or a response
with a status and a body arrives. -/
inductive Exchange where
  | failed (err : String)
  | unreadable (status : Int) (err : String)
  | response (status : Int) (body : String)
deriving DecidableEq

/-- The environment of one run of the program. -/
structure World where
  /-- Result of `os.UserHomeDir()`. -/
  home : Except String String
  /-- The files. -/
  fs : Path → Node
  /-- The error of `url.Parse` on a URL, if it has one. -/
  urlError : String → Option String
  /-- The answer of the network to a request. -/
  server : Request → Exchange
  /-- The requests handed to `httpClient.Do` so far, oldest first. -/
  sent : List Request
  /-- The function `os.Getenv`. -/
  env : String → String
  /-- What `bufio.Reader.ReadString` gives for a line from the standard
  input: the line with its newline, or an error. -/
  stdinLine : Except String String
  /-- What `term.ReadPassword` gives: the text typed, or an error. -/
  password : Except String String
  /-- The bytes written to the standard output so far, one entry for each
  call of a print function. -/
  stdout : List (List Nat)

/-- The file system with the node at `p` replaced. -/
def World.setNode (w : World) (p : Path) (n : Node) : World :=
  { w with fs := fun q => if q = p then n else w.fs q }

/-- The function `os.ReadFile`. -/
def ReadFile (p : Path) (w : World) : Except OSError String :=
  match w.fs p with
  | Node.file data => Except.ok data
  | Node.absent => Except.error OSError.notExist
  | Node.blocked reason => Except.error (OSError.other reason)

/-- The function `os.MkdirAll`: it fails when the path is a regular file or
blocked; directories themselves are not recorded. -/
def MkdirAll (p : Path) (w : World) : Except OSError Unit × World :=
  match w.fs p with
  | Node.absent => (Except.ok (), w)
  | Node.file _ => (Except.error (OSError.other "not a directory"), w)
  | Node.blocked reason => (Except.error (OSError.other reason), w)

/-- The function `os.WriteFile`: creates the file or replaces its content. -/
def WriteFile (p : Path) (data : String) (w : World) : Except OSError Unit × World :=
  match w.fs p with
  | Node.blocked reason => (Except.error (OSError.other reason), w)
  | _ => (Except.ok (), w.setNode p (Node.file data))

/-- The function `os.Remove`. -/
def Remove (p : Path) (w : World) : Except OSError Unit × World :=
  match w.fs p with
  | Node.file _ => (Except.ok (), w.setNode p Node.absent)
  | Node.absent => (Except.error OSError.notExist, w)
  | Node.blocked reason => (Except.error (OSError.other reason), w)

/-- The function `http.Header.Set`: the value replaces any earlier one. -/
def HeaderSet (h : List (String × String)) (key value : String) : List (String × String) :=
  h.filter (fun kv => kv.1 != key) ++ [(key, value)]

/-- The function `http.Header.Get`: the value of a header, if it is set. -/
def HeaderGet (h : List (String × String)) (key : String) : Option String :=
  (h.find? (fun kv => kv.1 == key)).map Prod.snd

/-- The function `url.Values.Set`. -/
def ValuesSet (v : List (String × String)) (key value : String) : List (String × String) :=
  v.filter (fun kv => kv.1 != key) ++ [(key, value)]

/-- The function `url.Values.Get`. -/
def ValuesGet (v : List (String × String)) (key : String) : Option String :=
  (v.find? (fun kv => kv.1 == key)).map Prod.snd

/-- A character allowed in an HTTP token (`httpguts.IsTokenRune`). -/
def isTokenRune (c : Char) : Bool :=
  c.isAlphanum || "!#$%&\x27*+-.^_`|~".toList.contains c

/-- The function `validMethod` of `net/http`. -/
def validMethod (method : String) : Bool :=
  !method.toList.isEmpty && method.toList.all isTokenRune

/-- The function `http.NewRequest`: an empty method stands for GET; it fails
when the method is not a token and when the URL does not parse. -/
def NewRequest (method url : String) (body : Body) (w : World) : Except String Request :=
  let method1 := if method = "" then "GET" else method
  if validMethod method1 = false then
    Except.error ("net/http: invalid method \"" ++ method1 ++ "\"")
  else
    match w.urlError url with
    | some err => Except.error err
    | none => Except.ok { method := method1, url := url, header := [], body := body }

/-- The call `httpClient.Do(req)` followed by `io.ReadAll(resp.Body)`. -/
def Do (req : Request) (w : World) : Exchange × World :=
  (w.server req, { w with sent := w.sent ++ [req] })

/-- The function `strings.TrimSuffix`. -/
def TrimSuffix (s suffix : String) : String :=
  if suffix.toList.isSuffixOf s.toList then
    String.mk (s.toList.take (s.toList.length - suffix.toList.length))
  else s

/-! ## pkg/config -/

def ConfigDirName : String := ".polaris-cli"

def ConfigFileName : String := "config.json"

def CredentialsFileName : String := "credentials.json"

/-- The record `Config`. -/
structure Config where
  Host : String
  Realm : String
deriving DecidableEq

/-- The record `Credentials`. -/
structure Credentials where
  AccessToken : String
  TokenType : String
  ExpiresIn : Int
  Scope : String
  ClientID : String
  ClientSecret : String
deriving DecidableEq

/-- The zero value of `Config`. -/
def Config.zero : Config := { Host := "", Realm := "" }

/-- The zero value of `Credentials`. -/
def Credentials.zero : Credentials :=
  { AccessToken := "", TokenType := "", ExpiresIn := 0, Scope := "", ClientID := "",
    ClientSecret := "" }

/-- The JSON fields of `Config`, by their tags. -/
def Config.fields : List (String × Slot Config) :=
  [("host", Slot.string (fun x c => { c with Host := x })),
   ("realm", Slot.string (fun x c => { c with Realm := x }))]

/-- The JSON fields of `Credentials`, by their tags. -/
def Credentials.fields : List (String × Slot Credentials) :=
  [("access_token", Slot.string (fun x c => { c with AccessToken := x })),
   ("token_type", Slot.string (fun x c => { c with TokenType := x })),
   ("expires_in", Slot.int (fun x c => { c with ExpiresIn := x })),
   ("scope", Slot.string (fun x c => { c with Scope := x })),
   ("client_id", Slot.string (fun x c => { c with ClientID := x })),
   ("client_secret", Slot.string (fun x c => { c with ClientSecret := x }))]

/-- The call `json.MarshalIndent(config, "", "  ")`; it has no error for a
record of strings and integers. -/
def Config.MarshalIndent (c : Config) : String :=
  indentedObject [("host", quote c.Host), ("realm", quote c.Realm)]

/-- The call `json.MarshalIndent(credentials, "", "  ")`. -/
def Credentials.MarshalIndent (c : Credentials) : String :=
  indentedObject
    [("access_token", quote c.AccessToken), ("token_type", quote c.TokenType),
     ("expires_in", toString c.ExpiresIn), ("scope", quote c.Scope),
     ("client_id", quote c.ClientID), ("client_secret", quote c.ClientSecret)]

def getConfigDir (w : World) : Except String Path :=
  match w.home with
  | Except.error err => Except.error ("failed to get home directory: " ++ err)
  | Except.ok homeDir => Except.ok (Join [homeDir] ConfigDirName)

def ensureConfigDir (w : World) : Except String Path × World :=
  match getConfigDir w with
  | Except.error err => (Except.error err, w)
  | Except.ok configDir =>
    match MkdirAll configDir w with
    | (Except.error err, w1) =>
      (Except.error ("failed to create config directory: " ++ err.Error), w1)
    | (Except.ok _, w1) => (Except.ok configDir, w1)

def LoadConfig (w : World) : Except String Config :=
  match getConfigDir w with
  | Except.error err => Except.error err
  | Except.ok configDir =>
    let configPath := Join configDir ConfigFileName
    match ReadFile configPath w with
    | Except.error err =>
      if IsNotExist err then Except.ok { Host := "http://localhost:8181", Realm := "" }
      else Except.error ("failed to read config file: " ++ err.Error)
    | Except.ok data =>
      match Unmarshal "config.Config" Config.fields Config.zero data with
      | (_, some err) => Except.error ("failed to parse config file: " ++ err.Error)
      | (config, none) => Except.ok config

def SaveConfig (config : Config) (w : World) : Except String Unit × World :=
  match ensureConfigDir w with
  | (Except.error err, w1) => (Except.error err, w1)
  | (Except.ok configDir, w1) =>
    let data := config.MarshalIndent
    let configPath := Join configDir ConfigFileName
    match WriteFile configPath data w1 with
    | (Except.error err, w2) =>
      (Except.error ("failed to write config file: " ++ err.Error), w2)
    | (Except.ok _, w2) => (Except.ok (), w2)

/-- The message of `LoadCredentials` when there is no credentials file. -/
def notAuthenticated : String :=
  "not authenticated. Please run \x27polaris auth login\x27 first"

def LoadCredentials (w : World) : Except String Credentials :=
  match getConfigDir w with
  | Except.error err => Except.error err
  | Except.ok configDir =>
    let credentialsPath := Join configDir CredentialsFileName
    match ReadFile credentialsPath w with
    | Except.error err =>
      if IsNotExist err then Except.error notAuthenticated
      else Except.error ("failed to read credentials file: " ++ err.Error)
    | Except.ok data =>
      match Unmarshal "config.Credentials" Credentials.fields Credentials.zero data with
      | (_, some err) => Except.error ("failed to parse credentials file: " ++ err.Error)
      | (credentials, none) => Except.ok credentials

def SaveCredentials (credentials : Credentials) (w : World) : Except String Unit × World :=
  match ensureConfigDir w with
  | (Except.error err, w1) => (Except.error err, w1)
  | (Except.ok configDir, w1) =>
    let data := credentials.MarshalIndent
    let credentialsPath := Join configDir CredentialsFileName
    match WriteFile credentialsPath data w1 with
    | (Except.error err, w2) =>
      (Except.error ("failed to write credentials file: " ++ err.Error), w2)
    | (Except.ok _, w2) => (Except.ok (), w2)

def ClearCredentials (w : World) : Except String Unit × World :=
  match getConfigDir w with
  | Except.error err => (Except.error err, w)
  | Except.ok configDir =>
    let credentialsPath := Join configDir CredentialsFileName
    match Remove credentialsPath w with
    | (Except.error err, w1) =>
      if IsNotExist err then (Except.ok (), w1)
      else (Except.error ("failed to remove credentials file: " ++ err.Error), w1)
    | (Except.ok _, w1) => (Except.ok (), w1)

def IsAuthenticated (w : World) : Bool :=
  match LoadCredentials w with
  | Except.error _ => false
  | Except.ok creds => creds.AccessToken != ""

def GetAccessToken (w : World) : Except String String :=
  match LoadCredentials w with
  | Except.error err => Except.error err
  | Except.ok creds =>
    if creds.AccessToken = "" then
      Except.error "no access token found. Please run \x27polaris auth login\x27 first"
    else Except.ok creds.AccessToken

/-! ## pkg/api: the OAuth client -/

def TokenEndpoint : String := "/api/catalog/v1/oauth/tokens"

def RealmHeaderName : String := "Polaris-Realm"

def DefaultScope : String := "PRINCIPAL_ROLE:ALL"

/-- The constant `http.StatusOK`. -/
def StatusOK : Int := 200

/-- The record `OAuthTokenResponse`. -/
structure OAuthTokenResponse where
  AccessToken : String
  TokenType : String
  ExpiresIn : Int
  Scope : String
deriving DecidableEq

/-- The record `OAuthError`. -/
structure OAuthError where
  Error : String
  ErrorDescription : String
deriving DecidableEq

/-- The zero value of `OAuthTokenResponse`. -/
def OAuthTokenResponse.zero : OAuthTokenResponse :=
  { AccessToken := "", TokenType := "", ExpiresIn := 0, Scope := "" }

/-- The zero value of `OAuthError`. -/
def OAuthError.zero : OAuthError := { Error := "", ErrorDescription := "" }

/-- The JSON fields of `OAuthTokenResponse`, by their tags. -/
def OAuthTokenResponse.fields : List (String × Slot OAuthTokenResponse) :=
  [("access_token", Slot.string (fun x r => { r with AccessToken := x })),
   ("token_type", Slot.string (fun x r => { r with TokenType := x })),
   ("expires_in", Slot.int (fun x r => { r with ExpiresIn := x })),
   ("scope", Slot.string (fun x r => { r with Scope := x }))]

/-- The JSON fields of `OAuthError`, by their tags. -/
def OAuthError.fields : List (String × Slot OAuthError) :=
  [("error", Slot.string (fun x r => { r with Error := x })),
   ("error_description", Slot.string (fun x r => { r with ErrorDescription := x }))]

/-- The call `json.Unmarshal(body, &tokenResp)` on a fresh `tokenResp`. -/
def unmarshalTokenResponse (body : String) : OAuthTokenResponse × Option UnmarshalError :=
  Unmarshal "api.OAuthTokenResponse" OAuthTokenResponse.fields OAuthTokenResponse.zero body

/-- The call `json.Unmarshal(body, &oauthErr)` on a fresh `oauthErr`. -/
def unmarshalOAuthError (body : String) : OAuthError × Option UnmarshalError :=
  Unmarshal "api.OAuthError" OAuthError.fields OAuthError.zero body

/-- The record `AuthClient`; the HTTP client it holds is the network of the
environment. -/
structure AuthClient where
  config : Config

def NewAuthClient (cfg : Config) : AuthClient := { config := cfg }

def Login (c : AuthClient) (clientID clientSecret : String) (w : World) :
    Except String Credentials × World :=
  let tokenURL := TrimSuffix c.config.Host "/" ++ TokenEndpoint
  let formData := ValuesSet (ValuesSet (ValuesSet (ValuesSet []
    "grant_type" "client_credentials") "client_id" clientID)
    "client_secret" clientSecret) "scope" DefaultScope
  match NewRequest "POST" tokenURL (Body.form formData) w with
  | Except.error err => (Except.error ("failed to create request: " ++ err), w)
  | Except.ok req0 =>
    let req1 : Request :=
      { req0 with header := HeaderSet req0.header "Content-Type" "application/x-www-form-urlencoded" }
    let req : Request :=
      if c.config.Realm ≠ "" then
        { req1 with header := HeaderSet req1.header RealmHeaderName c.config.Realm }
      else req1
    match Do req w with
    | (Exchange.failed err, w1) =>
      (Except.error ("failed to connect to Polaris server: " ++ err), w1)
    | (Exchange.unreadable _ err, w1) =>
      (Except.error ("failed to read response: " ++ err), w1)
    | (Exchange.response status body, w1) =>
      if status ≠ StatusOK then
        match unmarshalOAuthError body with
        | (oauthErr, err) =>
          if err = none ∧ oauthErr.Error ≠ "" then
            (Except.error ("authentication failed: " ++ oauthErr.Error ++ " - "
              ++ oauthErr.ErrorDescription), w1)
          else
            (Except.error ("authentication failed with status " ++ toString status ++ ": "
              ++ body), w1)
      else
        match unmarshalTokenResponse body with
        | (_, some err) =>
          (Except.error ("failed to parse token response: " ++ err.Error), w1)
        | (tokenResp, none) =>
          if tokenResp.AccessToken = "" then
            (Except.error "received empty access token from server", w1)
          else
            (Except.ok
              { AccessToken := tokenResp.AccessToken
                TokenType := tokenResp.TokenType
                ExpiresIn := tokenResp.ExpiresIn
                Scope := tokenResp.Scope
                ClientID := clientID
                ClientSecret := clientSecret }, w1)

def RefreshToken (c : AuthClient) (currentToken : String) (w : World) :
    Except String Credentials × World :=
  let tokenURL := TrimSuffix c.config.Host "/" ++ TokenEndpoint
  let formData := ValuesSet (ValuesSet (ValuesSet []
    "grant_type" "urn:ietf:params:oauth:grant-type:token-exchange")
    "subject_token" currentToken)
    "subject_token_type" "urn:ietf:params:oauth:token-type:access_token"
  match NewRequest "POST" tokenURL (Body.form formData) w with
  | Except.error err => (Except.error ("failed to create request: " ++ err), w)
  | Except.ok req0 =>
    let req1 : Request :=
      { req0 with header := HeaderSet req0.header "Content-Type" "application/x-www-form-urlencoded" }
    let req : Request :=
      if c.config.Realm ≠ "" then
        { req1 with header := HeaderSet req1.header RealmHeaderName c.config.Realm }
      else req1
    match Do req w with
    | (Exchange.failed err, w1) =>
      (Except.error ("failed to connect to Polaris server: " ++ err), w1)
    | (Exchange.unreadable _ err, w1) =>
      (Except.error ("failed to read response: " ++ err), w1)
    | (Exchange.response status body, w1) =>
      if status ≠ StatusOK then
        match unmarshalOAuthError body with
        | (oauthErr, err) =>
          if err = none ∧ oauthErr.Error ≠ "" then
            (Except.error ("token refresh failed: " ++ oauthErr.Error ++ " - "
              ++ oauthErr.ErrorDescription), w1)
          else
            (Except.error ("token refresh failed with status " ++ toString status ++ ": "
              ++ body), w1)
      else
        match unmarshalTokenResponse body with
        | (_, some err) =>
          (Except.error ("failed to parse token response: " ++ err.Error), w1)
        | (tokenResp, none) =>
          if tokenResp.AccessToken = "" then
            (Except.error "received empty access token from server", w1)
          else
            let credentials : Credentials :=
              { AccessToken := tokenResp.AccessToken
                TokenType := tokenResp.TokenType
                ExpiresIn := tokenResp.ExpiresIn
                Scope := tokenResp.Scope
                ClientID := ""
                ClientSecret := "" }
            match LoadCredentials w1 with
            | Except.ok existingCreds =>
              (Except.ok { credentials with
                ClientID := existingCreds.ClientID
                ClientSecret := existingCreds.ClientSecret }, w1)
            | Except.error _ => (Except.ok credentials, w1)

def Logout (_c : AuthClient) (w : World) : Except String Unit × World :=
  ClearCredentials w

/-! ## Derived definitions and examples used in the statements -/

/-- The text `sub` occurs in `s` (`strings.Contains`). -/
def Contains (s sub : String) : Prop := List.IsInfix sub.toList s.toList

instance (s sub : String) : Decidable (Contains s sub) := by
  unfold Contains; infer_instance

/-- The URL of the token endpoint for a client (lines 48 and 107). -/
def tokenURL (c : AuthClient) : String := TrimSuffix c.config.Host "/" ++ TokenEndpoint

/-- The form values of `Login` (lines 50-54). -/
def loginForm (clientID clientSecret : String) : List (String × String) :=
  [("grant_type", "client_credentials"), ("client_id", clientID),
   ("client_secret", clientSecret), ("scope", DefaultScope)]

/-- The form values of `RefreshToken` (lines 109-112). -/
def refreshForm (currentToken : String) : List (String × String) :=
  [("grant_type", "urn:ietf:params:oauth:grant-type:token-exchange"),
   ("subject_token", currentToken),
   ("subject_token_type", "urn:ietf:params:oauth:token-type:access_token")]

/-- The request `Login` and `RefreshToken` hand to the transport for given
form values. -/
def tokenRequest (c : AuthClient) (formData : List (String × String)) : Request :=
  { method := "POST"
    url := tokenURL c
    header :=
      if c.config.Realm = "" then [("Content-Type", "application/x-www-form-urlencoded")]
      else [("Content-Type", "application/x-www-form-urlencoded"),
            (RealmHeaderName, c.config.Realm)]
    body := Body.form formData }

/-- What `Login` makes of an exchange (lines 66-103). -/
def loginReply (clientID clientSecret : String) (ex : Exchange) : Except String Credentials :=
  match ex with
  | Exchange.failed err => Except.error ("failed to connect to Polaris server: " ++ err)
  | Exchange.unreadable _ err => Except.error ("failed to read response: " ++ err)
  | Exchange.response status body =>
    if status ≠ StatusOK then
      if (unmarshalOAuthError body).2 = none ∧ (unmarshalOAuthError body).1.Error ≠ "" then
        Except.error ("authentication failed: " ++ (unmarshalOAuthError body).1.Error ++ " - "
          ++ (unmarshalOAuthError body).1.ErrorDescription)
      else
        Except.error ("authentication failed with status " ++ toString status ++ ": " ++ body)
    else
      match unmarshalTokenResponse body with
      | (_, some err) => Except.error ("failed to parse token response: " ++ err.Error)
      | (tokenResp, none) =>
        if tokenResp.AccessToken = "" then
          Except.error "received empty access token from server"
        else
          Except.ok
            { AccessToken := tokenResp.AccessToken
              TokenType := tokenResp.TokenType
              ExpiresIn := tokenResp.ExpiresIn
              Scope := tokenResp.Scope
              ClientID := clientID
              ClientSecret := clientSecret }

/-- What `RefreshToken` makes of an exchange, given the result of
`config.LoadCredentials()` (lines 124-166). -/
def refreshReply (existing : Except String Credentials) (ex : Exchange) :
    Except String Credentials :=
  match ex with
  | Exchange.failed err => Except.error ("failed to connect to Polaris server: " ++ err)
  | Exchange.unreadable _ err => Except.error ("failed to read response: " ++ err)
  | Exchange.response status body =>
    if status ≠ StatusOK then
      if (unmarshalOAuthError body).2 = none ∧ (unmarshalOAuthError body).1.Error ≠ "" then
        Except.error ("token refresh failed: " ++ (unmarshalOAuthError body).1.Error ++ " - "
          ++ (unmarshalOAuthError body).1.ErrorDescription)
      else
        Except.error ("token refresh failed with status " ++ toString status ++ ": " ++ body)
    else
      match unmarshalTokenResponse body with
      | (_, some err) => Except.error ("failed to parse token response: " ++ err.Error)
      | (tokenResp, none) =>
        if tokenResp.AccessToken = "" then
          Except.error "received empty access token from server"
        else
          match existing with
          | Except.ok existingCreds =>
            Except.ok
              { AccessToken := tokenResp.AccessToken
                TokenType := tokenResp.TokenType
                ExpiresIn := tokenResp.ExpiresIn
                Scope := tokenResp.Scope
                ClientID := existingCreds.ClientID
                ClientSecret := existingCreds.ClientSecret }
          | Except.error _ =>
            Except.ok
              { AccessToken := tokenResp.AccessToken
                TokenType := tokenResp.TokenType
                ExpiresIn := tokenResp.ExpiresIn
                Scope := tokenResp.Scope
                ClientID := ""
                ClientSecret := "" }

/-- A world with an empty file system, a resolvable home directory, a
network that answers every request with `ex`, no environment variables and
no terminal. -/
def mockWorld (ex : Exchange) : World :=
  { home := Except.ok "/home/u"
    fs := fun _ => Node.absent
    urlError := fun _ => none
    server := fun _ => ex
    sent := []
    env := fun _ => ""
    stdinLine := Except.error "EOF"
    password := Except.error "inappropriate ioctl for device"
    stdout := [] }

/-- A client configured with the default host and no realm. -/
def sampleClient : AuthClient := NewAuthClient { Host := "http://localhost:8181", Realm := "" }

/-- A token response as a server sends it. -/
def tokenBody : String :=
  "\x7b\"access_token\":\"abc\",\"token_type\":\"bearer\",\"expires_in\":3600,\"scope\":\"x\"\x7d"

/-- A token response whose `expires_in` is written as a string. -/
def stringExpiryBody : String :=
  "\x7b\"access_token\":\"abc\",\"expires_in\":\"3600\"\x7d"

/-- An OAuth error response. -/
def errorBody : String :=
  "\x7b\"error\":\"invalid_client\",\"error_description\":\"bad secret\"\x7d"

/-- The credentials file of the examples. -/
def storedCredentialsText : String :=
  "\x7b\"access_token\":\"old\",\"token_type\":\"bearer\",\"expires_in\":60,\"scope\":\"x\",\"client_id\":\"my-id\",\"client_secret\":\"my-secret\"\x7d"

/-- A world whose credentials file holds `storedCredentialsText` and whose
network answers every request with `ex`. -/
def storedWorld (ex : Exchange) : World :=
  (mockWorld ex).setNode ["/home/u", ".polaris-cli", "credentials.json"]
    (Node.file storedCredentialsText)

/-- A client whose configured host ends with a slash. -/
def slashClient : AuthClient := NewAuthClient { Host := "http://localhost:8181/", Realm := "" }

/-- A client configured with the default host and the realm "r". -/
def realmClient : AuthClient := NewAuthClient { Host := "http://localhost:8181", Realm := "r" }

/-- The path of the config file under a home directory. -/
def configPath (homeDir : String) : Path := Join (Join [homeDir] ConfigDirName) ConfigFileName

/-- The path of the credentials file under a home directory. -/
def credentialsPath (homeDir : String) : Path :=
  Join (Join [homeDir] ConfigDirName) CredentialsFileName

/-- A credential record of the examples. -/
def sampleCredentials : Credentials :=
  { AccessToken := "abc", TokenType := "bearer", ExpiresIn := 3600, Scope := "x",
    ClientID := "my-id", ClientSecret := "my-secret" }

/-- A config file that carries a catalog prefix beside host and realm. -/
def catalogConfigText : String :=
  "\x7b\"host\":\"http://h\",\"realm\":\"r\",\"catalog_prefix\":\"p\"\x7d"

/-- A world whose config file holds `catalogConfigText`. -/
def catalogConfigWorld : World :=
  (mockWorld (Exchange.failed "offline")).setNode (configPath "/home/u")
    (Node.file catalogConfigText)

/-! ## Examples for the config file -/

/-- A world with the given text in the config file under "/home/u". -/
def configFileWorld (data : String) : World :=
  (mockWorld (Exchange.failed "offline")).setNode (configPath "/home/u") (Node.file data)

/-- A config file whose realm is a number. -/
def numericRealmText : String := "\x7b\"host\":\"http://h\",\"realm\":5\x7d"

/-- A config file with a realm and no host. -/
def realmOnlyText : String := "\x7b\"realm\":\"r\"\x7d"

/-! ## pkg/api: the authenticated client -/

def ManagementAPIBase : String := "/api/management/v1"

def CatalogAPIBase : String := "/api/catalog/v1"

def PolarisAPIBase : String := "/polaris/v1"

/-- The constant `http.StatusUnauthorized`. -/
def StatusUnauthorized : Int := 401

/-- An `*http.Response` as the client uses it: the status code, and what
`io.ReadAll(resp.Body)` gives, the body or an error. -/
structure Response where
  StatusCode : Int
  Body : Except String String

/-- The record `Client`; the HTTP client it holds is the network of the
environment. -/
structure Client where
  config : Config
  token : String
deriving DecidableEq

def NewClient (w : World) : Except String Client :=
  match LoadConfig w with
  | Except.error err => Except.error ("failed to load config: " ++ err)
  | Except.ok cfg =>
    match GetAccessToken w with
    | Except.error err => Except.error err
    | Except.ok token => Except.ok { config := cfg, token := token }

def NewClientWithConfig (cfg : Config) (token : String) : Client :=
  { config := cfg, token := token }

/-- The message of `doRequest` for status 401. -/
def sessionExpired : String :=
  "unauthorized: your session has expired. Please run \x27polaris auth login\x27 again"

def Client.doRequest (c : Client) (method path : String) (body : Body) (w : World) :
    Except String Response × World :=
  let url := TrimSuffix c.config.Host "/" ++ path
  match NewRequest method url body w with
  | Except.error err => (Except.error ("failed to create request: " ++ err), w)
  | Except.ok req0 =>
    let req1 : Request :=
      { req0 with header := HeaderSet req0.header "Content-Type" "application/json" }
    let req2 : Request :=
      { req1 with header := HeaderSet req1.header "Authorization" ("Bearer " ++ c.token) }
    let req : Request :=
      if c.config.Realm ≠ "" then
        { req2 with header := HeaderSet req2.header RealmHeaderName c.config.Realm }
      else req2
    match Do req w with
    | (Exchange.failed err, w1) => (Except.error ("request failed: " ++ err), w1)
    | (Exchange.unreadable status err, w1) =>
      if status = StatusUnauthorized then (Except.error sessionExpired, w1)
      else (Except.ok { StatusCode := status, Body := Except.error err }, w1)
    | (Exchange.response status data, w1) =>
      if status = StatusUnauthorized then (Except.error sessionExpired, w1)
      else (Except.ok { StatusCode := status, Body := Except.ok data }, w1)

def Client.Get (c : Client) (path : String) (w : World) : Except String String × World :=
  match c.doRequest "GET" path Body.none w with
  | (Except.error err, w1) => (Except.error err, w1)
  | (Except.ok resp, w1) =>
    match resp.Body with
    | Except.error err => (Except.error ("failed to read response: " ++ err), w1)
    | Except.ok body =>
      if resp.StatusCode ≥ 400 then
        (Except.error ("request failed with status " ++ toString resp.StatusCode ++ ": "
          ++ body), w1)
      else (Except.ok body, w1)

def Client.Post (c : Client) (path : String) (body : Body) (w : World) :
    Except String String × World :=
  match c.doRequest "POST" path body w with
  | (Except.error err, w1) => (Except.error err, w1)
  | (Except.ok resp, w1) =>
    match resp.Body with
    | Except.error err => (Except.error ("failed to read response: " ++ err), w1)
    | Except.ok respBody =>
      if resp.StatusCode ≥ 400 then
        (Except.error ("request failed with status " ++ toString resp.StatusCode ++ ": "
          ++ respBody), w1)
      else (Except.ok respBody, w1)

def Client.Put (c : Client) (path : String) (body : Body) (w : World) :
    Except String String × World :=
  match c.doRequest "PUT" path body w with
  | (Except.error err, w1) => (Except.error err, w1)
  | (Except.ok resp, w1) =>
    match resp.Body with
    | Except.error err => (Except.error ("failed to read response: " ++ err), w1)
    | Except.ok respBody =>
      if resp.StatusCode ≥ 400 then
        (Except.error ("request failed with status " ++ toString resp.StatusCode ++ ": "
          ++ respBody), w1)
      else (Except.ok respBody, w1)

/-- In `Delete` the error of `io.ReadAll` is dropped (`body, _ :=`); a body
that cannot be read counts as empty. -/
def Client.Delete (c : Client) (path : String) (w : World) : Except String Unit × World :=
  match c.doRequest "DELETE" path Body.none w with
  | (Except.error err, w1) => (Except.error err, w1)
  | (Except.ok resp, w1) =>
    if resp.StatusCode ≥ 400 then
      let body := match resp.Body with
        | Except.ok data => data
        | Except.error _ => ""
      (Except.error ("request failed with status " ++ toString resp.StatusCode ++ ": "
        ++ body), w1)
    else (Except.ok (), w1)

def Client.GetConfig (c : Client) : Config := c.config

/-! ## cmd: the clients of the management and catalog commands -/

/-- What `newManagementClient` and `newCatalogClient` hand to the generated
constructor `NewClientWithResponses`: the base URL and the request editor
that the generated client applies to each request before sending it. -/
structure ClientSetup where
  baseURL : String
  editor : Request → Except String Request

/-- The request editor of `newManagementClient` (management.go 32-38). -/
def managementRequestEditor (cfg : Config) (token : String) (req : Request) :
    Except String Request :=
  let req1 : Request :=
    { req with header := HeaderSet req.header "Authorization" ("Bearer " ++ token) }
  let req2 : Request :=
    if cfg.Realm ≠ "" then
      { req1 with header := HeaderSet req1.header RealmHeaderName cfg.Realm }
    else req1
  Except.ok req2

/-- The request editor of `newCatalogClient` (catalog.go 45-51). -/
def catalogRequestEditor (cfg : Config) (token : String) (req : Request) :
    Except String Request :=
  let req1 : Request :=
    { req with header := HeaderSet req.header "Authorization" ("Bearer " ++ token) }
  let req2 : Request :=
    if cfg.Realm ≠ "" then
      { req1 with header := HeaderSet req1.header RealmHeaderName cfg.Realm }
    else req1
  Except.ok req2

def newManagementClient (w : World) : Except String (ClientSetup × Config) :=
  match LoadConfig w with
  | Except.error err => Except.error ("failed to load config: " ++ err)
  | Except.ok cfg =>
    match GetAccessToken w with
    | Except.error err => Except.error err
    | Except.ok token =>
      let baseURL := TrimSuffix cfg.Host "/" ++ "/api/management/v1"
      Except.ok ({ baseURL := baseURL, editor := managementRequestEditor cfg token }, cfg)

def newCatalogClient (w : World) : Except String (ClientSetup × Config) :=
  match LoadConfig w with
  | Except.error err => Except.error ("failed to load config: " ++ err)
  | Except.ok cfg =>
    match GetAccessToken w with
    | Except.error err => Except.error err
    | Except.ok token =>
      let baseURL := TrimSuffix cfg.Host "/" ++ "/api/catalog"
      Except.ok ({ baseURL := baseURL, editor := catalogRequestEditor cfg token }, cfg)

/-- The request `doRequest` hands to the transport. -/
def clientRequest (c : Client) (method path : String) (body : Body) : Request :=
  { method := if method = "" then "GET" else method
    url := TrimSuffix c.config.Host "/" ++ path
    header :=
      if c.config.Realm = "" then
        [("Content-Type", "application/json"), ("Authorization", "Bearer " ++ c.token)]
      else
        [("Content-Type", "application/json"), ("Authorization", "Bearer " ++ c.token),
         (RealmHeaderName, c.config.Realm)]
    body := body }

/-- What `doRequest` makes of an exchange (client.go 71-81). -/
def doRequestReply (ex : Exchange) : Except String Response :=
  match ex with
  | Exchange.failed err => Except.error ("request failed: " ++ err)
  | Exchange.unreadable status err =>
    if status = StatusUnauthorized then Except.error sessionExpired
    else Except.ok { StatusCode := status, Body := Except.error err }
  | Exchange.response status data =>
    if status = StatusUnauthorized then Except.error sessionExpired
    else Except.ok { StatusCode := status, Body := Except.ok data }

/-- A client of the examples: default host, realm "r", token "tok". -/
def tokenClient : Client :=
  NewClientWithConfig { Host := "http://localhost:8181", Realm := "r" } "tok"

/-- The rule by which the authenticated client maps a response to its
result: 401 gives the fixed message, any other status from 400 gives a
message with the status and the body, a status below 400 gives `value`. -/
def StatusRule {α : Type} (r : Except String α) (status : Int) (data : String) (value : α) :
    Prop :=
  (status = 401 → r = Except.error sessionExpired) ∧
  (status ≥ 400 → status ≠ 401 →
    ∃ msg, r = Except.error msg ∧ Contains msg (toString status) ∧ Contains msg data) ∧
  (status < 400 → r = Except.ok value)

/-! ## unicode and strings -/

/-- The case tables of the package `unicode` for the characters above
ASCII (`unicode.To(LowerCase, r)` and `unicode.To(UpperCase, r)`): data of
the library, taken as a parameter. -/
structure CaseTables where
  lower : Char → Char
  upper : Char → Char

/-- Case tables that leave every character above ASCII as it is. -/
def asciiCase : CaseTables := { lower := fun c => c, upper := fun c => c }

namespace unicode

/-- The function `unicode.IsSpace`: the characters with the property
White_Space. -/
def IsSpace (c : Char) : Bool :=
  let n := c.toNat
  (0x09 ≤ n && n ≤ 0x0D) || n == 0x20 || n == 0x85 || n == 0xA0 || n == 0x1680 ||
    (0x2000 ≤ n && n ≤ 0x200A) || n == 0x2028 || n == 0x2029 || n == 0x202F ||
    n == 0x205F || n == 0x3000

/-- The function `unicode.ToLower`. -/
def ToLower (u : CaseTables) (r : Char) : Char :=
  if r.toNat ≤ 0x7F then
    if 'A' ≤ r ∧ r ≤ 'Z' then Char.ofNat (r.toNat + 32) else r
  else u.lower r

/-- The function `unicode.ToUpper`. -/
def ToUpper (u : CaseTables) (r : Char) : Char :=
  if r.toNat ≤ 0x7F then
    if 'a' ≤ r ∧ r ≤ 'z' then Char.ofNat (r.toNat - 32) else r
  else u.upper r

end unicode

/-- Applying the case mappings twice changes nothing more, as is the case
for the tables of Unicode. -/
def CaseTables.Idempotent (u : CaseTables) : Prop :=
  (∀ c, unicode.ToLower u (unicode.ToLower u c) = unicode.ToLower u c) ∧
  (∀ c, unicode.ToUpper u (unicode.ToUpper u c) = unicode.ToUpper u c)

namespace strings

/-- The function `strings.ToLower`. -/
def ToLower (u : CaseTables) (s : String) : String :=
  String.mk (s.toList.map (unicode.ToLower u))

/-- The function `strings.ToUpper`. -/
def ToUpper (u : CaseTables) (s : String) : String :=
  String.mk (s.toList.map (unicode.ToUpper u))

/-- The function `strings.TrimSpace`. -/
def TrimSpace (s : String) : String :=
  String.mk ((s.toList.dropWhile unicode.IsSpace).reverse.dropWhile unicode.IsSpace).reverse

/-- Whether `sub` occurs in the text. -/
def containsAux (sub : List Char) : List Char → Bool
  | [] => sub.isEmpty
  | c :: cs => sub.isPrefixOf (c :: cs) || containsAux sub cs

/-- The function `strings.Contains`. -/
def Contains (s substr : String) : Bool := containsAux substr.toList s.toList

/-- Replace the occurrences of a non-empty `old`, left to right and without
overlap; the fuel bounds the steps and is the length of the text. -/
def replaceAux (old new : List Char) : Nat → List Char → List Char
  | 0, cs => cs
  | _ + 1, [] => []
  | n + 1, c :: cs =>
    if old.isPrefixOf (c :: cs) then new ++ replaceAux old new n ((c :: cs).drop old.length)
    else c :: replaceAux old new n cs

/-- The function `strings.ReplaceAll`; an empty `old` matches before every
character and at the end. -/
def ReplaceAll (s old new : String) : String :=
  if old.toList.isEmpty then
    String.mk (s.toList.flatMap (fun c => new.toList ++ [c]) ++ new.toList)
  else String.mk (replaceAux old.toList new.toList s.toList.length s.toList)

/-- Split around the occurrences of a non-empty separator; `cur` is the part
being read, reversed; the fuel bounds the steps and is the length of the
text. -/
def splitAux (sep : List Char) : Nat → List Char → List Char → List (List Char)
  | 0, cur, cs => [cur.reverse ++ cs]
  | _ + 1, cur, [] => [cur.reverse]
  | n + 1, cur, c :: cs =>
    if sep.isPrefixOf (c :: cs) then
      cur.reverse :: splitAux sep n [] ((c :: cs).drop sep.length)
    else splitAux sep n (c :: cur) cs

/-- The function `strings.Split`; an empty separator splits after each
character. -/
def Split (s sep : String) : List String :=
  if sep.toList.isEmpty then s.toList.map (fun c => String.mk [c])
  else (splitAux sep.toList s.toList.length [] s.toList).map String.mk

/-- The function `strings.Join`. -/
def Join (elems : List String) (sep : String) : String :=
  String.mk (sep.toList.intercalate (elems.map String.toList))

end strings

/-! ## cmd: namespace arguments and grants -/

def parseNamespaceArg (input : String) : Except String (List String) :=
  let trimmed := strings.TrimSpace input
  if trimmed = "" then Except.error "namespace is required"
  else if strings.Contains trimmed "\x1f" then Except.ok (strings.Split trimmed "\x1f")
  else if strings.Contains trimmed "%1F" then
    let decoded := strings.ReplaceAll trimmed "%1F" "\x1f"
    Except.ok (strings.Split decoded "\x1f")
  else if strings.Contains trimmed "/" then Except.ok (strings.Split trimmed "/")
  else Except.ok (strings.Split trimmed ".")

def namespacePath (parts : List String) : String := strings.Join parts "\x1f"

def formatNamespace (parts : List String) : String := strings.Join parts "."

/-- The record `CatalogGrant`; the field `Type` is written `Type_`. -/
structure CatalogGrant where
  Type_ : String
  Privilege : String
deriving DecidableEq

/-- The record `NamespaceGrant`. -/
structure NamespaceGrant where
  Type_ : String
  Namespace : List String
  Privilege : String
deriving DecidableEq

/-- The record `TableGrant`. -/
structure TableGrant where
  Type_ : String
  Namespace : List String
  TableName : String
  Privilege : String
deriving DecidableEq

/-- The record `ViewGrant`. -/
structure ViewGrant where
  Type_ : String
  Namespace : List String
  ViewName : String
  Privilege : String
deriving DecidableEq

/-- The grant object that `constructGrant` returns as `interface{}`: one of
the four records. -/
inductive Grant where
  | ofCatalog (g : CatalogGrant)
  | ofNamespace (g : NamespaceGrant)
  | ofTable (g : TableGrant)
  | ofView (g : ViewGrant)
deriving DecidableEq

/-- The `Type` field of a grant object. -/
def Grant.Type_ : Grant → String
  | Grant.ofCatalog g => g.Type_
  | Grant.ofNamespace g => g.Type_
  | Grant.ofTable g => g.Type_
  | Grant.ofView g => g.Type_

/-- The `Privilege` field of a grant object. -/
def Grant.Privilege : Grant → String
  | Grant.ofCatalog g => g.Privilege
  | Grant.ofNamespace g => g.Privilege
  | Grant.ofTable g => g.Privilege
  | Grant.ofView g => g.Privilege

/-- The function `constructGrant`; `u` stands for the case tables of the
package `unicode`, which `strings.ToLower` and `strings.ToUpper` consult. -/
def constructGrant (u : CaseTables) (typ priv nsStr table view : String) :
    Except String Grant :=
  let typ1 := strings.ToLower u typ
  let priv1 := strings.ToUpper u priv
  let nsResult : Except String (List String) :=
    if nsStr ≠ "" then parseNamespaceArg nsStr else Except.ok []
  match nsResult with
  | Except.error err => Except.error err
  | Except.ok ns =>
    if typ1 = "catalog" then
      Except.ok (Grant.ofCatalog { Type_ := "catalog", Privilege := priv1 })
    else if typ1 = "namespace" then
      if ns.length = 0 then Except.error "namespace is required for namespace grant"
      else Except.ok (Grant.ofNamespace
        { Type_ := "namespace", Namespace := ns, Privilege := priv1 })
    else if typ1 = "table" then
      if ns.length = 0 then Except.error "namespace is required for table grant"
      else if table = "" then Except.error "table is required for table grant"
      else Except.ok (Grant.ofTable
        { Type_ := "table", Namespace := ns, TableName := table, Privilege := priv1 })
    else if typ1 = "view" then
      if ns.length = 0 then Except.error "namespace is required for view grant"
      else if view = "" then Except.error "view is required for view grant"
      else Except.ok (Grant.ofView
        { Type_ := "view", Namespace := ns, ViewName := view, Privilege := priv1 })
    else
      Except.error ("invalid grant type: " ++ typ1
        ++ " (expected catalog, namespace, table, view)")

/-! ## Terminal output -/

/-- The bytes of a Go string: the UTF-8 encoding of the text. -/
def bytes (s : String) : List Nat :=
  s.toList.flatMap (fun c => (String.utf8EncodeChar c).map UInt8.toNat)

/-- Write bytes to the standard output. -/
def PrintBytes (data : List Nat) (w : World) : World :=
  { w with stdout := w.stdout ++ [data] }

/-- The functions `fmt.Print`, `fmt.Println` and `fmt.Printf`, given the
text they format. -/
def Print (text : String) (w : World) : World := PrintBytes (bytes text) w

/-! ## cmd: the config as the commands use it -/

/-- The field `CatalogPrefix` that the commands select on a `Config`: `get`
is the selector `cfg.CatalogPrefix` and `set` the assignment
`cfg.CatalogPrefix = value`.  The record `Config` (config.go 16-19) declares
host and realm only, so the selector and the assignment are parameters of the
functions that use them. -/
structure CatalogPrefixField where
  get : Config → String
  set : Config → String → Config

/-- The function `resolveCatalogPrefix`; `catalogPrefix` is the package
variable bound to the flag `--prefix`. -/
def resolveCatalogPrefix (fld : CatalogPrefixField) (catalogPrefix : String) (cfg : Config) :
    Except String String :=
  if catalogPrefix ≠ "" then Except.ok catalogPrefix
  else if fld.get cfg ≠ "" then Except.ok (fld.get cfg)
  else Except.error
    "catalog prefix is required. Use --prefix or set --catalog-prefix in config"

/-- The flags of `config set`: the package variables bound to `--host`,
`--realm` and `--catalog-prefix`, and what `cmd.Flags().Changed` answers for
the last two. -/
structure ConfigSetFlags where
  configHost : String
  configRealm : String
  configCatalogPrefix : String
  realmChanged : Bool
  catalogPrefixChanged : Bool
deriving DecidableEq

/-- The function `runConfigSet`. -/
def runConfigSet (fld : CatalogPrefixField) (flags : ConfigSetFlags) (w : World) :
    Except String Unit × World :=
  let cfg0 : Config := match LoadConfig w with
    | Except.error _ => Config.zero
    | Except.ok c => c
  let cfg1 : Config :=
    if flags.configHost ≠ "" then { cfg0 with Host := flags.configHost } else cfg0
  let cfg2 : Config :=
    if flags.realmChanged then { cfg1 with Realm := flags.configRealm } else cfg1
  let cfg : Config :=
    if flags.catalogPrefixChanged then fld.set cfg2 flags.configCatalogPrefix else cfg2
  if cfg.Host = "" then
    (Except.error "host is required. Use --host to set the Polaris server URL", w)
  else
    match SaveConfig cfg w with
    | (Except.error err, w1) => (Except.error ("failed to save config: " ++ err), w1)
    | (Except.ok _, w1) =>
      let w2 := Print "✓ Configuration saved!\n" w1
      let w3 := Print ("  Host: " ++ cfg.Host ++ "\n") w2
      let w4 := if cfg.Realm ≠ "" then Print ("  Realm: " ++ cfg.Realm ++ "\n") w3 else w3
      let w5 :=
        if fld.get cfg ≠ "" then Print ("  Catalog Prefix: " ++ fld.get cfg ++ "\n") w4
        else w4
      (Except.ok (), w5)

/-- The config that `config set` starts from: the loaded one, or the zero
config when loading fails. -/
def storedConfig (w : World) : Config :=
  match LoadConfig w with
  | Except.error _ => Config.zero
  | Except.ok c => c

/-- The host and the realm that `config set` is to save, in the words of
the specification: the flag value where the invocation names it and the stored
value otherwise. -/
def mergedConfig (c : Config) (flags : ConfigSetFlags) : Config :=
  { Host := if flags.configHost ≠ "" then flags.configHost else c.Host
    Realm := if flags.realmChanged then flags.configRealm else c.Realm }

/-- The config that `runConfigSet` hands to `SaveConfig`. -/
def configToSave (fld : CatalogPrefixField) (flags : ConfigSetFlags) (w : World) : Config :=
  if flags.catalogPrefixChanged then
    fld.set (mergedConfig (storedConfig w) flags) flags.configCatalogPrefix
  else mergedConfig (storedConfig w) flags

/-- What a catalog command resolves as its prefix: it loads the config and
calls `resolveCatalogPrefix` on it. -/
def loadedCatalogPrefix (fld : CatalogPrefixField) (catalogPrefix : String) (w : World) :
    Except String String :=
  match LoadConfig w with
  | Except.error err => Except.error err
  | Except.ok cfg => resolveCatalogPrefix fld catalogPrefix cfg

/-- The field for a record with no place to hold it: the selector gives the
empty text and the assignment leaves the record as it is. -/
def droppedCatalogPrefix : CatalogPrefixField :=
  { get := fun _ => "", set := fun c _ => c }

/-- The flags of the example:
`config set --host http://h --realm r --catalog-prefix p`. -/
def sampleSetFlags : ConfigSetFlags :=
  { configHost := "http://h", configRealm := "r", configCatalogPrefix := "p",
    realmChanged := true, catalogPrefixChanged := true }

/-- A config file with host and realm and no catalog prefix. -/
def plainConfigText : String := "\x7b\"host\":\"http://h\",\"realm\":\"r\"\x7d"

/-- A credentials file whose `expires_in` is negative. -/
def expiredCredentialsText : String :=
  "\x7b\"access_token\":\"old\",\"token_type\":\"bearer\",\"expires_in\":-5,\"scope\":\"x\",\"client_id\":\"my-id\",\"client_secret\":\"my-secret\"\x7d"

/-- A world whose credentials file holds `expiredCredentialsText`. -/
def expiredWorld (ex : Exchange) : World :=
  (mockWorld ex).setNode ["/home/u", ".polaris-cli", "credentials.json"]
    (Node.file expiredCredentialsText)

/-! ## cmd/auth.go -/

/-- The slice expression `s[lo:hi]` on the bytes of a string; `none` is the
run-time panic of an index out of range. -/
def slice (s : List Nat) (lo hi : Int) : Option (List Nat) :=
  if 0 ≤ lo ∧ lo ≤ hi ∧ hi ≤ (s.length : Int) then
    some ((s.drop lo.toNat).take (hi.toNat - lo.toNat))
  else none

/-- The text of a run-time panic for a slice out of range, given as the
error of the command. -/
def slicePanic : String := "panic: runtime error: slice bounds out of range"

/-- The function `runLogin`; `clientID` and `clientSecret` are the package
variables bound to the flags `--client-id` and `--client-secret`. -/
def runLogin (clientID clientSecret : String) (w : World) : Except String Unit × World :=
  match LoadConfig w with
  | Except.error err => (Except.error ("failed to load config: " ++ err), w)
  | Except.ok cfg =>
    if cfg.Host = "" then
      (Except.error
        "Polaris host not configured. Run \x27polaris config set --host <url>\x27 first", w)
    else
      let id0 := if clientID = "" then w.env "POLARIS_CLIENT_ID" else clientID
      let idRead : Except String String × World :=
        if id0 = "" then
          let w1 := Print "Client ID: " w
          match w1.stdinLine with
          | Except.error err => (Except.error ("failed to read client ID: " ++ err), w1)
          | Except.ok line => (Except.ok (strings.TrimSpace line), w1)
        else (Except.ok id0, w)
      match idRead with
      | (Except.error err, w1) => (Except.error err, w1)
      | (Except.ok id, w1) =>
        if id = "" then (Except.error "client ID is required", w1)
        else
          let secret0 :=
            if clientSecret = "" then w1.env "POLARIS_CLIENT_SECRET" else clientSecret
          let secretRead : Except String String × World :=
            if secret0 = "" then
              let w2 := Print "Client Secret: " w1
              match w2.password with
              | Except.error err =>
                (Except.error ("failed to read client secret: " ++ err), w2)
              | Except.ok secretBytes => (Except.ok secretBytes, Print "\n" w2)
            else (Except.ok secret0, w1)
          match secretRead with
          | (Except.error err, w2) => (Except.error err, w2)
          | (Except.ok secret, w2) =>
            if secret = "" then (Except.error "client secret is required", w2)
            else
              let w3 := Print ("Authenticating with " ++ cfg.Host ++ "...\n") w2
              match Login (NewAuthClient cfg) id secret w3 with
              | (Except.error err, w4) =>
                (Except.error ("authentication failed: " ++ err), w4)
              | (Except.ok credentials, w4) =>
                match SaveCredentials credentials w4 with
                | (Except.error err, w5) =>
                  (Except.error ("failed to save credentials: " ++ err), w5)
                | (Except.ok _, w5) =>
                  let w6 := Print "✓ Successfully authenticated!\n" w5
                  let w7 :=
                    if credentials.ExpiresIn > 0 then
                      Print ("  Token expires in: " ++ toString credentials.ExpiresIn
                        ++ " seconds\n") w6
                    else w6
                  let w8 :=
                    if credentials.Scope ≠ "" then
                      Print ("  Scope: " ++ credentials.Scope ++ "\n") w7
                    else w7
                  (Except.ok (), w8)

/-- The function `runStatus`. -/
def runStatus (w : World) : Except String Unit × World :=
  match LoadConfig w with
  | Except.error err => (Except.error ("failed to load config: " ++ err), w)
  | Except.ok cfg =>
    let w1 := Print ("Host: " ++ cfg.Host ++ "\n") w
    let w2 := if cfg.Realm ≠ "" then Print ("Realm: " ++ cfg.Realm ++ "\n") w1 else w1
    match LoadCredentials w2 with
    | Except.error _ =>
      let w3 := Print "Status: Not authenticated\n" w2
      let w4 := Print "\nRun \x27polaris auth login\x27 to authenticate.\n" w3
      (Except.ok (), w4)
    | Except.ok creds =>
      let w3 := Print "Status: Authenticated ✓\n" w2
      let w4 :=
        if creds.TokenType ≠ "" then Print ("Token Type: " ++ creds.TokenType ++ "\n") w3
        else w3
      let w5 := if creds.Scope ≠ "" then Print ("Scope: " ++ creds.Scope ++ "\n") w4 else w4
      let w6 :=
        if creds.ClientID ≠ "" then Print ("Client ID: " ++ creds.ClientID ++ "\n") w5 else w5
      let token := bytes creds.AccessToken
      if token.length > 20 then
        match slice token 0 10, slice token ((token.length : Int) - 5) token.length with
        | some head, some tail =>
          (Except.ok (),
            PrintBytes (bytes "Access Token: " ++ head ++ bytes "..." ++ tail ++ bytes "\n") w6)
        | _, _ => (Except.error slicePanic, w6)
      else (Except.ok (), w6)

/-- The client id as the specification resolves it: the flag, else the
environment variable, else the trimmed line read at the prompt. -/
def resolvedClientID (clientID : String) (w : World) : Except String String :=
  if clientID ≠ "" then Except.ok clientID
  else if w.env "POLARIS_CLIENT_ID" ≠ "" then Except.ok (w.env "POLARIS_CLIENT_ID")
  else
    match w.stdinLine with
    | Except.error err => Except.error ("failed to read client ID: " ++ err)
    | Except.ok line => Except.ok (strings.TrimSpace line)

/-- The client secret as the specification resolves it: the flag, else the
environment variable, else the text read at the password prompt. -/
def resolvedClientSecret (clientSecret : String) (w : World) : Except String String :=
  if clientSecret ≠ "" then Except.ok clientSecret
  else if w.env "POLARIS_CLIENT_SECRET" ≠ "" then Except.ok (w.env "POLARIS_CLIENT_SECRET")
  else
    match w.password with
    | Except.error err => Except.error ("failed to read client secret: " ++ err)
    | Except.ok secret => Except.ok secret

/-- What `auth status` prints before the access token line. -/
def statusLines (cfg : Config) (creds : Credentials) : List (List Nat) :=
  [bytes ("Host: " ++ cfg.Host ++ "\n")]
    ++ (if cfg.Realm ≠ "" then [bytes ("Realm: " ++ cfg.Realm ++ "\n")] else [])
    ++ [bytes "Status: Authenticated ✓\n"]
    ++ (if creds.TokenType ≠ "" then [bytes ("Token Type: " ++ creds.TokenType ++ "\n")]
        else [])
    ++ (if creds.Scope ≠ "" then [bytes ("Scope: " ++ creds.Scope ++ "\n")] else [])
    ++ (if creds.ClientID ≠ "" then [bytes ("Client ID: " ++ creds.ClientID ++ "\n")] else [])

/-- A credentials file with no access token. -/
def emptyCredentialsText : String := "\x7b\x7d"

/-- A world whose credentials file holds `emptyCredentialsText`. -/
def emptyTokenWorld : World :=
  (mockWorld (Exchange.failed "offline")).setNode (credentialsPath "/home/u")
    (Node.file emptyCredentialsText)

/-- A credentials file whose access token has 26 bytes. -/
def longTokenText : String :=
  "\x7b\"access_token\":\"abcdefghijklmnopqrstuvwxyz\",\"token_type\":\"bearer\"\x7d"

/-- A world whose credentials file holds `longTokenText`. -/
def longTokenWorld : World :=
  (mockWorld (Exchange.failed "offline")).setNode (credentialsPath "/home/u")
    (Node.file longTokenText)

/-- A world with no config file where the two environment variables of the
login are set. -/
def envWorld : World :=
  { mockWorld (Exchange.failed "offline") with
    env := fun name =>
      if name = "POLARIS_CLIENT_ID" then "env-id"
      else if name = "POLARIS_CLIENT_SECRET" then "env-secret"
      else "" }

/-! ## cmd: properties -/

/-- The function `explode` of the package `strings`, for a positive count:
the characters one by one, the last piece holding the rest. -/
def strings.explode : Nat → List Char → List (List Char)
  | _, [] => []
  | 0, _ => []
  | 1, cs => [cs]
  | k + 2, c :: cs => [c] :: strings.explode (k + 1) cs

/-- The loop of `genSplit` for a positive count `k` of pieces; the first
argument bounds the number of steps. -/
def strings.splitNAux (sep : List Char) : Nat → Nat → List Char → List Char → List (List Char)
  | 0, _, cur, cs => [cur.reverse ++ cs]
  | _ + 1, _, cur, [] => [cur.reverse]
  | f + 1, k, cur, c :: cs =>
    if k ≤ 1 then [cur.reverse ++ c :: cs]
    else if sep.isPrefixOf (c :: cs) then
      cur.reverse :: strings.splitNAux sep f (k - 1) [] ((c :: cs).drop sep.length)
    else strings.splitNAux sep f k (c :: cur) cs

/-- The function `strings.SplitN`. -/
def strings.SplitN (s sep : String) (n : Int) : List String :=
  if n = 0 then []
  else if n < 0 then strings.Split s sep
  else if sep.toList.isEmpty then (strings.explode n.toNat s.toList).map String.mk
  else (strings.splitNAux sep.toList s.toList.length n.toNat [] s.toList).map String.mk

/-- A Go map from strings to strings, as the list of its bindings; the
binding of a key is the last one of the list with that key. -/
abbrev Map : Type := List (String × String)

/-- The assignment `m[key] = value`. -/
def MapSet (m : Map) (key value : String) : Map :=
  m.filter (fun kv => kv.1 != key) ++ [(key, value)]

/-- The lookup `m[key]`, `none` when the key is not in the map. -/
def MapGet (m : Map) (key : String) : Option String :=
  m.foldl (fun acc kv => if kv.1 = key then some kv.2 else acc) none

/-- The loop of `parseProperties` over the pairs, `props` being the map
built so far. -/
def parsePropertiesLoop (q : String → String) : List String → Map → Except String Map
  | [], props => Except.ok props
  | pair :: rest, props =>
    let kv := strings.SplitN pair "=" 2
    if kv.length ≠ 2 ∨ strings.TrimSpace (kv.getD 0 "") = "" then
      Except.error ("invalid property " ++ q pair ++ " (expected key=value)")
    else
      parsePropertiesLoop q rest (MapSet props (strings.TrimSpace (kv.getD 0 "")) (kv.getD 1 ""))

/-- The function `parseProperties`; `q` is the formatting verb `%q`
(`strconv.Quote`), and the nil map is the empty map. -/
def parseProperties (q : String → String) (pairs : List String) : Except String Map :=
  if pairs.length = 0 then Except.ok []
  else parsePropertiesLoop q pairs []

/-- The text of a pair before its first `=`. -/
def keyText (pair : String) : String := String.mk (pair.toList.takeWhile (fun c => c != '='))

/-- The text of a pair after its first `=`. -/
def valueText (pair : String) : String :=
  String.mk ((pair.toList.dropWhile (fun c => c != '=')).drop 1)

/-- A pair that `parseProperties` accepts, in the words of the
specification: it has a `=` and the text before the first one is not blank. -/
def validPair (pair : String) : Bool :=
  decide ('=' ∈ pair.toList) && !(keyText pair).toList.all unicode.IsSpace

/-! ## cmd/principals.go -/

/-- Modelled from the spec: the record `Principal` of the generated package
`managementapi`, which is not part of the sources, with the members that the
update reads. -/
structure Principal where
  Name : String
  EntityVersion : Option Int
  Properties : Option Map

/-- Modelled from the spec: the record `UpdatePrincipalRequest` of the
generated package. -/
structure UpdatePrincipalRequest where
  CurrentEntityVersion : Int
  Properties : Map

/-- Modelled from the spec: the response of the generated calls
`GetPrincipalWithResponse` and `UpdatePrincipalWithResponse`, with the
member `JSON200` and the method `Status`. -/
structure PrincipalResponse where
  JSON200 : Option Principal
  Status : String

/-- The two calls of the generated management client that the update
makes. -/
structure ManagementClient where
  GetPrincipalWithResponse : String → World → Except String PrincipalResponse × World
  UpdatePrincipalWithResponse :
    String → UpdatePrincipalRequest → World → Except String PrincipalResponse × World

/-- The function `runPrincipalsUpdate`; `principalName` and
`principalProperties` are the package variables bound to `--name` and
`--property`, and `gen` is the generated constructor
`NewClientWithResponses`. -/
def runPrincipalsUpdate (q : String → String) (gen : ClientSetup → ManagementClient)
    (principalName : String) (principalProperties : List String) (w : World) :
    Except String Unit × World :=
  if principalName = "" then (Except.error "--name is required", w)
  else
    match parseProperties q principalProperties with
    | Except.error err => (Except.error err, w)
    | Except.ok props =>
      match newManagementClient w with
      | Except.error err => (Except.error err, w)
      | Except.ok (setup, _) =>
        let client := gen setup
        match client.GetPrincipalWithResponse principalName w with
        | (Except.error err, w1) => (Except.error err, w1)
        | (Except.ok getResp, w1) =>
          match getResp.JSON200 with
          | none => (Except.error ("failed to fetch principal: " ++ getResp.Status), w1)
          | some current =>
            match current.EntityVersion with
            | none => (Except.error "principal has no entity version", w1)
            | some version =>
              let updatedProps0 : Map := []
              let updatedProps1 : Map :=
                match current.Properties with
                | some properties =>
                  properties.foldl (fun m kv => MapSet m kv.1 kv.2) updatedProps0
                | none => updatedProps0
              let updatedProps : Map :=
                props.foldl (fun m kv => MapSet m kv.1 kv.2) updatedProps1
              let req : UpdatePrincipalRequest :=
                { CurrentEntityVersion := version, Properties := updatedProps }
              match client.UpdatePrincipalWithResponse principalName req w1 with
              | (Except.error err, w2) => (Except.error err, w2)
              | (Except.ok resp, w2) =>
                match resp.JSON200 with
                | none => (Except.error ("request failed: " ++ resp.Status), w2)
                | some _ =>
                  (Except.ok (), Print ("Updated principal " ++ principalName ++ "\n") w2)

/-- A principal of the examples, with entity version 3 and two
properties. -/
def samplePrincipal : Principal :=
  { Name := "p", EntityVersion := some 3, Properties := some [("a", "1"), ("b", "2")] }

/-- A management client of the examples: the fetch answers with
`samplePrincipal`, the update answers with the principal carrying the
properties of the request. -/
def sampleManagement (_setup : ClientSetup) : ManagementClient :=
  { GetPrincipalWithResponse := fun _ w =>
      (Except.ok { JSON200 := some samplePrincipal, Status := "200 OK" }, w)
    UpdatePrincipalWithResponse := fun name req w =>
      (Except.ok
        { JSON200 := some
            { Name := name, EntityVersion := some (req.CurrentEntityVersion + 1),
              Properties := some req.Properties },
          Status := "200 OK" }, w) }

/-! ## Counting separators -/

/-- Count the occurrences of a non-empty `sub`, left to right and without
overlap; the fuel bounds the steps and is the length of the text. -/
def strings.countAux (sub : List Char) : Nat → List Char → Nat
  | 0, _ => 0
  | _ + 1, [] => 0
  | n + 1, c :: cs =>
    if sub.isPrefixOf (c :: cs) then 1 + strings.countAux sub n ((c :: cs).drop sub.length)
    else strings.countAux sub n cs

/-- The function `strings.Count`; the empty text is counted before every
character and at the end. -/
def strings.Count (s substr : String) : Nat :=
  if substr.toList.isEmpty then s.toList.length + 1
  else strings.countAux substr.toList s.toList.length s.toList

/-- The separator that `parseNamespaceArg` chooses for a trimmed input, in
the words of the specification: the unit separator, else "%1F", else '/',
else '.'. -/
def chosenSeparator (trimmed : String) : String :=
  if strings.Contains trimmed "\x1f" then "\x1f"
  else if strings.Contains trimmed "%1F" then "%1F"
  else if strings.Contains trimmed "/" then "/"
  else "."

/-! ## Lemmas and the claims -/

theorem NewRequest_POST (url : String) (body : Body) (w : World) :
    NewRequest "POST" url body w =
      match w.urlError url with
      | some err => Except.error err
      | none => Except.ok { method := "POST", url := url, header := [], body := body } := by
  have h1 : ("POST" = "") = False := by decide
  have h2 : validMethod "POST" = true := by decide
  simp only [NewRequest, h1, if_false, h2, Bool.true_eq_false]

theorem loginForm_eq (clientID clientSecret : String) :
    ValuesSet (ValuesSet (ValuesSet (ValuesSet []
      "grant_type" "client_credentials") "client_id" clientID)
      "client_secret" clientSecret) "scope" DefaultScope = loginForm clientID clientSecret := by
  simp [ValuesSet, loginForm]

theorem refreshForm_eq (currentToken : String) :
    ValuesSet (ValuesSet (ValuesSet []
      "grant_type" "urn:ietf:params:oauth:grant-type:token-exchange")
      "subject_token" currentToken)
      "subject_token_type" "urn:ietf:params:oauth:token-type:access_token"
      = refreshForm currentToken := by
  simp [ValuesSet, refreshForm]

theorem Login_eq (c : AuthClient) (clientID clientSecret : String) (w : World)
    (hurl : w.urlError (tokenURL c) = none) :
    Login c clientID clientSecret w =
      (loginReply clientID clientSecret (w.server (tokenRequest c (loginForm clientID clientSecret))),
       { w with sent := w.sent ++ [tokenRequest c (loginForm clientID clientSecret)] }) := by
  have hreq : (if c.config.Realm ≠ "" then
        ({ method := "POST", url := tokenURL c,
           header := HeaderSet (HeaderSet [] "Content-Type" "application/x-www-form-urlencoded")
              RealmHeaderName c.config.Realm,
           body := Body.form (loginForm clientID clientSecret) } : Request)
      else
        { method := "POST", url := tokenURL c,
          header := HeaderSet [] "Content-Type" "application/x-www-form-urlencoded",
          body := Body.form (loginForm clientID clientSecret) })
      = tokenRequest c (loginForm clientID clientSecret) := by
    by_cases h : c.config.Realm = "" <;> simp [h, tokenRequest, HeaderSet, RealmHeaderName]
  unfold Login
  simp only [loginForm_eq, NewRequest_POST]
  rw [show TrimSuffix c.config.Host "/" ++ TokenEndpoint = tokenURL c from rfl, hurl]
  simp only [hreq, Do]
  cases hex : w.server (tokenRequest c (loginForm clientID clientSecret)) with
  | failed err => simp [loginReply]
  | unreadable st err => simp [loginReply]
  | response status body =>
    simp only [loginReply]
    by_cases hs : status = StatusOK
    · simp only [hs, ne_eq, not_true_eq_false, if_false]
      rcases hd : unmarshalTokenResponse body with ⟨t, _ | e⟩
      · by_cases ht : t.AccessToken = "" <;> simp [ht]
      · simp
    · simp only [hs, ne_eq, not_false_eq_true, if_true]
      by_cases ho : (unmarshalOAuthError body).2 = none ∧ (unmarshalOAuthError body).1.Error ≠ ""
      · simp [ho]
      · simp [ho]

theorem LoadCredentials_sent (w : World) (s : List Request) :
    LoadCredentials { w with sent := s } = LoadCredentials w := rfl

theorem RefreshToken_eq (c : AuthClient) (currentToken : String) (w : World)
    (hurl : w.urlError (tokenURL c) = none) :
    RefreshToken c currentToken w =
      (refreshReply (LoadCredentials w)
        (w.server (tokenRequest c (refreshForm currentToken))),
       { w with sent := w.sent ++ [tokenRequest c (refreshForm currentToken)] }) := by
  have hreq : (if c.config.Realm ≠ "" then
        ({ method := "POST", url := tokenURL c,
           header := HeaderSet (HeaderSet [] "Content-Type" "application/x-www-form-urlencoded")
              RealmHeaderName c.config.Realm,
           body := Body.form (refreshForm currentToken) } : Request)
      else
        { method := "POST", url := tokenURL c,
          header := HeaderSet [] "Content-Type" "application/x-www-form-urlencoded",
          body := Body.form (refreshForm currentToken) })
      = tokenRequest c (refreshForm currentToken) := by
    by_cases h : c.config.Realm = "" <;> simp [h, tokenRequest, HeaderSet, RealmHeaderName]
  unfold RefreshToken
  simp only [refreshForm_eq, NewRequest_POST]
  rw [show TrimSuffix c.config.Host "/" ++ TokenEndpoint = tokenURL c from rfl, hurl]
  simp only [hreq, Do]
  cases hex : w.server (tokenRequest c (refreshForm currentToken)) with
  | failed err => simp [refreshReply]
  | unreadable st err => simp [refreshReply]
  | response status body =>
    simp only [refreshReply]
    by_cases hs : status = StatusOK
    · simp only [hs, ne_eq, not_true_eq_false, if_false]
      rcases hd : unmarshalTokenResponse body with ⟨t, _ | e⟩
      · by_cases ht : t.AccessToken = ""
        · simp [ht]
        · simp only [ht, if_false, LoadCredentials_sent]
          cases LoadCredentials w <;> rfl
      · simp
    · simp only [hs, ne_eq, not_false_eq_true, if_true]
      by_cases ho : (unmarshalOAuthError body).2 = none ∧ (unmarshalOAuthError body).1.Error ≠ ""
      · simp [ho]
      · simp [ho]

theorem Login_bad_url (c : AuthClient) (clientID clientSecret : String) (w : World)
    (err : String) (hurl : w.urlError (tokenURL c) = some err) :
    Login c clientID clientSecret w = (Except.error ("failed to create request: " ++ err), w) := by
  unfold Login
  simp only [loginForm_eq, NewRequest_POST]
  rw [show TrimSuffix c.config.Host "/" ++ TokenEndpoint = tokenURL c from rfl, hurl]

theorem RefreshToken_bad_url (c : AuthClient) (currentToken : String) (w : World)
    (err : String) (hurl : w.urlError (tokenURL c) = some err) :
    RefreshToken c currentToken w = (Except.error ("failed to create request: " ++ err), w) := by
  unfold RefreshToken
  simp only [refreshForm_eq, NewRequest_POST]
  rw [show TrimSuffix c.config.Host "/" ++ TokenEndpoint = tokenURL c from rfl, hurl]

theorem contains_mid (a x b : String) : Contains (a ++ x ++ b) x :=
  ⟨a.toList, b.toList, by simp [String.toList]⟩

theorem contains_in (a x b c : String) : Contains (a ++ x ++ b ++ c) x :=
  ⟨a.toList, b.toList ++ c.toList, by simp [String.toList]⟩

theorem contains_end (a x : String) : Contains (a ++ x) x :=
  ⟨a.toList, [], by simp [String.toList]⟩

/-- C1, as stated, fails: a 200 response whose body is a JSON object with
the non-empty `access_token` "abc" but with `expires_in` written as a string
makes `Login` fail, because `json.Unmarshal` reports the mismatch. -/
theorem C1_object_with_token_rejected :
    JSON.parse stringExpiryBody
        = some (JValue.obj [("access_token", JValue.str "abc"),
                            ("expires_in", JValue.str "3600")]) ∧
      (mockWorld (Exchange.response 200 stringExpiryBody)).server
          (tokenRequest sampleClient (loginForm "id" "secret"))
        = Exchange.response 200 stringExpiryBody ∧
      (Login sampleClient "id" "secret"
          (mockWorld (Exchange.response 200 stringExpiryBody))).1.isOk = false :=
  ⟨rfl, rfl, rfl⟩

/-- C1 (amended): for every client id and secret and every response with
status 200 whose body `json.Unmarshal` decodes without error into a token
response `t` with a non-empty access token, `Login` succeeds and returns the
record with the four fields of `t` and the supplied client id and secret. -/
theorem C1_login_success (c : AuthClient) (clientID clientSecret : String) (w : World)
    (body : String) (t : OAuthTokenResponse)
    (hurl : w.urlError (tokenURL c) = none)
    (hresp : w.server (tokenRequest c (loginForm clientID clientSecret))
      = Exchange.response 200 body)
    (hdec : unmarshalTokenResponse body = (t, none))
    (htok : t.AccessToken ≠ "") :
    (Login c clientID clientSecret w).1 =
      Except.ok
        { AccessToken := t.AccessToken
          TokenType := t.TokenType
          ExpiresIn := t.ExpiresIn
          Scope := t.Scope
          ClientID := clientID
          ClientSecret := clientSecret } := by
  rw [Login_eq c clientID clientSecret w hurl, hresp]
  simp [loginReply, StatusOK, hdec, htok]

/-- Witness of C1 at the body of the specification. -/
theorem C1_login_success_witness :
    (Login sampleClient "my-id" "my-secret" (mockWorld (Exchange.response 200 tokenBody))).1 =
      Except.ok
        { AccessToken := "abc"
          TokenType := "bearer"
          ExpiresIn := 3600
          Scope := "x"
          ClientID := "my-id"
          ClientSecret := "my-secret" } :=
  C1_login_success sampleClient "my-id" "my-secret"
    (mockWorld (Exchange.response 200 tokenBody)) tokenBody
    { AccessToken := "abc", TokenType := "bearer", ExpiresIn := 3600, Scope := "x" }
    rfl rfl rfl (by decide)

/-- C2: for every response whose status is not 200, `Login` fails; when the
body decodes without error into an `OAuthError` with a non-empty `error`, the
message contains the `error` and the `error_description` values, otherwise it
contains the status code in decimal and the raw body. -/
theorem C2_login_non_200 (c : AuthClient) (clientID clientSecret : String) (w : World)
    (status : Int) (body : String)
    (hurl : w.urlError (tokenURL c) = none)
    (hresp : w.server (tokenRequest c (loginForm clientID clientSecret))
      = Exchange.response status body)
    (hstatus : status ≠ 200) :
    ∃ msg, (Login c clientID clientSecret w).1 = Except.error msg ∧
      (∀ e : OAuthError, unmarshalOAuthError body = (e, none) → e.Error ≠ "" →
        Contains msg e.Error ∧ Contains msg e.ErrorDescription) ∧
      ((¬ ∃ e : OAuthError, unmarshalOAuthError body = (e, none) ∧ e.Error ≠ "") →
        Contains msg (toString status) ∧ Contains msg body) := by
  rw [Login_eq c clientID clientSecret w hurl, hresp]
  by_cases ho : (unmarshalOAuthError body).2 = none ∧ (unmarshalOAuthError body).1.Error ≠ ""
  · refine ⟨_, by simp only [loginReply, StatusOK, ne_eq, hstatus, not_false_eq_true, if_true,
      ho, and_self]; rfl, ?_, ?_⟩
    · intro e he _
      rw [he]
      exact ⟨contains_in _ _ _ _, contains_end _ _⟩
    · intro hn
      exact absurd ⟨(unmarshalOAuthError body).1, Prod.ext rfl ho.1, ho.2⟩ hn
  · refine ⟨_, by simp only [loginReply, StatusOK, ne_eq, hstatus, not_false_eq_true, if_true,
      ho, if_false]; rfl, ?_, ?_⟩
    · intro e he hne
      rw [he] at ho
      exact absurd ⟨rfl, hne⟩ ho
    · intro _
      exact ⟨contains_in _ _ _ _, contains_end _ _⟩

/-- Witness of C2: status 400 with the error body of the specification. -/
theorem C2_login_non_200_witness :
    ∃ msg, (Login sampleClient "id" "secret"
        (mockWorld (Exchange.response 400 errorBody))).1 = Except.error msg ∧
      (∀ e : OAuthError, unmarshalOAuthError errorBody = (e, none) → e.Error ≠ "" →
        Contains msg e.Error ∧ Contains msg e.ErrorDescription) ∧
      ((¬ ∃ e : OAuthError, unmarshalOAuthError errorBody = (e, none) ∧ e.Error ≠ "") →
        Contains msg (toString (400 : Int)) ∧ Contains msg errorBody) :=
  C2_login_non_200 sampleClient "id" "secret" (mockWorld (Exchange.response 400 errorBody))
    400 errorBody rfl rfl (by decide)

theorem storeValue_string_fst {σ : Type} (set : String → σ → σ) (v : JValue) (s : σ)
    (P : σ → Prop) (hs : P s) (hset : ∀ x, P (set x s)) :
    P (storeValue (Slot.string set) v s).1 := by
  cases v <;> simp [storeValue, hs, hset]

theorem storeValue_int_fst {σ : Type} (set : Int → σ → σ) (v : JValue) (s : σ)
    (P : σ → Prop) (hs : P s) (hset : ∀ x, P (set x s)) :
    P (storeValue (Slot.int set) v s).1 := by
  cases v <;> simp [storeValue, hs, hset]
  split <;> simp [hs, hset]

theorem findField_some {σ : Type} (fields : List (String × Slot σ)) (key : String)
    (slot : Slot σ) (h : findField fields key = some slot) :
    ∃ f ∈ fields, f.2 = slot ∧ foldName f.1 = foldName key := by
  unfold findField at h
  split at h
  · rename_i f hf
    refine ⟨f, List.mem_of_find?_eq_some hf, by simpa using h, ?_⟩
    have := List.find?_some hf
    simp only [beq_iff_eq] at this
    rw [this]
  · split at h
    · rename_i f hf
      refine ⟨f, List.mem_of_find?_eq_some hf, by simpa using h, ?_⟩
      have := List.find?_some hf
      simpa using this
    · simp at h

theorem storeMember_token_keeps (acc : OAuthTokenResponse × Option UnmarshalError)
    (m : String × JValue) (a : String) (hacc : acc.1.AccessToken = a)
    (hm : foldName m.1 ≠ foldName "access_token") :
    (storeMember OAuthTokenResponse.fields acc m).1.AccessToken = a := by
  unfold storeMember
  cases hf : findField OAuthTokenResponse.fields m.1 with
  | none => simpa using hacc
  | some slot =>
    obtain ⟨f, hmem, hslot, hfold⟩ := findField_some _ _ _ hf
    simp only [OAuthTokenResponse.fields, List.mem_cons, List.mem_singleton,
      List.not_mem_nil, or_false] at hmem
    rcases hmem with h | h | h | h <;> subst h <;> subst hslot
    · exact absurd hfold.symm hm
    · exact storeValue_string_fst _ _ _ (fun r : OAuthTokenResponse => r.AccessToken = a) hacc (fun _ => hacc)
    · exact storeValue_int_fst _ _ _ (fun r : OAuthTokenResponse => r.AccessToken = a) hacc (fun _ => hacc)
    · exact storeValue_string_fst _ _ _ (fun r : OAuthTokenResponse => r.AccessToken = a) hacc (fun _ => hacc)

theorem foldl_token_keeps (ms : List (String × JValue))
    (acc : OAuthTokenResponse × Option UnmarshalError) (a : String)
    (hacc : acc.1.AccessToken = a)
    (hms : ∀ m ∈ ms, foldName m.1 ≠ foldName "access_token") :
    (ms.foldl (storeMember OAuthTokenResponse.fields) acc).1.AccessToken = a := by
  induction ms generalizing acc with
  | nil => simpa using hacc
  | cons m ms ih =>
    simp only [List.foldl_cons]
    exact ih _ (storeMember_token_keeps acc m a hacc (hms m (List.mem_cons_self _ _)))
      (fun x hx => hms x (List.mem_cons_of_mem _ hx))

/-- A body that is an object without a member addressing `access_token`
decodes to a token response with an empty access token. -/
theorem unmarshal_without_token (body : String) (ms : List (String × JValue))
    (hp : JSON.parse body = some (JValue.obj ms))
    (hms : ∀ m ∈ ms, foldName m.1 ≠ foldName "access_token") :
    (unmarshalTokenResponse body).1.AccessToken = "" := by
  unfold unmarshalTokenResponse Unmarshal
  rw [hp]
  exact foldl_token_keeps ms _ "" rfl hms

theorem loginReply_ok_iff (clientID clientSecret body : String) :
    (loginReply clientID clientSecret (Exchange.response 200 body)).isOk = true ↔
      ∃ t, unmarshalTokenResponse body = (t, none) ∧ t.AccessToken ≠ "" := by
  simp only [loginReply, StatusOK, ne_eq, not_true_eq_false, if_false]
  rcases hd : unmarshalTokenResponse body with ⟨t, _ | e⟩
  · by_cases ht : t.AccessToken = ""
    · simp [ht, Except.isOk, Except.toBool]
    · simp [ht, Except.isOk, Except.toBool]
  · simp [Except.isOk, Except.toBool]

theorem loginReply_token (clientID clientSecret : String) (ex : Exchange) (creds : Credentials)
    (h : loginReply clientID clientSecret ex = Except.ok creds) : creds.AccessToken ≠ "" := by
  cases ex with
  | failed err => simp [loginReply] at h
  | unreadable st err => simp [loginReply] at h
  | response status body =>
    simp only [loginReply] at h
    split at h
    · split at h <;> simp at h
    · split at h
      · simp at h
      · split at h
        · simp at h
        · rename_i ht
          simp only [Except.ok.injEq] at h
          rw [← h]
          exact ht

theorem refreshReply_token (existing : Except String Credentials) (ex : Exchange)
    (creds : Credentials)
    (h : refreshReply existing ex = Except.ok creds) : creds.AccessToken ≠ "" := by
  cases ex with
  | failed err => simp [refreshReply] at h
  | unreadable st err => simp [refreshReply] at h
  | response status body =>
    simp only [refreshReply] at h
    split at h
    · split at h <;> simp at h
    · split at h
      · simp at h
      · split at h
        · simp at h
        · rename_i ht
          split at h <;>
          · simp only [Except.ok.injEq] at h
            rw [← h]
            exact ht

/-- C3: for a response with status 200, `Login` succeeds exactly when the
body decodes without error into a token response with a non-empty access
token; malformed JSON, and an object without a member for `access_token`,
make it fail; and every record returned by `Login` or by `RefreshToken`, in
any world, has a non-empty `AccessToken`. -/
theorem C3_login_requires_token (c : AuthClient) (clientID clientSecret : String) (w : World) :
    (∀ body : String, w.urlError (tokenURL c) = none →
      w.server (tokenRequest c (loginForm clientID clientSecret)) = Exchange.response 200 body →
      (((Login c clientID clientSecret w).1.isOk = true ↔
          ∃ t, unmarshalTokenResponse body = (t, none) ∧ t.AccessToken ≠ "") ∧
        (JSON.parse body = none → (Login c clientID clientSecret w).1.isOk = false) ∧
        (∀ ms, JSON.parse body = some (JValue.obj ms) →
          (∀ m ∈ ms, foldName m.1 ≠ foldName "access_token") →
          (Login c clientID clientSecret w).1.isOk = false) ∧
        ((unmarshalTokenResponse body).1.AccessToken = "" →
          (Login c clientID clientSecret w).1.isOk = false))) ∧
    (∀ creds, (Login c clientID clientSecret w).1 = Except.ok creds → creds.AccessToken ≠ "") ∧
    (∀ currentToken creds, (RefreshToken c currentToken w).1 = Except.ok creds →
      creds.AccessToken ≠ "") := by
  refine ⟨?_, ?_, ?_⟩
  · intro body hurl hresp
    rw [Login_eq c clientID clientSecret w hurl, hresp]
    have hiff := loginReply_ok_iff clientID clientSecret body
    have hempty : (unmarshalTokenResponse body).1.AccessToken = "" →
        (loginReply clientID clientSecret (Exchange.response 200 body)).isOk = false := by
      intro he
      cases hb : (loginReply clientID clientSecret (Exchange.response 200 body)).isOk with
      | false => rfl
      | true =>
        obtain ⟨t, ht, hne⟩ := hiff.mp hb
        rw [ht] at he
        exact absurd he hne
    refine ⟨hiff, ?_, ?_, hempty⟩
    · intro hp
      apply hempty
      simp [unmarshalTokenResponse, Unmarshal, hp, OAuthTokenResponse.zero]
    · intro ms hp hms
      exact hempty (unmarshal_without_token body ms hp hms)
  · intro creds h
    cases hu : w.urlError (tokenURL c) with
    | none =>
      rw [Login_eq c clientID clientSecret w hu] at h
      exact loginReply_token _ _ _ _ h
    | some err =>
      rw [Login_bad_url c clientID clientSecret w err hu] at h
      simp at h
  · intro currentToken creds h
    cases hu : w.urlError (tokenURL c) with
    | none =>
      rw [RefreshToken_eq c currentToken w hu] at h
      exact refreshReply_token _ _ _ h
    | some err =>
      rw [RefreshToken_bad_url c currentToken w err hu] at h
      simp at h

/-- Witness of C3: a 200 response whose body is the empty object has no
`access_token`, so `Login` fails. -/
theorem C3_login_requires_token_witness :
    (Login sampleClient "id" "secret"
      (mockWorld (Exchange.response 200 "\x7b\x7d"))).1.isOk = false :=
  ((C3_login_requires_token sampleClient "id" "secret"
      (mockWorld (Exchange.response 200 "\x7b\x7d"))).1 "\x7b\x7d" rfl rfl).2.2.1
    [] rfl (by simp)

theorem refreshReply_client (r : Credentials) (ex : Exchange) (creds : Credentials)
    (h : refreshReply (Except.ok r) ex = Except.ok creds) :
    creds.ClientID = r.ClientID ∧ creds.ClientSecret = r.ClientSecret := by
  cases ex with
  | failed err => simp [refreshReply] at h
  | unreadable st err => simp [refreshReply] at h
  | response status body =>
    simp only [refreshReply] at h
    split at h
    · split at h <;> simp at h
    · split at h
      · simp at h
      · split at h
        · simp at h
        · simp only [Except.ok.injEq] at h
          rw [← h]
          exact ⟨rfl, rfl⟩

/-- C4: for every stored credential record `r` (what `LoadCredentials`
returns) and every response with status 200 that decodes into a token
response `t` with a non-empty access token, `RefreshToken` returns the record
with the four fields of `t` and the `ClientID` and `ClientSecret` of `r`; and
whatever the response, a record that `RefreshToken` returns has the
`ClientID` and `ClientSecret` of `r`. -/
theorem C4_refresh_preserves_client (c : AuthClient) (currentToken : String) (w : World)
    (r : Credentials) (hstored : LoadCredentials w = Except.ok r) :
    (∀ (body : String) (t : OAuthTokenResponse),
      w.urlError (tokenURL c) = none →
      w.server (tokenRequest c (refreshForm currentToken)) = Exchange.response 200 body →
      unmarshalTokenResponse body = (t, none) →
      t.AccessToken ≠ "" →
      (RefreshToken c currentToken w).1 =
        Except.ok
          { AccessToken := t.AccessToken
            TokenType := t.TokenType
            ExpiresIn := t.ExpiresIn
            Scope := t.Scope
            ClientID := r.ClientID
            ClientSecret := r.ClientSecret }) ∧
    (∀ creds, (RefreshToken c currentToken w).1 = Except.ok creds →
      creds.ClientID = r.ClientID ∧ creds.ClientSecret = r.ClientSecret) := by
  constructor
  · intro body t hurl hresp hdec htok
    rw [RefreshToken_eq c currentToken w hurl, hresp, hstored]
    simp [refreshReply, StatusOK, hdec, htok]
  · intro creds h
    cases hu : w.urlError (tokenURL c) with
    | none =>
      rw [RefreshToken_eq c currentToken w hu, hstored] at h
      exact refreshReply_client r _ creds h
    | some err =>
      rw [RefreshToken_bad_url c currentToken w err hu] at h
      simp at h

/-- Witness of C4: the stored record has client id "my-id" and secret
"my-secret", the response carries neither. -/
theorem C4_refresh_preserves_client_witness :
    (RefreshToken sampleClient "old" (storedWorld (Exchange.response 200 tokenBody))).1 =
      Except.ok
        { AccessToken := "abc"
          TokenType := "bearer"
          ExpiresIn := 3600
          Scope := "x"
          ClientID := "my-id"
          ClientSecret := "my-secret" } :=
  (C4_refresh_preserves_client sampleClient "old" (storedWorld (Exchange.response 200 tokenBody))
    { AccessToken := "old", TokenType := "bearer", ExpiresIn := 60, Scope := "x",
      ClientID := "my-id", ClientSecret := "my-secret" } rfl).1
    tokenBody
    { AccessToken := "abc", TokenType := "bearer", ExpiresIn := 3600, Scope := "x" }
    rfl rfl rfl (by decide)

theorem refreshReply_ok_iff (existing : Except String Credentials) (body : String) :
    (refreshReply existing (Exchange.response 200 body)).isOk = true ↔
      ∃ t, unmarshalTokenResponse body = (t, none) ∧ t.AccessToken ≠ "" := by
  simp only [refreshReply, StatusOK, ne_eq, not_true_eq_false, if_false]
  rcases hd : unmarshalTokenResponse body with ⟨t, _ | e⟩
  · by_cases ht : t.AccessToken = ""
    · simp [ht, Except.isOk, Except.toBool]
    · cases existing <;> simp [ht, Except.isOk, Except.toBool]
  · simp [Except.isOk, Except.toBool]

/-- C5: on the same response, `RefreshToken` fails exactly when `Login`
fails; and on a status other than 200 both fail with messages that differ
only in their opening words: the `error` and `error_description` values when
the body decodes without error with a non-empty `error`, the status code and
the raw body otherwise. -/
theorem C5_refresh_same_errors (c : AuthClient) (clientID clientSecret currentToken : String)
    (w : World) (status : Int) (body : String)
    (hurl : w.urlError (tokenURL c) = none)
    (hlogin : w.server (tokenRequest c (loginForm clientID clientSecret))
      = Exchange.response status body)
    (hrefresh : w.server (tokenRequest c (refreshForm currentToken))
      = Exchange.response status body) :
    ((RefreshToken c currentToken w).1.isOk = false ↔
        (Login c clientID clientSecret w).1.isOk = false) ∧
      (status ≠ 200 →
        ∃ rest,
          (Login c clientID clientSecret w).1 = Except.error ("authentication failed" ++ rest) ∧
          (RefreshToken c currentToken w).1 = Except.error ("token refresh failed" ++ rest) ∧
          (∀ e : OAuthError, unmarshalOAuthError body = (e, none) → e.Error ≠ "" →
            rest = ": " ++ e.Error ++ " - " ++ e.ErrorDescription) ∧
          ((¬ ∃ e : OAuthError, unmarshalOAuthError body = (e, none) ∧ e.Error ≠ "") →
            rest = " with status " ++ toString status ++ ": " ++ body)) := by
  rw [Login_eq c clientID clientSecret w hurl, hlogin,
    RefreshToken_eq c currentToken w hurl, hrefresh]
  constructor
  · by_cases hs : status = 200
    · subst hs
      have h1 := loginReply_ok_iff clientID clientSecret body
      have h2 := refreshReply_ok_iff (LoadCredentials w) body
      simp only [← Bool.not_eq_true]
      rw [h1, h2]
    · by_cases ho : (unmarshalOAuthError body).2 = none ∧ (unmarshalOAuthError body).1.Error ≠ ""
      · simp [loginReply, refreshReply, StatusOK, hs, ho, Except.isOk, Except.toBool]
      · simp [loginReply, refreshReply, StatusOK, hs, ho, Except.isOk, Except.toBool]
  · intro hs
    by_cases ho : (unmarshalOAuthError body).2 = none ∧ (unmarshalOAuthError body).1.Error ≠ ""
    · refine ⟨": " ++ (unmarshalOAuthError body).1.Error ++ " - "
        ++ (unmarshalOAuthError body).1.ErrorDescription, ?_, ?_, ?_, ?_⟩
      · simp only [loginReply, StatusOK, ne_eq, hs, not_false_eq_true, if_true, ho, and_self]
        simp [String.append_assoc]
        rfl
      · simp only [refreshReply, StatusOK, ne_eq, hs, not_false_eq_true, if_true, ho, and_self]
        simp [String.append_assoc]
        rfl
      · intro e he _
        rw [he]
      · intro hn
        exact absurd ⟨(unmarshalOAuthError body).1, Prod.ext rfl ho.1, ho.2⟩ hn
    · refine ⟨" with status " ++ toString status ++ ": " ++ body, ?_, ?_, ?_, ?_⟩
      · simp only [loginReply, StatusOK, ne_eq, hs, not_false_eq_true, if_true, ho, if_false]
        simp [String.append_assoc]
        rfl
      · simp only [refreshReply, StatusOK, ne_eq, hs, not_false_eq_true, if_true, ho, if_false]
        simp [String.append_assoc]
        rfl
      · intro e he hne
        rw [he] at ho
        exact absurd ⟨rfl, hne⟩ ho
      · intro _
        rfl

/-- Witness of C5: status 400 with the error body of the specification. -/
theorem C5_refresh_same_errors_witness :
    (Login sampleClient "id" "secret" (mockWorld (Exchange.response 400 errorBody))).1
        = Except.error "authentication failed: invalid_client - bad secret" ∧
      (RefreshToken sampleClient "old" (mockWorld (Exchange.response 400 errorBody))).1
        = Except.error "token refresh failed: invalid_client - bad secret" := by
  obtain ⟨rest, h1, h2, h3, _⟩ :=
    (C5_refresh_same_errors sampleClient "id" "secret" "old"
      (mockWorld (Exchange.response 400 errorBody)) 400 errorBody rfl rfl rfl).2 (by decide)
  have hr := h3 { Error := "invalid_client", ErrorDescription := "bad secret" } rfl (by decide)
  subst hr
  exact ⟨h1, h2⟩

theorem TrimSuffix_append (h : String) : TrimSuffix (h ++ "/") "/" = h := by
  unfold TrimSuffix
  have hs : "/".toList.isSuffixOf (h ++ "/").toList = true := by
    rw [List.isSuffixOf_iff_suffix]
    exact ⟨h.toList, by simp [String.toList]⟩
  rw [if_pos hs]
  have : (h ++ "/").toList.take ((h ++ "/").toList.length - "/".toList.length) = h.toList := by
    simp [String.toList]
  rw [this]
  cases h
  rfl

theorem TrimSuffix_none (s : String) (hs : ∀ h : String, s ≠ h ++ "/") :
    TrimSuffix s "/" = s := by
  unfold TrimSuffix
  split
  · rename_i hsuf
    rw [List.isSuffixOf_iff_suffix] at hsuf
    obtain ⟨t, ht⟩ := hsuf
    exact absurd (String.ext (by simpa [String.toList] using ht.symm)) (hs (String.mk t))
  · rfl

/-- C6, as stated, fails: with the host "http://localhost:8181/" the
request goes to the host without its trailing slash followed by the token
path, which is not the host followed by the token path. -/
theorem C6_trailing_slash_trimmed :
    (Login slashClient "id" "secret" (mockWorld (Exchange.failed "offline"))).2.sent.map
        Request.url = ["http://localhost:8181/api/catalog/v1/oauth/tokens"] ∧
      "http://localhost:8181/api/catalog/v1/oauth/tokens"
        ≠ slashClient.config.Host ++ TokenEndpoint :=
  ⟨rfl, by decide⟩

/-- C6 (amended): for every host, realm, client id and secret, when the
token URL parses `Login` hands exactly one request to the transport: a POST
to the host, one trailing slash removed, followed by the token path, with the
form values `grant_type=client_credentials`, `client_id`, `client_secret` and
`scope=PRINCIPAL_ROLE:ALL`, carrying the realm header exactly when the realm is
non-empty; when the URL does not parse, `Login` fails and sends nothing. -/
theorem C6_login_request (c : AuthClient) (clientID clientSecret : String) (w : World) :
    (w.urlError (tokenURL c) = none →
      ∃ req form, (Login c clientID clientSecret w).2.sent = w.sent ++ [req] ∧
        req.method = "POST" ∧
        req.url = TrimSuffix c.config.Host "/" ++ "/api/catalog/v1/oauth/tokens" ∧
        (∀ h : String, c.config.Host = h ++ "/" →
          req.url = h ++ "/api/catalog/v1/oauth/tokens") ∧
        ((∀ h : String, c.config.Host ≠ h ++ "/") →
          req.url = c.config.Host ++ "/api/catalog/v1/oauth/tokens") ∧
        req.body = Body.form form ∧
        form.map Prod.fst = ["grant_type", "client_id", "client_secret", "scope"] ∧
        ValuesGet form "grant_type" = some "client_credentials" ∧
        ValuesGet form "client_id" = some clientID ∧
        ValuesGet form "client_secret" = some clientSecret ∧
        ValuesGet form "scope" = some "PRINCIPAL_ROLE:ALL" ∧
        HeaderGet req.header "Polaris-Realm"
          = (if c.config.Realm = "" then none else some c.config.Realm)) ∧
    (∀ err, w.urlError (tokenURL c) = some err →
      (Login c clientID clientSecret w).1.isOk = false ∧
      (Login c clientID clientSecret w).2.sent = w.sent) := by
  constructor
  · intro hurl
    refine ⟨tokenRequest c (loginForm clientID clientSecret), loginForm clientID clientSecret,
      ?_, rfl, rfl, ?_, ?_, rfl, rfl, ?_, ?_, ?_, ?_, ?_⟩
    · rw [Login_eq c clientID clientSecret w hurl]
    · intro h hh
      show TrimSuffix c.config.Host "/" ++ TokenEndpoint = _
      rw [hh, TrimSuffix_append]
      rfl
    · intro hh
      show TrimSuffix c.config.Host "/" ++ TokenEndpoint = _
      rw [TrimSuffix_none _ hh]
      rfl
    · simp [ValuesGet, loginForm]
    · simp [ValuesGet, loginForm]
    · simp [ValuesGet, loginForm]
    · simp [ValuesGet, loginForm, DefaultScope]
    · by_cases hr : c.config.Realm = "" <;>
        simp [HeaderGet, tokenRequest, hr, RealmHeaderName]
  · intro err hurl
    rw [Login_bad_url c clientID clientSecret w err hurl]
    exact ⟨rfl, rfl⟩

/-- Witness of C6: the default host and the realm "r". -/
theorem C6_login_request_witness :
    ∃ req form,
      (Login realmClient "id" "secret" (mockWorld (Exchange.failed "offline"))).2.sent
        = (mockWorld (Exchange.failed "offline")).sent ++ [req] ∧
      req.method = "POST" ∧
      req.url = TrimSuffix realmClient.config.Host "/" ++ "/api/catalog/v1/oauth/tokens" ∧
      (∀ h : String, realmClient.config.Host = h ++ "/" →
        req.url = h ++ "/api/catalog/v1/oauth/tokens") ∧
      ((∀ h : String, realmClient.config.Host ≠ h ++ "/") →
        req.url = realmClient.config.Host ++ "/api/catalog/v1/oauth/tokens") ∧
      req.body = Body.form form ∧
      form.map Prod.fst = ["grant_type", "client_id", "client_secret", "scope"] ∧
      ValuesGet form "grant_type" = some "client_credentials" ∧
      ValuesGet form "client_id" = some "id" ∧
      ValuesGet form "client_secret" = some "secret" ∧
      ValuesGet form "scope" = some "PRINCIPAL_ROLE:ALL" ∧
      HeaderGet req.header "Polaris-Realm"
        = (if realmClient.config.Realm = "" then none else some realmClient.config.Realm) :=
  (C6_login_request realmClient "id" "secret" (mockWorld (Exchange.failed "offline"))).1 rfl

theorem LoadCredentials_absent (w : World) (h : String) (hh : w.home = Except.ok h)
    (ha : w.fs (credentialsPath h) = Node.absent) :
    LoadCredentials w = Except.error notAuthenticated := by
  simp only [credentialsPath] at ha
  simp [LoadCredentials, getConfigDir, hh, ReadFile, ha, IsNotExist]

theorem ClearCredentials_ok (w : World) (hc : (ClearCredentials w).1 = Except.ok ()) :
    ∃ h, w.home = Except.ok h ∧ (ClearCredentials w).2.home = Except.ok h ∧
      (ClearCredentials w).2.fs (credentialsPath h) = Node.absent := by
  unfold ClearCredentials at hc ⊢
  cases hh : w.home with
  | error e => simp [getConfigDir, hh] at hc
  | ok h =>
    refine ⟨h, rfl, ?_⟩
    simp only [getConfigDir, hh, Remove] at hc ⊢
    cases hn : w.fs (Join (Join [h] ConfigDirName) CredentialsFileName) with
    | absent => simp [IsNotExist, hh, credentialsPath, hn]
    | file d => simp [World.setNode, hh, credentialsPath]
    | blocked r => simp [hn, IsNotExist] at hc

theorem SaveCredentials_ok (c : Credentials) (w : World)
    (hs : (SaveCredentials c w).1 = Except.ok ()) :
    ∃ h, (SaveCredentials c w).2.home = Except.ok h ∧
      (SaveCredentials c w).2.fs (credentialsPath h) = Node.file c.MarshalIndent := by
  unfold SaveCredentials ensureConfigDir at hs ⊢
  cases hh : w.home with
  | error e => simp [getConfigDir, hh] at hs
  | ok h =>
    refine ⟨h, ?_⟩
    simp only [getConfigDir, hh, MkdirAll] at hs ⊢
    cases hd : w.fs (Join [h] ConfigDirName) with
    | file d => simp [hd] at hs
    | blocked r => simp [hd] at hs
    | absent =>
      simp only [hd, WriteFile] at hs ⊢
      cases hn : w.fs (Join (Join [h] ConfigDirName) CredentialsFileName) with
      | blocked r => simp [hn] at hs
      | absent => simp [World.setNode, hh, credentialsPath]
      | file d => simp [World.setNode, hh, credentialsPath]

theorem ClearCredentials_of_file (w : World) (h d : String) (hh : w.home = Except.ok h)
    (hf : w.fs (credentialsPath h) = Node.file d) :
    (ClearCredentials w).1 = Except.ok () := by
  simp only [credentialsPath] at hf
  simp [ClearCredentials, getConfigDir, hh, Remove, hf]

/-- C7: `LoadCredentials` fails with the not-authenticated error whenever
the credentials file does not exist; and for every record `c`, when
`SaveCredentials c` has succeeded, `ClearCredentials` succeeds and
`LoadCredentials` then fails with that same error (as it does after every
successful `ClearCredentials`). -/
theorem C7_load_without_credentials (w : World) :
    (∀ h, w.home = Except.ok h → w.fs (credentialsPath h) = Node.absent →
      LoadCredentials w = Except.error notAuthenticated) ∧
    (∀ c : Credentials, (SaveCredentials c w).1 = Except.ok () →
      (ClearCredentials (SaveCredentials c w).2).1 = Except.ok () ∧
      LoadCredentials (ClearCredentials (SaveCredentials c w).2).2
        = Except.error notAuthenticated) ∧
    ((ClearCredentials w).1 = Except.ok () →
      LoadCredentials (ClearCredentials w).2 = Except.error notAuthenticated) := by
  have key : ∀ v : World, (ClearCredentials v).1 = Except.ok () →
      LoadCredentials (ClearCredentials v).2 = Except.error notAuthenticated := by
    intro v hv
    obtain ⟨h, _, hh, ha⟩ := ClearCredentials_ok v hv
    exact LoadCredentials_absent _ h hh ha
  refine ⟨fun h hh ha => LoadCredentials_absent w h hh ha, ?_, key w⟩
  intro c hs
  obtain ⟨h, hh, hf⟩ := SaveCredentials_ok c w hs
  have hc := ClearCredentials_of_file _ h _ hh hf
  exact ⟨hc, key _ hc⟩

/-- Witness of C7: save a record into an empty file system, clear, load. -/
theorem C7_load_without_credentials_witness :
    LoadCredentials (mockWorld (Exchange.failed "offline")) = Except.error notAuthenticated ∧
      LoadCredentials (ClearCredentials (SaveCredentials sampleCredentials
          (mockWorld (Exchange.failed "offline"))).2).2
        = Except.error notAuthenticated :=
  ⟨(C7_load_without_credentials (mockWorld (Exchange.failed "offline"))).1 "/home/u" rfl rfl,
   ((C7_load_without_credentials (mockWorld (Exchange.failed "offline"))).2.1
      sampleCredentials rfl).2⟩

theorem ClearCredentials_absent (w : World) (h : String) (hh : w.home = Except.ok h)
    (ha : w.fs (credentialsPath h) = Node.absent) :
    ClearCredentials w = (Except.ok (), w) := by
  simp only [credentialsPath] at ha
  simp [ClearCredentials, getConfigDir, hh, Remove, ha, IsNotExist]

theorem ClearCredentials_frame (w : World) :
    (ClearCredentials w).2.home = w.home ∧
    (ClearCredentials w).2.urlError = w.urlError ∧
    (ClearCredentials w).2.server = w.server ∧
    (ClearCredentials w).2.sent = w.sent ∧
    (∀ h, w.home = Except.ok h → ∀ p, p ≠ credentialsPath h →
      (ClearCredentials w).2.fs p = w.fs p) := by
  unfold ClearCredentials
  cases hh : w.home with
  | error e => simp [getConfigDir, hh]
  | ok h =>
    simp only [getConfigDir, hh, Remove]
    cases hn : w.fs (Join (Join [h] ConfigDirName) CredentialsFileName) with
    | absent => simp [IsNotExist, hh]
    | blocked r => simp [IsNotExist, hh]
    | file d =>
      simp only [World.setNode, hh, true_and]
      intro h1 hh1 p hp
      simp only [Except.ok.injEq] at hh1
      subst hh1
      simp only [credentialsPath] at hp
      simp [hp]

theorem configPath_ne_credentialsPath (h : String) : configPath h ≠ credentialsPath h := by
  simp [configPath, credentialsPath, Join, ConfigFileName, CredentialsFileName]

theorem ClearCredentials_twice (w : World) :
    (ClearCredentials (ClearCredentials w).2).2 = (ClearCredentials w).2 := by
  cases hc : (ClearCredentials w).1 with
  | ok u =>
    obtain ⟨h, _, hh, ha⟩ := ClearCredentials_ok w hc
    rw [ClearCredentials_absent _ h hh ha]
  | error e =>
    have hsame : (ClearCredentials w).2 = w := by
      unfold ClearCredentials at hc ⊢
      cases hh : w.home with
      | error e1 => simp [getConfigDir, hh]
      | ok h =>
        simp only [getConfigDir, hh, Remove] at hc ⊢
        cases hn : w.fs (Join (Join [h] ConfigDirName) CredentialsFileName) with
        | absent => simp [IsNotExist]
        | blocked r => simp [IsNotExist]
        | file d => simp [hn] at hc
    rw [hsame, hsame]

/-- C8: `ClearCredentials` succeeds and changes nothing when the credentials
file is already absent; applying it twice leaves the state that applying it
once leaves; once it has succeeded there is no credentials file and a second
call succeeds too; it never changes the config file, nor any other part of
the world; and `Logout` is `ClearCredentials`. -/
theorem C8_clear_idempotent (w : World) :
    (∀ h, w.home = Except.ok h → w.fs (credentialsPath h) = Node.absent →
      ClearCredentials w = (Except.ok (), w)) ∧
    (ClearCredentials (ClearCredentials w).2).2 = (ClearCredentials w).2 ∧
    ((ClearCredentials w).1 = Except.ok () →
      ClearCredentials (ClearCredentials w).2 = (Except.ok (), (ClearCredentials w).2) ∧
      ∀ h, w.home = Except.ok h → (ClearCredentials w).2.fs (credentialsPath h) = Node.absent) ∧
    (∀ h, w.home = Except.ok h →
      (ClearCredentials w).2.fs (configPath h) = w.fs (configPath h)) ∧
    (∀ h, w.home = Except.ok h → ∀ p, p ≠ credentialsPath h →
      (ClearCredentials w).2.fs p = w.fs p) ∧
    (∀ c : AuthClient, Logout c w = ClearCredentials w) := by
  have hframe := ClearCredentials_frame w
  refine ⟨fun h hh ha => ClearCredentials_absent w h hh ha, ClearCredentials_twice w, ?_, ?_,
    hframe.2.2.2.2, fun _ => rfl⟩
  · intro hc
    obtain ⟨h, hw, hh, ha⟩ := ClearCredentials_ok w hc
    refine ⟨ClearCredentials_absent _ h hh ha, ?_⟩
    intro h1 hh1
    rw [hw] at hh1
    simp only [Except.ok.injEq] at hh1
    subst hh1
    exact ha
  · intro h hh
    exact hframe.2.2.2.2 h hh _ (configPath_ne_credentialsPath h)

/-- Witness of C8: clearing twice a world that holds a credentials file. -/
theorem C8_clear_idempotent_witness :
    ClearCredentials (ClearCredentials (storedWorld (Exchange.failed "offline"))).2
      = (Except.ok (), (ClearCredentials (storedWorld (Exchange.failed "offline"))).2) :=
  ((C8_clear_idempotent (storedWorld (Exchange.failed "offline"))).2.2.1 rfl).1

/-- C9: when the config file does not exist, `LoadConfig` succeeds and
returns the config with host "http://localhost:8181" and an empty realm. -/
theorem C9_default_config (w : World) (h : String) (hh : w.home = Except.ok h)
    (ha : w.fs (configPath h) = Node.absent) :
    LoadConfig w = Except.ok { Host := "http://localhost:8181", Realm := "" } := by
  simp only [configPath] at ha
  simp [LoadConfig, getConfigDir, hh, ReadFile, ha, IsNotExist]

/-- Witness of C9: an empty file system. -/
theorem C9_default_config_witness :
    LoadConfig (mockWorld (Exchange.failed "offline"))
      = Except.ok { Host := "http://localhost:8181", Realm := "" } :=
  C9_default_config (mockWorld (Exchange.failed "offline")) "/home/u" rfl rfl

/-! ### Reading back what `SaveConfig` writes -/

section ReadBack

open JSON

theorem hexVal_hexDigit : ∀ d, d < 16 → hexVal (hexDigit d) = some d := by
  decide

theorem getu4_escape (k : Nat) (hk : k < 256) :
    getu4 '0' '0' (hexDigit (k / 16)) (hexDigit (k % 16)) = some k := by
  have h1 : hexVal (hexDigit (k / 16)) = some (k / 16) := hexVal_hexDigit _ (by omega)
  have h2 : hexVal (hexDigit (k % 16)) = some (k % 16) := hexVal_hexDigit _ (by omega)
  have h0 : hexVal '0' = some 0 := by decide
  simp only [getu4, h0, h1, h2]
  congr 1
  omega

theorem char_eq_of_toNat (c : Char) (n : Nat) (h : c.toNat = n) : c = Char.ofNat n := by
  rw [← h, Char.ofNat_toNat]

theorem readString_escapeUnicode (c : Char) (hc : c.toNat < 256) (n : Nat)
    (acc tail : List Char) :
    readString (n + 1) acc (escapeUnicode c ++ tail) = readString n (c :: acc) tail := by
  have hs : isSurrogate c.toNat = false := by
    simp [isSurrogate]; omega
  simp [escapeUnicode, readString, getu4_escape c.toNat hc, hs, Char.ofNat_toNat]

theorem readString_escapeChar (c : Char) (n : Nat) (acc tail : List Char) :
    readString (n + 1) acc (escapeChar c ++ tail) = readString n (c :: acc) tail := by
  unfold escapeChar
  by_cases h1 : c = '"'
  · subst h1; simp [readString]
  by_cases h2 : c = '\\'
  · subst h2; simp [readString]
  simp only [h1, h2, if_false]
  by_cases h3 : c.toNat < 0x20
  · simp only [h3, if_true]
    by_cases h8 : c.toNat = 8
    · have := char_eq_of_toNat c 8 h8
      subst this; simp [readString]
    by_cases h12 : c.toNat = 12
    · have := char_eq_of_toNat c 12 h12
      subst this; simp [readString]
    by_cases hn : c = '\n'
    · subst hn; simp [readString]
    by_cases hr : c = '\r'
    · subst hr; simp [readString]
    by_cases ht : c = '\t'
    · subst ht; simp [readString]
    simp only [h8, h12, hn, hr, ht, if_false]
    exact readString_escapeUnicode c (by omega) n acc tail
  · simp only [h3, if_false]
    by_cases h4 : c = '<' ∨ c = '>' ∨ c = '&'
    · simp only [h4, if_true]
      refine readString_escapeUnicode c ?_ n acc tail
      rcases h4 with h | h | h <;> subst h <;> decide
    simp only [h4, if_false]
    by_cases h5 : c.toNat = 0x2028
    · have := char_eq_of_toNat c _ h5
      subst this
      have hg : getu4 '2' '0' '2' '8' = some 8232 := by decide
      have hs : isSurrogate 8232 = false := by decide
      simp [readString, hg, hs]
    by_cases h6 : c.toNat = 0x2029
    · have := char_eq_of_toNat c _ h6
      subst this
      have hg : getu4 '2' '0' '2' '9' = some 8233 := by decide
      have hs : isSurrogate 8233 = false := by decide
      simp [readString, hg, hs]
    simp only [h5, h6, if_false]
    simp [readString, h1, h2, h3]

theorem length_le_flatMap_escapeChar (s : List Char) :
    s.length ≤ (s.flatMap escapeChar).length := by
  induction s with
  | nil => simp
  | cons c s ih =>
    have hc : 1 ≤ (escapeChar c).length := by
      unfold escapeChar escapeUnicode
      repeat' split
      all_goals simp
    simp only [List.flatMap_cons, List.length_append, List.length_cons]
    omega

/-- Reading back a string that `quote` wrote gives the string. -/
theorem readString_quote (s : List Char) :
    ∀ (fuel : Nat) (acc rest : List Char), s.length < fuel →
      readString fuel acc (s.flatMap escapeChar ++ '"' :: rest)
        = some (String.mk (acc.reverse ++ s), rest) := by
  induction s with
  | nil =>
    intro fuel acc rest hf
    obtain ⟨n, rfl⟩ : ∃ n, fuel = n + 1 := ⟨fuel - 1, by simp at hf; omega⟩
    simp [readString]
  | cons c s ih =>
    intro fuel acc rest hf
    obtain ⟨n, rfl⟩ : ∃ n, fuel = n + 1 := ⟨fuel - 1, by omega⟩
    simp only [List.flatMap_cons, List.append_assoc]
    rw [readString_escapeChar, ih n (c :: acc) rest (by simpa using hf)]
    simp

/-- Reading a string literal that `quote` wrote. -/
theorem readValue_quote (fuel depth : Nat) (s rest : List Char) :
    readValue (fuel + 1) depth ('"' :: (s.flatMap escapeChar ++ '"' :: rest))
      = some (JValue.str (String.mk s), rest) := by
  have hlen : s.length < (s.flatMap escapeChar ++ '"' :: rest).length + 1 := by
    have := length_le_flatMap_escapeChar s
    simp only [List.length_append, List.length_cons]
    omega
  have hr := readString_quote s _ [] rest hlen
  have h1 : ¬ ('"' = '\x7b') := by decide
  have h2 : ¬ ('"' = '[') := by decide
  simp only [readValue, h1, h2, if_false, if_true, hr, List.reverse_nil, List.nil_append]

/-- Reading a member whose name needs no escape. -/
theorem readMember_plain (pv : List Char → Option (JValue × List Char))
    (key rest : List Char) (hkey : key.flatMap escapeChar = key) :
    readMember pv ('"' :: (key ++ '"' :: ':' :: ' ' :: '"' :: rest))
      = (pv ('"' :: rest)).map (fun r => ((String.mk key, r.1), r.2)) := by
  have hlen : key.length < (key.flatMap escapeChar ++ '"' :: ':' :: ' ' :: '"' :: rest).length + 1 := by
    have := length_le_flatMap_escapeChar key
    simp only [List.length_append, List.length_cons]
    omega
  have hr := readString_quote key _ [] (':' :: ' ' :: '"' :: rest) hlen
  rw [hkey] at hr
  simp only [readMember, hr]
  simp [skipSpace, isSpace]
  cases pv ('"' :: rest) <;> rfl

theorem Config_MarshalIndent_toList (c : Config) :
    c.MarshalIndent.toList =
      '\x7b' :: '\n' :: ' ' :: ' ' :: '"' :: ("host".toList ++ '"' :: ':' :: ' ' :: '"' ::
        (c.Host.toList.flatMap escapeChar ++ '"' :: ',' :: '\n' :: ' ' :: ' ' :: '"' ::
          ("realm".toList ++ '"' :: ':' :: ' ' :: '"' ::
            (c.Realm.toList.flatMap escapeChar ++ '"' :: '\n' :: ['\x7d'])))) := by
  simp [Config.MarshalIndent, indentedObject, indentedMember, String.intercalate,
    String.intercalate.go, quote, String.toList]

theorem skipSpace_indent (cs : List Char) :
    skipSpace ('\n' :: ' ' :: ' ' :: '"' :: cs) = '"' :: cs := by
  simp [skipSpace, isSpace]

theorem readMembers_close (pv : List Char → Option (JValue × List Char)) (n : Nat)
    (acc : List (String × JValue)) (rest : List Char) :
    readMembers pv (n + 1) acc ('\n' :: '\x7d' :: rest) = some (acc.reverse, rest) := by
  simp [readMembers, skipSpace, isSpace]

theorem readMembers_comma (pv : List Char → Option (JValue × List Char)) (n : Nat)
    (acc : List (String × JValue)) (cs : List Char) :
    readMembers pv (n + 1) acc (',' :: '\n' :: ' ' :: ' ' :: '"' :: cs)
      = match readMember pv ('"' :: cs) with
        | some (m, rest1) => readMembers pv n (m :: acc) rest1
        | none => none := by
  simp [readMembers, skipSpace, isSpace]

theorem readValue_object_step (f depth : Nat) (rest rest1 : List Char)
    (hd : depth < maxNestingDepth) (hskip : skipSpace rest = '"' :: rest1) :
    readValue (f + 1) depth ('\x7b' :: rest)
      = match readMember (readValue f (depth + 1)) ('"' :: rest1) with
        | some (m, rest2) =>
          match readMembers (readValue f (depth + 1)) (rest2.length + 1) [m] rest2 with
          | some (ms, rest3) => some (JValue.obj ms, rest3)
          | none => none
        | none => none := by
  have hd2 : ¬ depth ≥ maxNestingDepth := by omega
  simp only [readValue, if_true, hd2, if_false, hskip]
  split
  · rename_i heq
    simp at heq
  · rfl

/-- Reading an indented object of two members with string values. -/
theorem readValue_indented2 (g : Nat) (k1 k2 v1 v2 : List Char)
    (hk1 : k1.flatMap escapeChar = k1) (hk2 : k2.flatMap escapeChar = k2) :
    readValue (g + 2) 0
        ('\x7b' :: '\n' :: ' ' :: ' ' :: '"' :: (k1 ++ '"' :: ':' :: ' ' :: '"' ::
          (v1.flatMap escapeChar ++ '"' :: ',' :: '\n' :: ' ' :: ' ' :: '"' ::
            (k2 ++ '"' :: ':' :: ' ' :: '"' ::
              (v2.flatMap escapeChar ++ '"' :: '\n' :: ['\x7d'])))))
      = some (JValue.obj [(String.mk k1, JValue.str (String.mk v1)),
          (String.mk k2, JValue.str (String.mk v2))], []) := by
  rw [readValue_object_step (g + 1) 0 _ _ (by decide) (skipSpace_indent _)]
  rw [readMember_plain _ k1 _ hk1, readValue_quote]
  simp only [Option.map_some']
  obtain ⟨n, hn⟩ : ∃ n, (',' :: '\n' :: ' ' :: ' ' :: '"' ::
      (k2 ++ '"' :: ':' :: ' ' :: '"' ::
        (v2.flatMap escapeChar ++ '"' :: '\n' :: ['\x7d']))).length + 1 = n + 2 :=
    ⟨_, rfl⟩
  rw [hn, readMembers_comma, readMember_plain _ k2 _ hk2, readValue_quote]
  simp only [Option.map_some']
  rw [readMembers_close]
  rfl

/-- The text `SaveConfig` writes parses to the object of the two members. -/
theorem parse_Config_MarshalIndent (c : Config) :
    JSON.parse c.MarshalIndent
      = some (JValue.obj [("host", JValue.str c.Host), ("realm", JValue.str c.Realm)]) := by
  unfold JSON.parse
  rw [Config_MarshalIndent_toList]
  have hs : ∀ cs : List Char, skipSpace ('\x7b' :: cs) = '\x7b' :: cs := by
    intro cs; simp [skipSpace, isSpace]
  simp only [hs]
  have hr := readValue_indented2
    (('\n' :: ' ' :: ' ' :: '"' :: ("host".toList ++ '"' :: ':' :: ' ' :: '"' ::
        (c.Host.toList.flatMap escapeChar ++ '"' :: ',' :: '\n' :: ' ' :: ' ' :: '"' ::
          ("realm".toList ++ '"' :: ':' :: ' ' :: '"' ::
            (c.Realm.toList.flatMap escapeChar ++ '"' :: '\n' :: ['\x7d']))))).length)
    "host".toList "realm".toList c.Host.toList c.Realm.toList (by decide) (by decide)
  rw [show ∀ cs : List Char, ('\x7b' :: cs).length + 1 = cs.length + 2 from fun _ => rfl, hr]
  rfl

/-- Decoding the text `SaveConfig` writes gives the config back. -/
theorem Unmarshal_Config_MarshalIndent (c : Config) :
    Unmarshal "config.Config" Config.fields Config.zero c.MarshalIndent = (c, none) := by
  simp [Unmarshal, parse_Config_MarshalIndent, decodeValue, storeMember, findField,
    Config.fields, storeValue, Config.zero]

theorem SaveConfig_ok (c : Config) (w : World) (hs : (SaveConfig c w).1 = Except.ok ()) :
    ∃ h, (SaveConfig c w).2.home = Except.ok h ∧
      (SaveConfig c w).2.fs (configPath h) = Node.file c.MarshalIndent := by
  unfold SaveConfig ensureConfigDir at hs ⊢
  cases hh : w.home with
  | error e => simp [getConfigDir, hh] at hs
  | ok h =>
    refine ⟨h, ?_⟩
    simp only [getConfigDir, hh, MkdirAll] at hs ⊢
    cases hd : w.fs (Join [h] ConfigDirName) with
    | file d => simp [hd] at hs
    | blocked r => simp [hd] at hs
    | absent =>
      simp only [hd, WriteFile] at hs ⊢
      cases hn : w.fs (Join (Join [h] ConfigDirName) ConfigFileName) with
      | blocked r => simp [hn] at hs
      | absent => simp [World.setNode, hh, configPath]
      | file d => simp [World.setNode, hh, configPath]

/-- Saving a config and loading it again returns its host and realm. -/
theorem LoadConfig_SaveConfig (c : Config) (w : World)
    (hs : (SaveConfig c w).1 = Except.ok ()) :
    LoadConfig (SaveConfig c w).2 = Except.ok c := by
  obtain ⟨h, hh, hf⟩ := SaveConfig_ok c w hs
  simp only [configPath] at hf
  simp [LoadConfig, getConfigDir, hh, ReadFile, hf, Unmarshal_Config_MarshalIndent]

end ReadBack

/-- C10 at a failing input: a config file with host, realm and
`catalog_prefix` loads as a `Config` of host and realm only, and saving that
config writes a file without `catalog_prefix`; for every config the text
`SaveConfig` writes is an object of the two members `host` and `realm`. -/
theorem C10_catalog_field_lost :
    JSON.parse catalogConfigText
        = some (JValue.obj [("host", JValue.str "http://h"), ("realm", JValue.str "r"),
            ("catalog_prefix", JValue.str "p")]) ∧
      LoadConfig catalogConfigWorld = Except.ok { Host := "http://h", Realm := "r" } ∧
      (SaveConfig { Host := "http://h", Realm := "r" } catalogConfigWorld).2.fs
          (configPath "/home/u")
        = Node.file "\x7b\n  \"host\": \"http://h\",\n  \"realm\": \"r\"\n\x7d" ∧
      ∀ c : Config, JSON.parse c.MarshalIndent
        = some (JValue.obj [("host", JValue.str c.Host), ("realm", JValue.str c.Realm)]) :=
  ⟨rfl, rfl, rfl, parse_Config_MarshalIndent⟩

theorem LoadConfig_file (w : World) (h data : String) (hh : w.home = Except.ok h)
    (hf : w.fs (configPath h) = Node.file data) :
    LoadConfig w =
      match Unmarshal "config.Config" Config.fields Config.zero data with
      | (_, some err) => Except.error ("failed to parse config file: " ++ err.Error)
      | (config, none) => Except.ok config := by
  simp only [configPath] at hf
  simp [LoadConfig, getConfigDir, hh, ReadFile, hf]

theorem LoadConfig_ok_unmarshal (w : World) (h data : String) (hh : w.home = Except.ok h)
    (hf : w.fs (configPath h) = Node.file data) (c : Config)
    (hc : LoadConfig w = Except.ok c) :
    Unmarshal "config.Config" Config.fields Config.zero data = (c, none) := by
  rw [LoadConfig_file w h data hh hf] at hc
  rcases hu : Unmarshal "config.Config" Config.fields Config.zero data with ⟨c1, _ | e⟩
  · rw [hu] at hc
    simp only [Except.ok.injEq] at hc
    rw [hc]
  · rw [hu] at hc
    simp at hc

theorem LoadConfig_of_absent (w : World) (h : String) (hh : w.home = Except.ok h)
    (ha : w.fs (configPath h) = Node.absent) :
    LoadConfig w = Except.ok { Host := "http://localhost:8181", Realm := "" } := by
  simp only [configPath] at ha
  simp [LoadConfig, getConfigDir, hh, ReadFile, ha, IsNotExist]

theorem storeMember_host_keeps (acc : Config × Option UnmarshalError)
    (m : String × JValue) (a : String) (hacc : acc.1.Host = a)
    (hm : foldName m.1 ≠ foldName "host") :
    (storeMember Config.fields acc m).1.Host = a := by
  unfold storeMember
  cases hf : findField Config.fields m.1 with
  | none => simpa using hacc
  | some slot =>
    obtain ⟨f, hmem, hslot, hfold⟩ := findField_some _ _ _ hf
    simp only [Config.fields, List.mem_cons, List.mem_singleton,
      List.not_mem_nil, or_false] at hmem
    rcases hmem with h | h <;> subst h <;> subst hslot
    · exact absurd hfold.symm hm
    · exact storeValue_string_fst _ _ _ (fun r : Config => r.Host = a) hacc (fun _ => hacc)

theorem foldl_host_keeps (ms : List (String × JValue))
    (acc : Config × Option UnmarshalError) (a : String) (hacc : acc.1.Host = a)
    (hms : ∀ m ∈ ms, foldName m.1 ≠ foldName "host") :
    (ms.foldl (storeMember Config.fields) acc).1.Host = a := by
  induction ms generalizing acc with
  | nil => simpa using hacc
  | cons m ms ih =>
    simp only [List.foldl_cons]
    exact ih _ (storeMember_host_keeps acc m a hacc (hms m (List.mem_cons_self _ _)))
      (fun x hx => hms x (List.mem_cons_of_mem _ hx))

theorem find_filter_same (h : List (String × String)) (key value : String) :
    List.find? (fun kv => kv.1 == key) (List.filter (fun kv => kv.1 != key) h ++ [(key, value)])
      = some (key, value) := by
  induction h with
  | nil => simp
  | cons kv h ih =>
    by_cases hk : kv.1 = key
    · rw [List.filter_cons_of_neg (by simp [hk])]
      exact ih
    · rw [List.filter_cons_of_pos (by simp [hk]), List.cons_append,
        List.find?_cons_of_neg _ (by simp [hk])]
      exact ih

theorem find_filter_other (h : List (String × String)) (key value other : String)
    (hne : other ≠ key) :
    List.find? (fun kv => kv.1 == other)
        (List.filter (fun kv => kv.1 != key) h ++ [(key, value)])
      = List.find? (fun kv => kv.1 == other) h := by
  have hne2 : ¬ key = other := fun e => hne e.symm
  induction h with
  | nil => simp [hne2]
  | cons kv h ih =>
    by_cases hk : kv.1 = key
    · have hko : ¬ kv.1 = other := by rw [hk]; exact hne2
      rw [List.filter_cons_of_neg (by simp [hk]), List.find?_cons_of_neg _ (by simp [hko])]
      exact ih
    · rw [List.filter_cons_of_pos (by simp [hk]), List.cons_append]
      by_cases ho : kv.1 = other
      · rw [List.find?_cons_of_pos _ (by simp [ho]), List.find?_cons_of_pos _ (by simp [ho])]
      · rw [List.find?_cons_of_neg _ (by simp [ho]), List.find?_cons_of_neg _ (by simp [ho])]
        exact ih

theorem HeaderGet_HeaderSet_same (h : List (String × String)) (key value : String) :
    HeaderGet (HeaderSet h key value) key = some value := by
  unfold HeaderGet HeaderSet
  rw [find_filter_same]
  rfl

theorem HeaderGet_HeaderSet_other (h : List (String × String)) (key value other : String)
    (hne : other ≠ key) :
    HeaderGet (HeaderSet h key value) other = HeaderGet h other := by
  unfold HeaderGet HeaderSet
  rw [find_filter_other h key value other hne]

theorem NewRequest_ok (method url : String) (body : Body) (w : World) (req : Request)
    (h : NewRequest method url body w = Except.ok req) :
    validMethod (if method = "" then "GET" else method) = true ∧ w.urlError url = none := by
  unfold NewRequest at h
  cases hv : validMethod (if method = "" then "GET" else method) with
  | false => simp [hv] at h
  | true =>
    cases hu : w.urlError url with
    | none => exact ⟨rfl, rfl⟩
    | some e => simp [hv, hu] at h

theorem doRequest_eq (c : Client) (method path : String) (body : Body) (w : World)
    (hm : validMethod (if method = "" then "GET" else method) = true)
    (hurl : w.urlError (TrimSuffix c.config.Host "/" ++ path) = none) :
    c.doRequest method path body w =
      (doRequestReply (w.server (clientRequest c method path body)),
       { w with sent := w.sent ++ [clientRequest c method path body] }) := by
  have hreq : (if c.config.Realm ≠ "" then
        ({ method := if method = "" then "GET" else method,
           url := TrimSuffix c.config.Host "/" ++ path,
           header := HeaderSet (HeaderSet (HeaderSet [] "Content-Type" "application/json")
              "Authorization" ("Bearer " ++ c.token)) RealmHeaderName c.config.Realm,
           body := body } : Request)
      else
        { method := if method = "" then "GET" else method,
          url := TrimSuffix c.config.Host "/" ++ path,
          header := HeaderSet (HeaderSet [] "Content-Type" "application/json")
              "Authorization" ("Bearer " ++ c.token),
          body := body })
      = clientRequest c method path body := by
    by_cases h : c.config.Realm = "" <;> simp [h, clientRequest, HeaderSet, RealmHeaderName]
  unfold Client.doRequest
  simp only [NewRequest, hm, Bool.true_eq_false, if_false, hurl, hreq, Do]
  cases hex : w.server (clientRequest c method path body) with
  | failed err => simp [doRequestReply]
  | unreadable st err => by_cases hs : st = StatusUnauthorized <;> simp [doRequestReply, hs]
  | response st data => by_cases hs : st = StatusUnauthorized <;> simp [doRequestReply, hs]

theorem doRequest_not_built (c : Client) (method path : String) (body : Body) (w : World)
    (err : String)
    (h : NewRequest method (TrimSuffix c.config.Host "/" ++ path) body w = Except.error err) :
    c.doRequest method path body w = (Except.error ("failed to create request: " ++ err), w) := by
  unfold Client.doRequest
  simp only [h]

theorem clientRequest_headers (c : Client) (method path : String) (body : Body) :
    HeaderGet (clientRequest c method path body).header "Authorization"
        = some ("Bearer " ++ c.token) ∧
      HeaderGet (clientRequest c method path body).header "Polaris-Realm"
        = (if c.config.Realm = "" then none else some c.config.Realm) ∧
      HeaderGet (clientRequest c method path body).header "Content-Type"
        = some "application/json" := by
  by_cases hr : c.config.Realm = "" <;>
    simp [HeaderGet, clientRequest, hr, RealmHeaderName]

theorem editor_headers (cfg : Config) (token : String) (req : Request) :
    ∃ req1, managementRequestEditor cfg token req = Except.ok req1 ∧
      HeaderGet req1.header "Authorization" = some ("Bearer " ++ token) ∧
      (cfg.Realm ≠ "" → HeaderGet req1.header "Polaris-Realm" = some cfg.Realm) ∧
      (cfg.Realm = "" →
        HeaderGet req1.header "Polaris-Realm" = HeaderGet req.header "Polaris-Realm") ∧
      req1.method = req.method ∧ req1.url = req.url ∧ req1.body = req.body := by
  unfold managementRequestEditor
  by_cases hr : cfg.Realm = ""
  · refine ⟨_, rfl, ?_, ?_, ?_, ?_⟩
    · simp only [hr, ne_eq, not_true_eq_false, if_false]
      exact HeaderGet_HeaderSet_same _ _ _
    · intro h; exact absurd hr h
    · intro _
      simp only [hr, ne_eq, not_true_eq_false, if_false]
      exact HeaderGet_HeaderSet_other _ _ _ _ (by decide)
    · simp [hr]
  · refine ⟨_, rfl, ?_, ?_, ?_, ?_⟩
    · simp only [ne_eq, hr, not_false_eq_true, if_true]
      rw [HeaderGet_HeaderSet_other _ _ _ _ (by decide)]
      exact HeaderGet_HeaderSet_same _ _ _
    · intro _
      simp only [ne_eq, hr, not_false_eq_true, if_true]
      exact HeaderGet_HeaderSet_same _ _ _
    · intro h; exact absurd h hr
    · simp [hr]

theorem readReply_rule (status : Int) (data : String) :
    StatusRule
      (match doRequestReply (Exchange.response status data) with
        | Except.error err => Except.error err
        | Except.ok resp =>
          match resp.Body with
          | Except.error err => Except.error ("failed to read response: " ++ err)
          | Except.ok body =>
            if resp.StatusCode ≥ 400 then
              Except.error ("request failed with status " ++ toString resp.StatusCode ++ ": "
                ++ body)
            else Except.ok body)
      status data data := by
  unfold StatusRule doRequestReply
  refine ⟨?_, ?_, ?_⟩
  · intro h
    simp [h, StatusUnauthorized]
  · intro hge hne
    have h1 : ¬ status = StatusUnauthorized := hne
    simp only [h1, if_false, hge, if_true]
    exact ⟨_, rfl, contains_in _ _ _ _, contains_end _ _⟩
  · intro hlt
    have h1 : ¬ status = StatusUnauthorized := by
      unfold StatusUnauthorized; omega
    have h2 : ¬ status ≥ 400 := by omega
    simp only [h1, if_false, h2]

theorem deleteReply_rule (status : Int) (data : String) :
    StatusRule
      (match doRequestReply (Exchange.response status data) with
        | Except.error err => Except.error err
        | Except.ok resp =>
          if resp.StatusCode ≥ 400 then
            Except.error ("request failed with status " ++ toString resp.StatusCode ++ ": "
              ++ (match resp.Body with
                | Except.ok data => data
                | Except.error _ => ""))
          else Except.ok ())
      status data () := by
  unfold StatusRule doRequestReply
  refine ⟨?_, ?_, ?_⟩
  · intro h
    simp [h, StatusUnauthorized]
  · intro hge hne
    have h1 : ¬ status = StatusUnauthorized := hne
    simp only [h1, if_false, hge, if_true]
    exact ⟨_, rfl, contains_in _ _ _ _, contains_end _ _⟩
  · intro hlt
    have h1 : ¬ status = StatusUnauthorized := by
      unfold StatusUnauthorized; omega
    have h2 : ¬ status ≥ 400 := by omega
    simp only [h1, if_false, h2]

/-- C14: for `Get`, `Post`, `Put` and `Delete`, and every response the
server gives to the request: status 401 yields the fixed session-expired
message whatever the body; any other status from 400 yields an error whose
message contains the status in decimal and the raw body; a status below 400
yields success, with the body returned unchanged by `Get`, `Post` and `Put`. -/
theorem C14_status_rule (c : Client) (path : String) (body : Body) (w : World)
    (status : Int) (data : String)
    (hurl : w.urlError (TrimSuffix c.config.Host "/" ++ path) = none) :
    (w.server (clientRequest c "GET" path Body.none) = Exchange.response status data →
      StatusRule (c.Get path w).1 status data data) ∧
    (w.server (clientRequest c "POST" path body) = Exchange.response status data →
      StatusRule (c.Post path body w).1 status data data) ∧
    (w.server (clientRequest c "PUT" path body) = Exchange.response status data →
      StatusRule (c.Put path body w).1 status data data) ∧
    (w.server (clientRequest c "DELETE" path Body.none) = Exchange.response status data →
      StatusRule (c.Delete path w).1 status data ()) := by
  refine ⟨?_, ?_, ?_, ?_⟩
  · intro hresp
    have h := readReply_rule status data
    unfold Client.Get
    rw [doRequest_eq c "GET" path Body.none w (by decide) hurl, hresp]
    cases hd : doRequestReply (Exchange.response status data) with
    | error e => simpa [hd] using h
    | ok resp =>
      rw [hd] at h
      simp only
      cases hb : resp.Body with
      | error e => simpa [hb] using h
      | ok b =>
        simp only [hb] at h ⊢
        by_cases hs : resp.StatusCode ≥ 400 <;> simpa [hs] using h
  · intro hresp
    have h := readReply_rule status data
    unfold Client.Post
    rw [doRequest_eq c "POST" path body w (by decide) hurl, hresp]
    cases hd : doRequestReply (Exchange.response status data) with
    | error e => simpa [hd] using h
    | ok resp =>
      rw [hd] at h
      simp only
      cases hb : resp.Body with
      | error e => simpa [hb] using h
      | ok b =>
        simp only [hb] at h ⊢
        by_cases hs : resp.StatusCode ≥ 400 <;> simpa [hs] using h
  · intro hresp
    have h := readReply_rule status data
    unfold Client.Put
    rw [doRequest_eq c "PUT" path body w (by decide) hurl, hresp]
    cases hd : doRequestReply (Exchange.response status data) with
    | error e => simpa [hd] using h
    | ok resp =>
      rw [hd] at h
      simp only
      cases hb : resp.Body with
      | error e => simpa [hb] using h
      | ok b =>
        simp only [hb] at h ⊢
        by_cases hs : resp.StatusCode ≥ 400 <;> simpa [hs] using h
  · intro hresp
    have h := deleteReply_rule status data
    unfold Client.Delete
    rw [doRequest_eq c "DELETE" path Body.none w (by decide) hurl, hresp]
    cases hd : doRequestReply (Exchange.response status data) with
    | error e => simpa [hd] using h
    | ok resp =>
      rw [hd] at h
      simp only
      by_cases hs : resp.StatusCode ≥ 400 <;> simpa [hs] using h

/-- Witness of C14: `Get` on status 401, on status 404 and on status 200. -/
theorem C14_status_rule_witness :
    (tokenClient.Get "/x" (mockWorld (Exchange.response 401 "any body"))).1
        = Except.error sessionExpired ∧
      (∃ msg, (tokenClient.Get "/x" (mockWorld (Exchange.response 404 "no such thing"))).1
          = Except.error msg ∧ Contains msg (toString (404 : Int)) ∧
          Contains msg "no such thing") ∧
      (tokenClient.Get "/x" (mockWorld (Exchange.response 200 "payload"))).1
        = Except.ok "payload" :=
  ⟨((C14_status_rule tokenClient "/x" Body.none (mockWorld (Exchange.response 401 "any body"))
      401 "any body" rfl).1 rfl).1 rfl,
   ((C14_status_rule tokenClient "/x" Body.none
      (mockWorld (Exchange.response 404 "no such thing")) 404 "no such thing" rfl).1 rfl).2.1
      (by decide) (by decide),
   ((C14_status_rule tokenClient "/x" Body.none (mockWorld (Exchange.response 200 "payload"))
      200 "payload" rfl).1 rfl).2.2 (by decide)⟩

theorem containsAux_iff (sub : List Char) (cs : List Char) :
    strings.containsAux sub cs = true ↔ List.IsInfix sub cs := by
  induction cs with
  | nil =>
    simp [strings.containsAux, List.isEmpty_iff]
  | cons c cs ih =>
    rw [strings.containsAux, Bool.or_eq_true, ih, List.infix_cons_iff,
      List.isPrefixOf_iff_prefix]

theorem strings_Contains_iff (s sub : String) :
    strings.Contains s sub = true ↔ Contains s sub :=
  containsAux_iff sub.toList s.toList

theorem infix_singleton_iff (a : Char) (cs : List Char) : List.IsInfix [a] cs ↔ a ∈ cs := by
  constructor
  · rintro ⟨s, t, rfl⟩
    simp
  · intro h
    obtain ⟨s, t, rfl⟩ := List.append_of_mem h
    exact ⟨s, t, by simp⟩

theorem intercalate_cons_ne_nil (sep x : List Char) (xs : List (List Char)) (h : xs ≠ []) :
    sep.intercalate (x :: xs) = x ++ sep ++ sep.intercalate xs := by
  cases xs with
  | nil => exact absurd rfl h
  | cons y ys => simp [List.intercalate, List.intersperse]

theorem splitAux_ne_nil (sep : List Char) (n : Nat) (cur cs : List Char) :
    strings.splitAux sep n cur cs ≠ [] := by
  induction n generalizing cur cs with
  | zero => simp [strings.splitAux]
  | succ n ih =>
    cases cs with
    | nil => simp [strings.splitAux]
    | cons c cs =>
      rw [strings.splitAux]
      split
      · simp
      · exact ih _ _

theorem splitAux_single_step (a c : Char) (n : Nat) (cur cs : List Char) :
    strings.splitAux [a] (n + 1) cur (c :: cs) =
      if a = c then cur.reverse :: strings.splitAux [a] n [] cs
      else strings.splitAux [a] n (c :: cur) cs := by
  rw [strings.splitAux]
  by_cases h : a = c <;> simp [h]

theorem splitAux_single_join (a : Char) (n : Nat) (cur cs : List Char) (hn : cs.length ≤ n) :
    [a].intercalate (strings.splitAux [a] n cur cs) = cur.reverse ++ cs := by
  induction n generalizing cur cs with
  | zero =>
    have : cs = [] := List.length_eq_zero.mp (Nat.le_zero.mp hn)
    subst this
    simp [strings.splitAux, List.intercalate]
  | succ n ih =>
    cases cs with
    | nil => simp [strings.splitAux, List.intercalate]
    | cons c cs =>
      have hn1 : cs.length ≤ n := by simpa using hn
      rw [splitAux_single_step]
      by_cases h : a = c
      · rw [if_pos h, intercalate_cons_ne_nil _ _ _ (splitAux_ne_nil _ _ _ _), ih [] cs hn1, h]
        simp
      · rw [if_neg h, ih (c :: cur) cs hn1]
        simp

theorem splitAux_single_no_sep (a : Char) (n : Nat) (cur cs : List Char)
    (hn : cs.length ≤ n) (hcur : a ∉ cur) :
    ∀ p ∈ strings.splitAux [a] n cur cs, a ∉ p := by
  induction n generalizing cur cs with
  | zero =>
    have : cs = [] := List.length_eq_zero.mp (Nat.le_zero.mp hn)
    subst this
    intro p hp
    simp only [strings.splitAux, List.append_nil, List.mem_singleton] at hp
    subst hp
    simpa using hcur
  | succ n ih =>
    cases cs with
    | nil =>
      intro p hp
      simp only [strings.splitAux, List.mem_singleton] at hp
      subst hp
      simpa using hcur
    | cons c cs =>
      have hn1 : cs.length ≤ n := by simpa using hn
      rw [splitAux_single_step]
      by_cases h : a = c
      · rw [if_pos h]
        intro p hp
        rcases List.mem_cons.mp hp with hp | hp
        · subst hp
          simpa using hcur
        · exact ih [] cs hn1 (by simp) p hp
      · rw [if_neg h]
        exact ih (c :: cur) cs hn1 (by simp [h, hcur])

/-- Splitting on a one-character separator: joining the parts with the
separator gives the text back, and no part contains the separator. -/
theorem Split_single (t : String) (a : Char) :
    strings.Join (strings.Split t (String.mk [a])) (String.mk [a]) = t ∧
    (∀ p ∈ strings.Split t (String.mk [a]), ¬ Contains p (String.mk [a])) ∧
    strings.Split t (String.mk [a]) ≠ [] := by
  have hsplit : strings.Split t (String.mk [a])
      = (strings.splitAux [a] t.toList.length [] t.toList).map String.mk := by
    simp [strings.Split]
  refine ⟨?_, ?_, ?_⟩
  · rw [hsplit]
    unfold strings.Join
    have hmap : ((strings.splitAux [a] t.toList.length [] t.toList).map String.mk).map
        String.toList = strings.splitAux [a] t.toList.length [] t.toList := by
      rw [List.map_map]
      have hid : (String.toList ∘ String.mk) = (id : List Char → List Char) := rfl
      rw [hid, List.map_id]
    rw [hmap]
    show String.mk ([a].intercalate _) = t
    rw [splitAux_single_join a _ [] t.toList (Nat.le_refl _)]
    simp
  · rw [hsplit]
    intro p hp
    obtain ⟨q, hq, rfl⟩ := List.mem_map.mp hp
    have := splitAux_single_no_sep a _ [] t.toList (Nat.le_refl _) (by simp) q hq
    show ¬ List.IsInfix [a] q
    rw [infix_singleton_iff]
    exact this
  · rw [hsplit]
    simp [splitAux_ne_nil]

theorem TrimSpace_of_all_space (s : String) (h : s.toList.all unicode.IsSpace = true) :
    strings.TrimSpace s = "" := by
  unfold strings.TrimSpace
  have : s.toList.dropWhile unicode.IsSpace = [] := by
    rw [List.dropWhile_eq_nil_iff]
    intro x hx
    exact List.all_eq_true.mp h x hx
  rw [this]
  rfl

theorem parseNamespaceArg_blank (s : String) (h : strings.TrimSpace s = "") :
    parseNamespaceArg s = Except.error "namespace is required" := by
  simp [parseNamespaceArg, h]

theorem Split_unit_ne_nil (t : String) : strings.Split t "\x1f" ≠ [] :=
  (Split_single t (Char.ofNat 0x1f)).2.2

theorem parseNamespaceArg_nonblank (s : String) (h : strings.TrimSpace s ≠ "") :
    ∃ parts, parseNamespaceArg s = Except.ok parts ∧ parts ≠ [] := by
  unfold parseNamespaceArg
  simp only [h, if_false]
  split
  · exact ⟨_, rfl, Split_unit_ne_nil _⟩
  · split
    · exact ⟨_, rfl, Split_unit_ne_nil _⟩
    · split
      · exact ⟨_, rfl, (Split_single _ '/').2.2⟩
      · exact ⟨_, rfl, (Split_single _ '.').2.2⟩

theorem parseNamespaceArg_ok (s : String) (parts : List String)
    (h : parseNamespaceArg s = Except.ok parts) :
    strings.TrimSpace s ≠ "" ∧ s ≠ "" ∧ parts ≠ [] := by
  have ht : strings.TrimSpace s ≠ "" := by
    intro hb
    rw [parseNamespaceArg_blank s hb] at h
    simp at h
  refine ⟨ht, ?_, ?_⟩
  · intro hs
    subst hs
    exact ht rfl
  · obtain ⟨parts1, h1, hne⟩ := parseNamespaceArg_nonblank s ht
    rw [h1] at h
    simp only [Except.ok.injEq] at h
    rw [← h]
    exact hne

theorem not_strings_Contains (s sub : String) (h : ¬ Contains s sub) :
    strings.Contains s sub = false := by
  cases hc : strings.Contains s sub with
  | false => rfl
  | true => exact absurd ((strings_Contains_iff s sub).mp hc) h

/-- C19: when the trimmed input is non-empty and contains neither the
unit separator nor the text "%1F", `parseNamespaceArg` returns the trimmed
input split on '/' if it contains '/', and split on '.' otherwise; joining
the parts with the separator used gives the trimmed input back, so dots stay
inside the parts of a split on '/'. -/
theorem C19_slash_before_dot (input : String)
    (hne : strings.TrimSpace input ≠ "")
    (hunit : ¬ Contains (strings.TrimSpace input) "\x1f")
    (hpct : ¬ Contains (strings.TrimSpace input) "%1F") :
    (Contains (strings.TrimSpace input) "/" →
      parseNamespaceArg input = Except.ok (strings.Split (strings.TrimSpace input) "/") ∧
      strings.Join (strings.Split (strings.TrimSpace input) "/") "/"
        = strings.TrimSpace input ∧
      ∀ p ∈ strings.Split (strings.TrimSpace input) "/", ¬ Contains p "/") ∧
    (¬ Contains (strings.TrimSpace input) "/" →
      parseNamespaceArg input = Except.ok (strings.Split (strings.TrimSpace input) ".") ∧
      strings.Join (strings.Split (strings.TrimSpace input) ".") "."
        = strings.TrimSpace input ∧
      ∀ p ∈ strings.Split (strings.TrimSpace input) ".", ¬ Contains p ".") := by
  have h1 := not_strings_Contains _ _ hunit
  have h2 := not_strings_Contains _ _ hpct
  constructor
  · intro hs
    have h3 := (strings_Contains_iff _ _).mpr hs
    refine ⟨?_, (Split_single _ '/').1, (Split_single _ '/').2.1⟩
    simp [parseNamespaceArg, hne, h1, h2, h3]
  · intro hs
    have h3 := not_strings_Contains _ _ hs
    refine ⟨?_, (Split_single _ '.').1, (Split_single _ '.').2.1⟩
    simp [parseNamespaceArg, hne, h1, h2, h3]

/-- Witness of C19: "a.b" and "a/b" both parse to ["a","b"], and in
"a.b/c" the dot stays inside the first part. -/
theorem C19_slash_before_dot_witness :
    parseNamespaceArg "a.b" = Except.ok ["a", "b"] ∧
      parseNamespaceArg "a/b" = Except.ok ["a", "b"] ∧
      parseNamespaceArg " a.b/c " = Except.ok ["a.b", "c"] :=
  ⟨((C19_slash_before_dot "a.b" (by decide) (by decide) (by decide)).2 (by decide)).1,
   ((C19_slash_before_dot "a/b" (by decide) (by decide) (by decide)).1 (by decide)).1,
   ((C19_slash_before_dot " a.b/c " (by decide) (by decide) (by decide)).1 (by decide)).1⟩

/-- C20: when the trimmed input contains the unit separator 0x1F,
`parseNamespaceArg` returns the trimmed input split on 0x1F; joining the
parts with 0x1F gives the trimmed input back and no part contains 0x1F, so
every '.' and '/' stays inside a part. -/
theorem C20_unit_separator_first (input : String)
    (hunit : Contains (strings.TrimSpace input) "\x1f") :
    parseNamespaceArg input = Except.ok (strings.Split (strings.TrimSpace input) "\x1f") ∧
      strings.Join (strings.Split (strings.TrimSpace input) "\x1f") "\x1f"
        = strings.TrimSpace input ∧
      ∀ p ∈ strings.Split (strings.TrimSpace input) "\x1f", ¬ Contains p "\x1f" := by
  have h1 := (strings_Contains_iff _ _).mpr hunit
  have hne : strings.TrimSpace input ≠ "" := by
    intro h
    rw [h] at hunit
    revert hunit
    decide
  refine ⟨?_, (Split_single _ (Char.ofNat 0x1f)).1, (Split_single _ (Char.ofNat 0x1f)).2.1⟩
  simp [parseNamespaceArg, hne, h1]

/-- Witness of C20: dots and slashes beside a unit separator. -/
theorem C20_unit_separator_first_witness :
    parseNamespaceArg " a.b\x1fc/d " = Except.ok ["a.b", "c/d"] :=
  (C20_unit_separator_first " a.b\x1fc/d " (by decide)).1

theorem ToLower_table (u : CaseTables) : strings.ToLower u "table" = "table" := rfl

theorem ToLower_catalog (u : CaseTables) : strings.ToLower u "catalog" = "catalog" := rfl

theorem constructGrant_table (u : CaseTables) (typ priv nsStr table view : String)
    (parts : List String) (htyp : strings.ToLower u typ = "table")
    (hs : parseNamespaceArg nsStr = Except.ok parts) :
    constructGrant u typ priv nsStr table view =
      if table = "" then Except.error "table is required for table grant"
      else Except.ok (Grant.ofTable
        { Type_ := "table", Namespace := parts, TableName := table,
          Privilege := strings.ToUpper u priv }) := by
  obtain ⟨_, hne, hparts⟩ := parseNamespaceArg_ok nsStr parts hs
  have hlen : ¬ parts.length = 0 := by
    intro h
    exact hparts (List.length_eq_zero.mp h)
  unfold constructGrant
  simp only [htyp, ne_eq, hne, not_false_eq_true, if_true, hs, hlen, if_false]
  simp

/-- C15: for every privilege `p`, every non-empty table name `t` and every
namespace string `s` that `parseNamespaceArg` accepts, `constructGrant` with
type "table" returns the table grant with type "table", the namespace that
`parseNamespaceArg s` returns, table name `t` and privilege `p` upper-cased;
with an empty table name it fails. -/
theorem C15_table_grant (u : CaseTables) (p t s view : String) (parts : List String)
    (ht : t ≠ "") (hs : parseNamespaceArg s = Except.ok parts) :
    constructGrant u "table" p s t view =
        Except.ok (Grant.ofTable
          { Type_ := "table", Namespace := parts, TableName := t,
            Privilege := strings.ToUpper u p }) ∧
      constructGrant u "table" p s "" view
        = Except.error "table is required for table grant" := by
  constructor
  · rw [constructGrant_table u "table" p s t view parts (ToLower_table u) hs, if_neg ht]
  · rw [constructGrant_table u "table" p s "" view parts (ToLower_table u) hs, if_pos rfl]

/-- Witness of C15: namespace "a.b", table "t1", privilege "table_read_data". -/
theorem C15_table_grant_witness :
    constructGrant asciiCase "table" "table_read_data" "a.b" "t1" "" =
        Except.ok (Grant.ofTable
          { Type_ := "table", Namespace := ["a", "b"], TableName := "t1",
            Privilege := "TABLE_READ_DATA" }) ∧
      constructGrant asciiCase "table" "table_read_data" "a.b" "" ""
        = Except.error "table is required for table grant" :=
  C15_table_grant asciiCase "table_read_data" "t1" "a.b" "" ["a", "b"] (by decide) rfl

theorem constructGrant_ns (u : CaseTables) (typ priv nsStr table view : String) :
    constructGrant u typ priv nsStr table view =
      match (if nsStr ≠ "" then parseNamespaceArg nsStr else Except.ok []) with
      | Except.error err => Except.error err
      | Except.ok ns =>
        if strings.ToLower u typ = "catalog" then
          Except.ok (Grant.ofCatalog
            { Type_ := "catalog", Privilege := strings.ToUpper u priv })
        else if strings.ToLower u typ = "namespace" then
          if ns.length = 0 then Except.error "namespace is required for namespace grant"
          else Except.ok (Grant.ofNamespace
            { Type_ := "namespace", Namespace := ns, Privilege := strings.ToUpper u priv })
        else if strings.ToLower u typ = "table" then
          if ns.length = 0 then Except.error "namespace is required for table grant"
          else if table = "" then Except.error "table is required for table grant"
          else Except.ok (Grant.ofTable
            { Type_ := "table", Namespace := ns, TableName := table,
              Privilege := strings.ToUpper u priv })
        else if strings.ToLower u typ = "view" then
          if ns.length = 0 then Except.error "namespace is required for view grant"
          else if view = "" then Except.error "view is required for view grant"
          else Except.ok (Grant.ofView
            { Type_ := "view", Namespace := ns, ViewName := view,
              Privilege := strings.ToUpper u priv })
        else
          Except.error ("invalid grant type: " ++ strings.ToLower u typ
            ++ " (expected catalog, namespace, table, view)") := rfl

theorem constructGrant_blank_ns (u : CaseTables) (typ priv nsStr table view : String)
    (hblank : strings.TrimSpace nsStr = "")
    (htyp : strings.ToLower u typ ≠ "catalog") :
    (constructGrant u typ priv nsStr table view).isOk = false := by
  rw [constructGrant_ns]
  by_cases hn : nsStr = ""
  · simp only [hn, ne_eq, not_true_eq_false, if_false, htyp, List.length_nil, if_true]
    repeat' split
    all_goals rfl
  · simp only [ne_eq, hn, not_false_eq_true, if_true, parseNamespaceArg_blank nsStr hblank]
    rfl

/-- C16: `constructGrant` fails when the lower-cased type is none of
catalog, namespace, table, view; for the types namespace, table and view when
the namespace argument is empty or consists of white space only; for type
table when the table name is empty; and for type view when the view name is
empty. -/
theorem C16_grant_validation (u : CaseTables) (typ priv nsStr table view : String) :
    (strings.ToLower u typ ≠ "catalog" → strings.ToLower u typ ≠ "namespace" →
      strings.ToLower u typ ≠ "table" → strings.ToLower u typ ≠ "view" →
      (constructGrant u typ priv nsStr table view).isOk = false) ∧
    ((strings.ToLower u typ = "namespace" ∨ strings.ToLower u typ = "table" ∨
        strings.ToLower u typ = "view") →
      nsStr.toList.all unicode.IsSpace = true →
      (constructGrant u typ priv nsStr table view).isOk = false) ∧
    (strings.ToLower u typ = "table" → table = "" →
      (constructGrant u typ priv nsStr table view).isOk = false) ∧
    (strings.ToLower u typ = "view" → view = "" →
      (constructGrant u typ priv nsStr table view).isOk = false) := by
  refine ⟨?_, ?_, ?_, ?_⟩
  · intro h1 h2 h3 h4
    rw [constructGrant_ns]
    split
    · rfl
    · simp only [h1, h2, h3, h4, if_false]
      rfl
  · intro htyp hall
    apply constructGrant_blank_ns u typ priv nsStr table view (TrimSpace_of_all_space _ hall)
    rcases htyp with h | h | h <;> rw [h] <;> decide
  · intro htyp htable
    rw [constructGrant_ns]
    split
    · rfl
    · simp only [htyp, htable, if_true]
      have h1 : ¬ ("table" = "catalog") := by decide
      have h2 : ¬ ("table" = "namespace") := by decide
      simp only [h1, h2, if_false]
      split <;> rfl
  · intro htyp hview
    rw [constructGrant_ns]
    split
    · rfl
    · simp only [htyp, hview, if_true]
      have h1 : ¬ ("view" = "catalog") := by decide
      have h2 : ¬ ("view" = "namespace") := by decide
      have h3 : ¬ ("view" = "table") := by decide
      simp only [h1, h2, h3, if_false]
      split <;> rfl

/-- Witness of C16: an unknown type, and a table grant with a blank
namespace. -/
theorem C16_grant_validation_witness :
    (constructGrant asciiCase "Schema" "p" "a.b" "t" "v").isOk = false ∧
      (constructGrant asciiCase "TABLE" "p" "  " "t" "v").isOk = false :=
  ⟨(C16_grant_validation asciiCase "Schema" "p" "a.b" "t" "v").1
      (by decide) (by decide) (by decide) (by decide),
   (C16_grant_validation asciiCase "TABLE" "p" "  " "t" "v").2.1
      (Or.inr (Or.inl rfl)) rfl⟩

/-- C17, as stated, fails: a catalog grant with a namespace argument of
white space only is rejected, because the namespace argument is parsed
before the type is looked at. -/
theorem C17_blank_namespace_rejected_for_catalog :
    constructGrant asciiCase "catalog" "CATALOG_MANAGE_ACCESS" " " "" ""
      = Except.error "namespace is required" :=
  rfl

/-- C17 (amended): for resource type catalog, in any letter case,
`constructGrant` succeeds for every privilege string, every table and view
argument and every namespace argument that is empty or has a non-empty
trimmed form, and returns the catalog grant of type "catalog" and the
upper-cased privilege; a non-empty namespace argument of white space only is
rejected with the error of `parseNamespaceArg`, for every type. -/
theorem C17_catalog_grant (u : CaseTables) (typ priv nsStr table view : String) :
    (strings.ToLower u typ = "catalog" →
      (nsStr = "" ∨ strings.TrimSpace nsStr ≠ "") →
      constructGrant u typ priv nsStr table view =
        Except.ok (Grant.ofCatalog
          { Type_ := "catalog", Privilege := strings.ToUpper u priv })) ∧
    (nsStr ≠ "" → strings.TrimSpace nsStr = "" →
      constructGrant u typ priv nsStr table view = Except.error "namespace is required") := by
  constructor
  · intro htyp hns
    rw [constructGrant_ns]
    by_cases hn : nsStr = ""
    · simp [hn, htyp]
    · have ht : strings.TrimSpace nsStr ≠ "" := by
        rcases hns with h | h
        · exact absurd h hn
        · exact h
      obtain ⟨parts, hp, _⟩ := parseNamespaceArg_nonblank nsStr ht
      simp [hn, hp, htyp]
  · intro hn hb
    rw [constructGrant_ns]
    simp [hn, parseNamespaceArg_blank nsStr hb]

/-- Witness of C17: type "Catalog" with a namespace and a table given. -/
theorem C17_catalog_grant_witness :
    constructGrant asciiCase "Catalog" "catalog_manage_access" "a.b" "t" "v" =
      Except.ok (Grant.ofCatalog
        { Type_ := "catalog", Privilege := "CATALOG_MANAGE_ACCESS" }) :=
  (C17_catalog_grant asciiCase "Catalog" "catalog_manage_access" "a.b" "t" "v").1 rfl
    (Or.inr (by decide))

theorem asciiCase_lower_small : ∀ n, n < 128 →
    unicode.ToLower asciiCase (unicode.ToLower asciiCase (Char.ofNat n))
      = unicode.ToLower asciiCase (Char.ofNat n) := by
  decide

theorem asciiCase_upper_small : ∀ n, n < 128 →
    unicode.ToUpper asciiCase (unicode.ToUpper asciiCase (Char.ofNat n))
      = unicode.ToUpper asciiCase (Char.ofNat n) := by
  decide

theorem asciiCase_idempotent : asciiCase.Idempotent := by
  constructor
  · intro c
    by_cases h : c.toNat ≤ 0x7F
    · have := asciiCase_lower_small c.toNat (by omega)
      rwa [Char.ofNat_toNat] at this
    · simp [unicode.ToLower, h, asciiCase]
  · intro c
    by_cases h : c.toNat ≤ 0x7F
    · have := asciiCase_upper_small c.toNat (by omega)
      rwa [Char.ofNat_toNat] at this
    · simp [unicode.ToUpper, h, asciiCase]

theorem ToLower_idem (u : CaseTables) (hu : u.Idempotent) (s : String) :
    strings.ToLower u (strings.ToLower u s) = strings.ToLower u s := by
  unfold strings.ToLower
  simp only [String.toList, List.map_map]
  congr 1
  apply List.map_congr_left
  intro c _
  exact hu.1 c

theorem ToUpper_idem (u : CaseTables) (hu : u.Idempotent) (s : String) :
    strings.ToUpper u (strings.ToUpper u s) = strings.ToUpper u s := by
  unfold strings.ToUpper
  simp only [String.toList, List.map_map]
  congr 1
  apply List.map_congr_left
  intro c _
  exact hu.2 c

/-- C18: when the case mappings are idempotent, as those of Unicode are,
`constructGrant` gives the same result or the same error for a type and
privilege as for the lower-cased type and the upper-cased privilege; and a
grant it returns has as type one of the four lower-case literals, equal to
the lower-cased type argument, and as privilege the upper-cased privilege
argument. -/
theorem C18_case_insensitive (u : CaseTables) (typ priv nsStr table view : String) :
    (u.Idempotent →
      constructGrant u typ priv nsStr table view
        = constructGrant u (strings.ToLower u typ) (strings.ToUpper u priv) nsStr table view) ∧
    (∀ g, constructGrant u typ priv nsStr table view = Except.ok g →
      g.Type_ = strings.ToLower u typ ∧
      g.Type_ ∈ ["catalog", "namespace", "table", "view"] ∧
      g.Privilege = strings.ToUpper u priv) := by
  constructor
  · intro hu
    rw [constructGrant_ns, constructGrant_ns, ToLower_idem u hu, ToUpper_idem u hu]
  · intro g hg
    rw [constructGrant_ns] at hg
    split at hg
    · simp at hg
    · split at hg
      · rename_i h
        simp only [Except.ok.injEq] at hg
        subst hg
        simp [Grant.Type_, Grant.Privilege, h]
      · split at hg
        · rename_i h
          split at hg
          · simp at hg
          · simp only [Except.ok.injEq] at hg
            subst hg
            simp [Grant.Type_, Grant.Privilege, h]
        · split at hg
          · rename_i h
            split at hg
            · simp at hg
            · split at hg
              · simp at hg
              · simp only [Except.ok.injEq] at hg
                subst hg
                simp [Grant.Type_, Grant.Privilege, h]
          · split at hg
            · rename_i h
              split at hg
              · simp at hg
              · split at hg
                · simp at hg
                · simp only [Except.ok.injEq] at hg
                  subst hg
                  simp [Grant.Type_, Grant.Privilege, h]
            · simp at hg

/-- Witness of C18: "TaBlE" and "table_read_data" against "table" and
"TABLE_READ_DATA". -/
theorem C18_case_insensitive_witness :
    constructGrant asciiCase "TaBlE" "table_read_data" "a.b" "t" ""
      = constructGrant asciiCase "table" "TABLE_READ_DATA" "a.b" "t" "" :=
  (C18_case_insensitive asciiCase "TaBlE" "table_read_data" "a.b" "t" "").1
    asciiCase_idempotent

/-- C21: two worlds whose stored credential records differ only in
`expires_in` give the same results of `GetAccessToken`, `IsAuthenticated` and,
with the same config, `NewClient`; a record with a non-empty access token
yields that token whatever its `expires_in`, zero and negative included, and
`NewClient` builds a client carrying it. These functions return no world: they
send no request. -/
theorem C21_expiry_not_consulted (w1 w2 : World) (r : Credentials) (e : Int)
    (h1 : LoadCredentials w1 = Except.ok r)
    (h2 : LoadCredentials w2 = Except.ok { r with ExpiresIn := e }) :
    GetAccessToken w2 = GetAccessToken w1 ∧
    IsAuthenticated w2 = IsAuthenticated w1 ∧
    (LoadConfig w2 = LoadConfig w1 → NewClient w2 = NewClient w1) ∧
    (r.AccessToken ≠ "" →
      GetAccessToken w2 = Except.ok r.AccessToken ∧ IsAuthenticated w2 = true ∧
      ∀ cfg : Config, LoadConfig w2 = Except.ok cfg →
        NewClient w2 = Except.ok { config := cfg, token := r.AccessToken }) := by
  have hg : GetAccessToken w2 = GetAccessToken w1 := by
    unfold GetAccessToken
    rw [h1, h2]
  refine ⟨hg, ?_, ?_, ?_⟩
  · unfold IsAuthenticated
    rw [h1, h2]
  · intro hc
    unfold NewClient
    rw [hc, hg]
  · intro htok
    have hg2 : GetAccessToken w2 = Except.ok r.AccessToken := by
      unfold GetAccessToken
      rw [h2]
      simp [htok]
    refine ⟨hg2, ?_, ?_⟩
    · unfold IsAuthenticated
      rw [h2]
      simp [htok]
    · intro cfg hcfg
      unfold NewClient
      rw [hcfg, hg2]

/-- Witness of C21: the stored record with `expires_in` 60 and the same
record with `expires_in` -5. -/
theorem C21_expiry_not_consulted_witness :
    GetAccessToken (expiredWorld (Exchange.failed "offline"))
        = GetAccessToken (storedWorld (Exchange.failed "offline")) ∧
      GetAccessToken (expiredWorld (Exchange.failed "offline")) = Except.ok "old" ∧
      IsAuthenticated (expiredWorld (Exchange.failed "offline")) = true :=
  have h := C21_expiry_not_consulted (storedWorld (Exchange.failed "offline"))
    (expiredWorld (Exchange.failed "offline"))
    { AccessToken := "old", TokenType := "bearer", ExpiresIn := 60, Scope := "x",
      ClientID := "my-id", ClientSecret := "my-secret" } (-5) rfl rfl
  ⟨h.1, (h.2.2.2 (by decide)).1, (h.2.2.2 (by decide)).2.1⟩

theorem slice_head (b : List Nat) (h : 20 < b.length) : slice b 0 10 = some (b.take 10) := by
  have h1 : ((10 : Int) ≤ (b.length : Int)) := by omega
  simp [slice, h1]

theorem slice_tail (b : List Nat) (h : 20 < b.length) :
    slice b ((b.length : Int) - 5) b.length = some (b.drop (b.length - 5)) := by
  have h1 : (0 : Int) ≤ (b.length : Int) - 5 := by omega
  have h2 : ((b.length : Int) - 5).toNat = b.length - 5 := by omega
  have h3 : (b.length : Int) - 5 ≤ (b.length : Int) := by omega
  simp only [slice, h1, h2, h3, le_refl, and_self, if_true, Int.toNat_ofNat]
  rw [List.take_of_length_le]
  simp

theorem LoadCredentials_PrintBytes (d : List Nat) (w : World) :
    LoadCredentials (PrintBytes d w) = LoadCredentials w := rfl

theorem LoadCredentials_Print (t : String) (w : World) :
    LoadCredentials (Print t w) = LoadCredentials w := rfl

theorem runStatus_ok (w : World) (cfg : Config) (creds : Credentials)
    (hcfg : LoadConfig w = Except.ok cfg) (hcreds : LoadCredentials w = Except.ok creds) :
    runStatus w = (Except.ok (),
      { w with stdout := w.stdout ++ statusLines cfg creds ++
          (if 20 < (bytes creds.AccessToken).length then
            [bytes "Access Token: " ++ (bytes creds.AccessToken).take 10 ++ bytes "..."
              ++ (bytes creds.AccessToken).drop ((bytes creds.AccessToken).length - 5)
              ++ bytes "\n"]
          else []) }) := by
  have hl : LoadCredentials (if cfg.Realm ≠ "" then
      Print ("Realm: " ++ cfg.Realm ++ "\n") (Print ("Host: " ++ cfg.Host ++ "\n") w)
      else Print ("Host: " ++ cfg.Host ++ "\n") w) = Except.ok creds := by
    split
    · exact hcreds
    · exact hcreds
  unfold runStatus
  rw [hcfg]
  simp only [hl]
  by_cases ht : 20 < (bytes creds.AccessToken).length
  · simp only [gt_iff_lt, ht, if_true, slice_head _ ht, slice_tail _ ht]
    by_cases h1 : cfg.Realm = "" <;> by_cases h2 : creds.TokenType = "" <;>
      by_cases h3 : creds.Scope = "" <;> by_cases h4 : creds.ClientID = "" <;>
      simp [h1, h2, h3, h4, statusLines, Print, PrintBytes]
  · simp only [gt_iff_lt, ht, if_false]
    by_cases h1 : cfg.Realm = "" <;> by_cases h2 : creds.TokenType = "" <;>
      by_cases h3 : creds.Scope = "" <;> by_cases h4 : creds.ClientID = "" <;>
      simp [h1, h2, h3, h4, statusLines, Print, PrintBytes]

theorem runStatus_not_authenticated (w : World) (cfg : Config) (err : String)
    (hcfg : LoadConfig w = Except.ok cfg) (hcreds : LoadCredentials w = Except.error err) :
    runStatus w = (Except.ok (),
      { w with stdout := w.stdout ++ [bytes ("Host: " ++ cfg.Host ++ "\n")]
          ++ (if cfg.Realm ≠ "" then [bytes ("Realm: " ++ cfg.Realm ++ "\n")] else [])
          ++ [bytes "Status: Not authenticated\n",
              bytes "\nRun \x27polaris auth login\x27 to authenticate.\n"] }) := by
  have hl : LoadCredentials (if cfg.Realm ≠ "" then
      Print ("Realm: " ++ cfg.Realm ++ "\n") (Print ("Host: " ++ cfg.Host ++ "\n") w)
      else Print ("Host: " ++ cfg.Host ++ "\n") w) = Except.error err := by
    split
    · exact hcreds
    · exact hcreds
  unfold runStatus
  rw [hcfg]
  simp only [hl]
  by_cases h1 : cfg.Realm = "" <;> simp [h1, Print, PrintBytes]

/-- C25 (divergence): with a credentials file that holds the empty JSON
object, `IsAuthenticated` is false and `GetAccessToken` fails, and `auth
status` prints "Status: Authenticated ✓" all the same: `runStatus` tests that
`LoadCredentials` succeeds and never looks at the access token. -/
theorem C25_authenticated_without_token :
    IsAuthenticated emptyTokenWorld = false ∧
    GetAccessToken emptyTokenWorld
      = Except.error "no access token found. Please run \x27polaris auth login\x27 first" ∧
    runStatus emptyTokenWorld = (Except.ok (),
      { emptyTokenWorld with
        stdout := [bytes "Host: http://localhost:8181\n", bytes "Status: Authenticated ✓\n"] }) :=
  ⟨rfl, rfl, rfl⟩

/-- C30: when the stored access token has more than 20 bytes, the two
slices `[:10]` and `[len-5:]` that `auth status` takes are in range, have 10
and 5 bytes, and lie apart in the token (at least 6 bytes between them are
not printed); the line printed is "Access Token: ", the first 10 bytes, "...",
the last 5 bytes. When the token has 20 bytes or fewer no token line is
printed, and the other lines do not depend on the token. -/
theorem C30_token_display (w : World) (cfg : Config) (creds : Credentials)
    (hcfg : LoadConfig w = Except.ok cfg) (hcreds : LoadCredentials w = Except.ok creds) :
    (20 < (bytes creds.AccessToken).length →
      slice (bytes creds.AccessToken) 0 10 = some ((bytes creds.AccessToken).take 10) ∧
      slice (bytes creds.AccessToken) (((bytes creds.AccessToken).length : Int) - 5)
          (bytes creds.AccessToken).length
        = some ((bytes creds.AccessToken).drop ((bytes creds.AccessToken).length - 5)) ∧
      ((bytes creds.AccessToken).take 10).length = 10 ∧
      ((bytes creds.AccessToken).drop ((bytes creds.AccessToken).length - 5)).length = 5 ∧
      (∃ middle : List Nat, 6 ≤ middle.length ∧
        bytes creds.AccessToken = (bytes creds.AccessToken).take 10 ++ middle
          ++ (bytes creds.AccessToken).drop ((bytes creds.AccessToken).length - 5)) ∧
      runStatus w = (Except.ok (),
        { w with stdout := w.stdout ++ statusLines cfg creds ++
          [bytes "Access Token: " ++ (bytes creds.AccessToken).take 10 ++ bytes "..."
            ++ (bytes creds.AccessToken).drop ((bytes creds.AccessToken).length - 5)
            ++ bytes "\n"] })) ∧
    ((bytes creds.AccessToken).length ≤ 20 →
      runStatus w = (Except.ok (), { w with stdout := w.stdout ++ statusLines cfg creds })) ∧
    statusLines cfg creds = statusLines cfg { creds with AccessToken := "" } := by
  refine ⟨?_, ?_, rfl⟩
  · intro ht
    refine ⟨slice_head _ ht, slice_tail _ ht, ?_, ?_, ?_, ?_⟩
    · rw [List.length_take]
      omega
    · rw [List.length_drop]
      omega
    · refine ⟨((bytes creds.AccessToken).drop 10).take ((bytes creds.AccessToken).length - 15),
        ?_, ?_⟩
      · rw [List.length_take, List.length_drop]
        omega
      · have h1 : (bytes creds.AccessToken).drop ((bytes creds.AccessToken).length - 5)
            = ((bytes creds.AccessToken).drop 10).drop ((bytes creds.AccessToken).length - 15) := by
          rw [List.drop_drop]
          congr 1
          omega
        rw [h1, List.append_assoc, List.take_append_drop, List.take_append_drop]
    · rw [runStatus_ok w cfg creds hcfg hcreds]
      simp [ht]
  · intro ht
    rw [runStatus_ok w cfg creds hcfg hcreds]
    have : ¬ 20 < (bytes creds.AccessToken).length := by omega
    simp [this]

/-- Witness of C30: the stored token is the 26 letters of the alphabet;
the line printed shows "abcdefghij" and "vwxyz". -/
theorem C30_token_display_witness :
    runStatus longTokenWorld = (Except.ok (),
      { longTokenWorld with
        stdout := longTokenWorld.stdout ++
          statusLines { Host := "http://localhost:8181", Realm := "" }
            { AccessToken := "abcdefghijklmnopqrstuvwxyz", TokenType := "bearer",
              ExpiresIn := 0, Scope := "", ClientID := "", ClientSecret := "" } ++
          [bytes "Access Token: " ++ (bytes "abcdefghijklmnopqrstuvwxyz").take 10
            ++ bytes "..."
            ++ (bytes "abcdefghijklmnopqrstuvwxyz").drop
              ((bytes "abcdefghijklmnopqrstuvwxyz").length - 5)
            ++ bytes "\n"] }) :=
  ((C30_token_display longTokenWorld
    { Host := "http://localhost:8181", Realm := "" }
    { AccessToken := "abcdefghijklmnopqrstuvwxyz", TokenType := "bearer",
      ExpiresIn := 0, Scope := "", ClientID := "", ClientSecret := "" } rfl rfl).1
    (by decide)).2.2.2.2.2

theorem MkdirAll_world (p : Path) (w : World) : (MkdirAll p w).2 = w := by
  unfold MkdirAll
  split <;> rfl

theorem WriteFile_sent (p : Path) (data : String) (w : World) :
    (WriteFile p data w).2.sent = w.sent := by
  unfold WriteFile
  split <;> rfl

theorem ensureConfigDir_world (w : World) : (ensureConfigDir w).2 = w := by
  unfold ensureConfigDir
  cases hd : getConfigDir w with
  | error e => rfl
  | ok dir =>
    simp only
    have h := MkdirAll_world dir w
    rcases hm : MkdirAll dir w with ⟨_ | _, w1⟩
    · rw [hm] at h
      exact h
    · rw [hm] at h
      exact h

theorem SaveCredentials_sent (c : Credentials) (w : World) :
    (SaveCredentials c w).2.sent = w.sent := by
  unfold SaveCredentials
  have h := ensureConfigDir_world w
  rcases he : ensureConfigDir w with ⟨_ | dir, w1⟩
  · rw [he] at h
    simp only
    rw [← h]
  · rw [he] at h
    simp only at h ⊢
    subst h
    have hw := WriteFile_sent (Join dir CredentialsFileName) c.MarshalIndent w1
    rcases hwf : WriteFile (Join dir CredentialsFileName) c.MarshalIndent w1 with ⟨_ | _, w2⟩
    · rw [hwf] at hw
      exact hw
    · rw [hwf] at hw
      exact hw

theorem Login_sent (c : AuthClient) (clientID clientSecret : String) (w : World) :
    (Login c clientID clientSecret w).2.sent =
      (match w.urlError (tokenURL c) with
        | none => w.sent ++ [tokenRequest c (loginForm clientID clientSecret)]
        | some _ => w.sent) := by
  cases h : w.urlError (tokenURL c) with
  | none => rw [Login_eq c clientID clientSecret w h]
  | some err => rw [Login_bad_url c clientID clientSecret w err h]

theorem runLogin_tail (cfg : Config) (id secret : String) (w3 : World) :
    (match Login (NewAuthClient cfg) id secret w3 with
      | (Except.error err, w4) =>
        ((Except.error ("authentication failed: " ++ err) : Except String Unit), w4)
      | (Except.ok credentials, w4) =>
        match SaveCredentials credentials w4 with
        | (Except.error err, w5) =>
          (Except.error ("failed to save credentials: " ++ err), w5)
        | (Except.ok _, w5) =>
          let w6 := Print "✓ Successfully authenticated!\n" w5
          let w7 :=
            if credentials.ExpiresIn > 0 then
              Print ("  Token expires in: " ++ toString credentials.ExpiresIn
                ++ " seconds\n") w6
            else w6
          let w8 :=
            if credentials.Scope ≠ "" then
              Print ("  Scope: " ++ credentials.Scope ++ "\n") w7
            else w7
          (Except.ok (), w8)).2.sent = (Login (NewAuthClient cfg) id secret w3).2.sent := by
  rcases hL : Login (NewAuthClient cfg) id secret w3 with ⟨_ | cr, w4⟩
  · rfl
  · simp only
    have hs := SaveCredentials_sent cr w4
    rcases hS : SaveCredentials cr w4 with ⟨_ | _, w5⟩
    · rw [hS] at hs
      exact hs
    · rw [hS] at hs
      simp only
      rw [← hs]
      split <;> split <;> rfl

theorem Print_stdinLine (t : String) (w : World) : (Print t w).stdinLine = w.stdinLine := rfl

theorem Print_password (t : String) (w : World) : (Print t w).password = w.password := rfl

theorem Print_env (t : String) (w : World) : (Print t w).env = w.env := rfl

theorem Print_sent (t : String) (w : World) : (Print t w).sent = w.sent := rfl

theorem Print_urlError (t : String) (w : World) : (Print t w).urlError = w.urlError := rfl

theorem runLogin_id_stage (clientID : String) (w : World) :
    ∃ o : List (List Nat),
      (if (if clientID = "" then w.env "POLARIS_CLIENT_ID" else clientID) = "" then
        match (Print "Client ID: " w).stdinLine with
        | Except.error err =>
          ((Except.error ("failed to read client ID: " ++ err) : Except String String),
            Print "Client ID: " w)
        | Except.ok line => (Except.ok (strings.TrimSpace line), Print "Client ID: " w)
      else (Except.ok (if clientID = "" then w.env "POLARIS_CLIENT_ID" else clientID), w))
      = (resolvedClientID clientID w, { w with stdout := o }) := by
  unfold resolvedClientID
  by_cases h1 : clientID = ""
  · by_cases h2 : w.env "POLARIS_CLIENT_ID" = ""
    · simp only [h1, h2, if_true, ne_eq, not_true_eq_false, if_false, Print_stdinLine]
      refine ⟨w.stdout ++ [bytes "Client ID: "], ?_⟩
      split <;> rfl
    · simp only [h1, h2, if_true, ne_eq, not_true_eq_false, if_false, not_false_eq_true]
      exact ⟨w.stdout, rfl⟩
  · simp only [h1, if_false, ne_eq, not_false_eq_true, if_true]
    exact ⟨w.stdout, rfl⟩

theorem runLogin_secret_stage (clientSecret : String) (w : World) :
    ∃ o : List (List Nat),
      (if (if clientSecret = "" then w.env "POLARIS_CLIENT_SECRET" else clientSecret) = "" then
        match (Print "Client Secret: " w).password with
        | Except.error err =>
          ((Except.error ("failed to read client secret: " ++ err) : Except String String),
            Print "Client Secret: " w)
        | Except.ok secretBytes => (Except.ok secretBytes, Print "\n" (Print "Client Secret: " w))
      else
        (Except.ok (if clientSecret = "" then w.env "POLARIS_CLIENT_SECRET" else clientSecret),
          w))
      = (resolvedClientSecret clientSecret w, { w with stdout := o }) := by
  unfold resolvedClientSecret
  by_cases h1 : clientSecret = ""
  · by_cases h2 : w.env "POLARIS_CLIENT_SECRET" = ""
    · simp only [h1, h2, if_true, ne_eq, not_true_eq_false, if_false, Print_password]
      split
      · exact ⟨_, rfl⟩
      · exact ⟨_, rfl⟩
    · simp only [h1, h2, if_true, ne_eq, not_true_eq_false, if_false, not_false_eq_true]
      exact ⟨w.stdout, rfl⟩
  · simp only [h1, if_false, ne_eq, not_false_eq_true, if_true]
    exact ⟨w.stdout, rfl⟩

theorem resolvedClientSecret_stdout (clientSecret : String) (w : World) (o : List (List Nat)) :
    resolvedClientSecret clientSecret { w with stdout := o } = resolvedClientSecret clientSecret w :=
  rfl

/-- C22: with a config whose host is set, `runLogin` resolves the client
id as the `--client-id` flag when non-empty, else `POLARIS_CLIENT_ID` when
non-empty, else the trimmed line read at the prompt (`resolvedClientID`), and
the secret in the same way from `--client-secret`, `POLARIS_CLIENT_SECRET` and
the password prompt (`resolvedClientSecret`). An empty resolved id fails with
"client ID is required" and an empty resolved secret with "client secret is
required", in both cases with no request sent; otherwise the only request sent
is the login request carrying the resolved id and secret. -/
theorem C22_login_resolution (clientID clientSecret : String) (w : World) (cfg : Config)
    (hcfg : LoadConfig w = Except.ok cfg) (hhost : cfg.Host ≠ "") :
    (∀ id, resolvedClientID clientID w = Except.ok id →
      (id = "" →
        (runLogin clientID clientSecret w).1 = Except.error "client ID is required" ∧
        (runLogin clientID clientSecret w).2.sent = w.sent) ∧
      (id ≠ "" → ∀ secret, resolvedClientSecret clientSecret w = Except.ok secret →
        (secret = "" →
          (runLogin clientID clientSecret w).1 = Except.error "client secret is required" ∧
          (runLogin clientID clientSecret w).2.sent = w.sent) ∧
        (secret ≠ "" →
          (runLogin clientID clientSecret w).2.sent =
            (match w.urlError (tokenURL (NewAuthClient cfg)) with
              | none => w.sent ++ [tokenRequest (NewAuthClient cfg) (loginForm id secret)]
              | some _ => w.sent)))) := by
  intro id hid
  obtain ⟨o1, h1⟩ := runLogin_id_stage clientID w
  have hrun : runLogin clientID clientSecret w =
      (if id = "" then (Except.error "client ID is required", { w with stdout := o1 })
       else
        match
          (if (if clientSecret = "" then
              ({ w with stdout := o1 } : World).env "POLARIS_CLIENT_SECRET"
              else clientSecret) = "" then
            match (Print "Client Secret: " { w with stdout := o1 }).password with
            | Except.error err =>
              ((Except.error ("failed to read client secret: " ++ err) : Except String String),
                Print "Client Secret: " { w with stdout := o1 })
            | Except.ok secretBytes =>
              (Except.ok secretBytes, Print "\n" (Print "Client Secret: " { w with stdout := o1 }))
          else
            (Except.ok (if clientSecret = "" then
              ({ w with stdout := o1 } : World).env "POLARIS_CLIENT_SECRET"
              else clientSecret), { w with stdout := o1 })) with
        | (Except.error err, w2) => (Except.error err, w2)
        | (Except.ok secret, w2) =>
          if secret = "" then (Except.error "client secret is required", w2)
          else
            match Login (NewAuthClient cfg) id secret
              (Print ("Authenticating with " ++ cfg.Host ++ "...\n") w2) with
            | (Except.error err, w4) => (Except.error ("authentication failed: " ++ err), w4)
            | (Except.ok credentials, w4) =>
              match SaveCredentials credentials w4 with
              | (Except.error err, w5) =>
                (Except.error ("failed to save credentials: " ++ err), w5)
              | (Except.ok _, w5) =>
                let w6 := Print "✓ Successfully authenticated!\n" w5
                let w7 :=
                  if credentials.ExpiresIn > 0 then
                    Print ("  Token expires in: " ++ toString credentials.ExpiresIn
                      ++ " seconds\n") w6
                  else w6
                let w8 :=
                  if credentials.Scope ≠ "" then
                    Print ("  Scope: " ++ credentials.Scope ++ "\n") w7
                  else w7
                (Except.ok (), w8)) := by
    unfold runLogin
    rw [hcfg]
    simp only [hhost, if_false]
    rw [h1, hid]
  rw [hrun]
  constructor
  · intro hid0
    simp [hid0]
  · intro hid2 secret hsec
    obtain ⟨o2, h2⟩ := runLogin_secret_stage clientSecret { w with stdout := o1 }
    rw [resolvedClientSecret_stdout, hsec] at h2
    rw [h2]
    constructor
    · intro hs0
      simp [hid2, hs0]
    · intro hs2
      simp only [hid2, hs2, if_false]
      refine Eq.trans (runLogin_tail cfg id secret _) ?_
      rw [Login_sent]
      rfl

/-- Witness of C22: no flags, both environment variables set. -/
theorem C22_login_resolution_witness :
    (runLogin "" "" envWorld).2.sent =
      (match envWorld.urlError
          (tokenURL (NewAuthClient { Host := "http://localhost:8181", Realm := "" })) with
        | none => envWorld.sent ++
          [tokenRequest (NewAuthClient { Host := "http://localhost:8181", Realm := "" })
            (loginForm "env-id" "env-secret")]
        | some _ => envWorld.sent) :=
  (((C22_login_resolution "" "" envWorld { Host := "http://localhost:8181", Realm := "" }
    rfl (by decide) "env-id" rfl).2 (by decide) "env-secret" rfl).2 (by decide))

theorem TrimSpace_eq_empty_iff (s : String) :
    strings.TrimSpace s = "" ↔ s.toList.all unicode.IsSpace = true := by
  constructor
  · intro h
    unfold strings.TrimSpace at h
    have h1 : ((s.toList.dropWhile unicode.IsSpace).reverse.dropWhile unicode.IsSpace).reverse
        = [] := by
      have := congrArg String.toList h
      simpa using this
    rw [List.reverse_eq_nil_iff, List.dropWhile_eq_nil_iff] at h1
    have h2 : s.toList.dropWhile unicode.IsSpace = [] := by
      cases hd : s.toList.dropWhile unicode.IsSpace with
      | nil => rfl
      | cons c cs =>
        have hc : unicode.IsSpace c = true := by
          apply h1
          rw [hd]
          simp
        have hnot := List.head_dropWhile_not unicode.IsSpace s.toList
          (by rw [hd]; simp)
        simp only [hd, List.head_cons] at hnot
        rw [hc] at hnot
        cases hnot
    rw [List.dropWhile_eq_nil_iff] at h2
    exact List.all_eq_true.mpr h2
  · exact TrimSpace_of_all_space s

theorem splitNAux_one (sep : List Char) (f : Nat) (cur cs : List Char) :
    strings.splitNAux sep f 1 cur cs = [cur.reverse ++ cs] := by
  cases f with
  | zero => simp [strings.splitNAux]
  | succ f =>
    cases cs with
    | nil => simp [strings.splitNAux]
    | cons c cs => simp [strings.splitNAux]

theorem splitNAux_two (f : Nat) (cur cs : List Char) (hf : cs.length ≤ f) :
    strings.splitNAux ['='] f 2 cur cs =
      if '=' ∈ cs then
        [cur.reverse ++ cs.takeWhile (fun c => c != '='),
          (cs.dropWhile (fun c => c != '=')).drop 1]
      else [cur.reverse ++ cs] := by
  induction cs generalizing f cur with
  | nil =>
    cases f with
    | zero => simp [strings.splitNAux]
    | succ f => simp [strings.splitNAux]
  | cons c cs ih =>
    cases f with
    | zero => simp at hf
    | succ f =>
      have hf1 : cs.length ≤ f := by simpa using hf
      rw [strings.splitNAux]
      by_cases hc : c = '='
      · subst hc
        simp [splitNAux_one]
      · have hc2 : ¬ ('=' = c) := fun h => hc h.symm
        have hpre : List.isPrefixOf ['='] (c :: cs) = false := by
          simp [List.isPrefixOf, hc2]
        simp only [hpre, Nat.reduceLeDiff, if_false, Bool.false_eq_true]
        rw [ih f (c :: cur) hf1]
        by_cases hm : '=' ∈ cs
        · simp [hm, hc, hc2]
        · simp [hm, hc, hc2]

theorem SplitN_pair (pair : String) :
    strings.SplitN pair "=" 2 =
      if '=' ∈ pair.toList then [keyText pair, valueText pair] else [pair] := by
  have h : strings.SplitN pair "=" 2
      = (strings.splitNAux ['='] pair.toList.length 2 [] pair.toList).map String.mk := by
    simp [strings.SplitN]
  rw [h, splitNAux_two _ _ _ (le_refl _)]
  by_cases hm : '=' ∈ pair.toList
  · rw [if_pos hm, if_pos hm]
    simp [keyText, valueText]
  · rw [if_neg hm, if_neg hm]
    simp

theorem MapGet_append_singleton (m : Map) (k v key : String) :
    MapGet (m ++ [(k, v)]) key = if k = key then some v else MapGet m key := by
  simp [MapGet, List.foldl_append]

theorem MapGet_filter_ne (m : Map) (k key : String) (h : k ≠ key) :
    MapGet (m.filter (fun kv => kv.1 != k)) key = MapGet m key := by
  induction m using List.reverseRecOn with
  | nil => rfl
  | append_singleton m a ih =>
    obtain ⟨k1, v1⟩ := a
    rw [List.filter_append, MapGet_append_singleton]
    by_cases h1 : k1 = k
    · subst h1
      simp [h, ih]
    · have hf : List.filter (fun kv : String × String => kv.1 != k) [(k1, v1)] = [(k1, v1)] := by
        simp [h1]
      rw [hf, MapGet_append_singleton, ih]

theorem MapGet_MapSet (m : Map) (k v key : String) :
    MapGet (MapSet m k v) key = if k = key then some v else MapGet m key := by
  unfold MapSet
  rw [MapGet_append_singleton]
  by_cases h : k = key
  · simp [h]
  · simp only [h, if_false]
    exact MapGet_filter_ne m k key h

theorem MapGet_foldl_MapSet (l base : Map) (key : String) :
    MapGet (l.foldl (fun m kv => MapSet m kv.1 kv.2) base) key =
      match MapGet l key with
      | some x => some x
      | none => MapGet base key := by
  induction l using List.reverseRecOn with
  | nil => rfl
  | append_singleton l a ih =>
    obtain ⟨k1, v1⟩ := a
    rw [List.foldl_append]
    simp only [List.foldl_cons, List.foldl_nil]
    rw [MapGet_MapSet, MapGet_append_singleton, ih]
    by_cases h : k1 = key
    · simp [h]
    · simp [h]

theorem validPair_iff (pair : String) :
    validPair pair = true ↔
      ¬ ((strings.SplitN pair "=" 2).length ≠ 2 ∨
        strings.TrimSpace ((strings.SplitN pair "=" 2).getD 0 "") = "") := by
  rw [SplitN_pair]
  unfold validPair
  by_cases hm : '=' ∈ pair.toList
  · rw [if_pos hm]
    have hm2 : '=' ∈ pair.data := hm
    simp only [List.length_cons, List.length_nil, List.getD_cons_zero, TrimSpace_eq_empty_iff]
    simp [hm2]
  · rw [if_neg hm]
    have hm2 : '=' ∉ pair.data := hm
    simp [hm2]

theorem parsePropertiesLoop_valid (q : String → String) (pairs : List String) (props : Map)
    (h : pairs.all validPair = true) :
    parsePropertiesLoop q pairs props = Except.ok
      ((pairs.map (fun pair => (strings.TrimSpace (keyText pair), valueText pair))).foldl
        (fun m kv => MapSet m kv.1 kv.2) props) := by
  induction pairs generalizing props with
  | nil => rfl
  | cons pair rest ih =>
    simp only [List.all_cons, Bool.and_eq_true] at h
    have hv := (validPair_iff pair).mp h.1
    rw [parsePropertiesLoop]
    simp only [hv, if_false]
    rw [ih _ h.2]
    have hm : '=' ∈ pair.toList := by
      have := h.1
      unfold validPair at this
      simp only [Bool.and_eq_true, decide_eq_true_eq] at this
      exact this.1
    simp only [SplitN_pair, if_pos hm, List.getD_cons_zero, List.getD_cons_succ, List.map_cons,
      List.foldl_cons]

theorem parsePropertiesLoop_invalid (q : String → String) (pairs : List String) (props : Map)
    (h : pairs.all validPair = false) :
    ∃ err, parsePropertiesLoop q pairs props = Except.error err := by
  induction pairs generalizing props with
  | nil => simp at h
  | cons pair rest ih =>
    rw [parsePropertiesLoop]
    by_cases hv : validPair pair = true
    · have hv2 := (validPair_iff pair).mp hv
      simp only [hv2, if_false]
      apply ih
      simp only [List.all_cons, hv, Bool.true_and] at h
      exact h
    · have hv2 : (strings.SplitN pair "=" 2).length ≠ 2 ∨
          strings.TrimSpace ((strings.SplitN pair "=" 2).getD 0 "") = "" := by
        by_contra hc
        exact hv ((validPair_iff pair).mpr hc)
      simp only [hv2, if_true]
      exact ⟨_, rfl⟩

theorem keyText_append (k v : String) (h : '=' ∉ k.toList) :
    keyText (k ++ "=" ++ v) = k ∧ valueText (k ++ "=" ++ v) = v := by
  have hk : ∀ c ∈ k.toList, (c != '=') = true := by
    intro c hc
    have : c ≠ '=' := fun he => h (he ▸ hc)
    simpa using this
  have hl : (k ++ "=" ++ v).toList = k.toList ++ '=' :: v.toList := by
    simp [String.toList]
  constructor
  · unfold keyText
    rw [hl, List.takeWhile_append_of_pos hk]
    simp
  · unfold valueText
    rw [hl, List.dropWhile_append_of_pos hk]
    simp

/-- C29: `parseProperties` fails exactly when some pair has no `=` or has
only white space (or nothing) before its first `=`; an error comes with no
map. On success the result maps, for each pair, the trimmed text before the
first `=` to the text after it, the last pair with a key winning; the text
after the first `=` is kept as it is. The empty list gives the empty map and
no error. -/
theorem C29_parse_properties (q : String → String) (pairs : List String) :
    ((parseProperties q pairs).isOk = false ↔
      ∃ pair ∈ pairs, '=' ∉ pair.toList ∨ (keyText pair).toList.all unicode.IsSpace = true) ∧
    (∀ props : Map, parseProperties q pairs = Except.ok props →
      ∀ key : String, MapGet props key =
        MapGet (pairs.map (fun pair => (strings.TrimSpace (keyText pair), valueText pair))) key) ∧
    (∀ k v : String, '=' ∉ k.toList →
      keyText (k ++ "=" ++ v) = k ∧ valueText (k ++ "=" ++ v) = v) ∧
    parseProperties q [] = Except.ok [] := by
  have hloop : parseProperties q pairs = parsePropertiesLoop q pairs [] := by
    unfold parseProperties
    cases pairs with
    | nil => rfl
    | cons p ps => simp
  refine ⟨?_, ?_, keyText_append, rfl⟩
  · rw [hloop]
    cases hall : pairs.all validPair with
    | true =>
      rw [parsePropertiesLoop_valid q pairs [] hall]
      simp only [Except.isOk, Except.toBool, Bool.true_eq_false, false_iff, not_exists, not_and]
      intro pair hp
      have hv := List.all_eq_true.mp hall pair hp
      unfold validPair at hv
      simp only [Bool.and_eq_true, decide_eq_true_eq, Bool.not_eq_true'] at hv
      intro hc
      rcases hc with hc | hc
      · exact hc hv.1
      · rw [hv.2] at hc
        cases hc
    | false =>
      obtain ⟨err, herr⟩ := parsePropertiesLoop_invalid q pairs [] hall
      rw [herr]
      simp only [Except.isOk, Except.toBool, true_iff]
      have hex : ∃ pair ∈ pairs, validPair pair = false := by
        by_contra hn
        have : pairs.all validPair = true := by
          rw [List.all_eq_true]
          intro x hx
          cases hvx : validPair x with
          | true => rfl
          | false => exact absurd ⟨x, hx, hvx⟩ hn
        rw [this] at hall
        cases hall
      obtain ⟨pair, hp, hv⟩ := hex
      refine ⟨pair, hp, ?_⟩
      unfold validPair at hv
      by_cases hm : '=' ∈ pair.toList
      · right
        have hm2 : '=' ∈ pair.data := hm
        simpa [hm2] using hv
      · left
        exact hm
  · intro props hprops key
    rw [hloop] at hprops
    cases hall : pairs.all validPair with
    | true =>
      rw [parsePropertiesLoop_valid q pairs [] hall] at hprops
      simp only [Except.ok.injEq] at hprops
      rw [← hprops, MapGet_foldl_MapSet]
      cases MapGet (pairs.map
        (fun pair => (strings.TrimSpace (keyText pair), valueText pair))) key with
      | none => rfl
      | some x => rfl
    | false =>
      obtain ⟨err, herr⟩ := parsePropertiesLoop_invalid q pairs [] hall
      rw [herr] at hprops
      cases hprops

/-- Witness of C29: two pairs with the key "a"; the second one wins and
its value keeps the second `=` and the white space. -/
theorem C29_parse_properties_witness :
    MapGet [("a", " 2=3 ")] "a" =
      MapGet (["a=1", " a = 2=3 "].map
        (fun pair => (strings.TrimSpace (keyText pair), valueText pair))) "a" :=
  (C29_parse_properties quote ["a=1", " a = 2=3 "]).2.1 [("a", " 2=3 ")] rfl "a"

/-- C26: when the name is given, the properties parse to `props`, the
client is built and the fetch answers with a principal, `runPrincipalsUpdate`
fails with "principal has no entity version" in the world left by the fetch,
without calling the update, if the principal has no entity version; otherwise
it calls the update once with a request whose current entity version is the
fetched one and whose property map has, for every key, the value of `props`
if `props` has the key and the value of the fetched properties otherwise, so
its keys are those of the two maps together. -/
theorem C26_principal_update_merge (q : String → String) (gen : ClientSetup → ManagementClient)
    (principalName : String) (principalProperties : List String) (w w1 : World)
    (props : Map) (setup : ClientSetup) (cfg : Config) (getResp : PrincipalResponse)
    (current : Principal)
    (hname : principalName ≠ "")
    (hprops : parseProperties q principalProperties = Except.ok props)
    (hclient : newManagementClient w = Except.ok (setup, cfg))
    (hget : (gen setup).GetPrincipalWithResponse principalName w = (Except.ok getResp, w1))
    (hcur : getResp.JSON200 = some current) :
    (current.EntityVersion = none →
      runPrincipalsUpdate q gen principalName principalProperties w
        = (Except.error "principal has no entity version", w1)) ∧
    (∀ version : Int, current.EntityVersion = some version →
      ∃ req : UpdatePrincipalRequest,
        req.CurrentEntityVersion = version ∧
        (∀ key : String, MapGet req.Properties key =
          match MapGet props key with
          | some x => some x
          | none => MapGet (current.Properties.getD []) key) ∧
        (∀ key : String, (MapGet req.Properties key).isSome =
          ((MapGet (current.Properties.getD []) key).isSome || (MapGet props key).isSome)) ∧
        runPrincipalsUpdate q gen principalName principalProperties w =
          match (gen setup).UpdatePrincipalWithResponse principalName req w1 with
          | (Except.error err, w2) => (Except.error err, w2)
          | (Except.ok resp, w2) =>
            match resp.JSON200 with
            | none => (Except.error ("request failed: " ++ resp.Status), w2)
            | some _ =>
              (Except.ok (), Print ("Updated principal " ++ principalName ++ "\n") w2)) := by
  constructor
  · intro hv
    unfold runPrincipalsUpdate
    simp only [hname, if_false, hprops, hclient, hget, hcur, hv]
  · intro version hv
    have hmerge : ∀ key : String,
        MapGet (props.foldl (fun m kv => MapSet m kv.1 kv.2)
          (match current.Properties with
            | some properties => properties.foldl (fun m kv => MapSet m kv.1 kv.2) ([] : Map)
            | none => ([] : Map))) key =
          match MapGet props key with
          | some x => some x
          | none => MapGet (current.Properties.getD []) key := by
      intro key
      rw [MapGet_foldl_MapSet]
      cases hp : current.Properties with
      | none => rfl
      | some properties =>
        simp only [Option.getD_some]
        rw [MapGet_foldl_MapSet]
        cases MapGet props key with
        | some x => rfl
        | none =>
          simp only
          cases MapGet properties key with
          | some y => rfl
          | none => rfl
    refine ⟨{ CurrentEntityVersion := version,
              Properties := props.foldl (fun m kv => MapSet m kv.1 kv.2)
                (match current.Properties with
                  | some properties =>
                    properties.foldl (fun m kv => MapSet m kv.1 kv.2) ([] : Map)
                  | none => ([] : Map)) }, rfl, hmerge, ?_, ?_⟩
    · intro key
      simp only
      rw [hmerge key]
      cases MapGet props key with
      | some x => simp
      | none => simp
    · unfold runPrincipalsUpdate
      simp only [hname, if_false, hprops, hclient, hget, hcur, hv]

/-- Witness of C26: the fetched principal has version 3 and the properties
a=1, b=2; the flags give b=9 and c=4. -/
theorem C26_principal_update_merge_witness :
    ∃ req : UpdatePrincipalRequest,
      req.CurrentEntityVersion = 3 ∧
      (∀ key : String, MapGet req.Properties key =
        match MapGet [("b", "9"), ("c", "4")] key with
        | some x => some x
        | none => MapGet (samplePrincipal.Properties.getD []) key) ∧
      (∀ key : String, (MapGet req.Properties key).isSome =
        ((MapGet (samplePrincipal.Properties.getD []) key).isSome ||
          (MapGet [("b", "9"), ("c", "4")] key).isSome)) ∧
      runPrincipalsUpdate quote sampleManagement "p" ["b=9", "c=4"]
          (storedWorld (Exchange.failed "offline")) =
        match (sampleManagement
            { baseURL := "http://localhost:8181/api/management/v1",
              editor := managementRequestEditor
                { Host := "http://localhost:8181", Realm := "" } "old" }).UpdatePrincipalWithResponse
            "p" req (storedWorld (Exchange.failed "offline")) with
        | (Except.error err, w2) => (Except.error err, w2)
        | (Except.ok resp, w2) =>
          match resp.JSON200 with
          | none => (Except.error ("request failed: " ++ resp.Status), w2)
          | some _ => (Except.ok (), Print ("Updated principal " ++ "p" ++ "\n") w2) :=
  (C26_principal_update_merge quote sampleManagement "p" ["b=9", "c=4"]
    (storedWorld (Exchange.failed "offline")) (storedWorld (Exchange.failed "offline"))
    [("b", "9"), ("c", "4")]
    { baseURL := "http://localhost:8181/api/management/v1",
      editor := managementRequestEditor { Host := "http://localhost:8181", Realm := "" } "old" }
    { Host := "http://localhost:8181", Realm := "" }
    { JSON200 := some samplePrincipal, Status := "200 OK" } samplePrincipal
    (by decide) rfl rfl rfl rfl).2 3 rfl

theorem splitAux_single_length (a : Char) (n : Nat) (cur cs : List Char) (hn : cs.length ≤ n) :
    (strings.splitAux [a] n cur cs).length = cs.count a + 1 := by
  induction n generalizing cur cs with
  | zero =>
    have : cs = [] := List.length_eq_zero.mp (Nat.le_zero.mp hn)
    subst this
    simp [strings.splitAux]
  | succ n ih =>
    cases cs with
    | nil => simp [strings.splitAux]
    | cons c cs =>
      have hn1 : cs.length ≤ n := by simpa using hn
      rw [splitAux_single_step]
      by_cases h : a = c
      · subst h
        rw [if_pos rfl, List.length_cons, ih [] cs hn1]
        simp
      · rw [if_neg h, ih (c :: cur) cs hn1, List.count_cons_of_ne h]

theorem countAux_single (a : Char) (n : Nat) (cs : List Char) (hn : cs.length ≤ n) :
    strings.countAux [a] n cs = cs.count a := by
  induction n generalizing cs with
  | zero =>
    have : cs = [] := List.length_eq_zero.mp (Nat.le_zero.mp hn)
    subst this
    simp [strings.countAux]
  | succ n ih =>
    cases cs with
    | nil => simp [strings.countAux]
    | cons c cs =>
      have hn1 : cs.length ≤ n := by simpa using hn
      rw [strings.countAux]
      by_cases h : a = c
      · subst h
        simp [ih cs hn1]
        omega
      · have hpre : List.isPrefixOf [a] (c :: cs) = false := by
          simp [List.isPrefixOf, h]
        simp only [hpre, Bool.false_eq_true, if_false]
        rw [ih cs hn1, List.count_cons_of_ne h]

theorem count_replaceAux (old : List Char) (a : Char) (hold : old ≠ []) (n : Nat)
    (cs : List Char) (hn : cs.length ≤ n) (ha : a ∉ cs) :
    (strings.replaceAux old [a] n cs).count a = strings.countAux old n cs := by
  induction n generalizing cs with
  | zero =>
    have : cs = [] := List.length_eq_zero.mp (Nat.le_zero.mp hn)
    subst this
    simp [strings.replaceAux, strings.countAux]
  | succ n ih =>
    cases cs with
    | nil => simp [strings.replaceAux, strings.countAux]
    | cons c cs =>
      have hn1 : cs.length ≤ n := by simpa using hn
      have hac : a ≠ c := fun h => ha (by simp [h])
      have hacs : a ∉ cs := fun h => ha (List.mem_cons_of_mem _ h)
      rw [strings.replaceAux, strings.countAux]
      by_cases hp : old.isPrefixOf (c :: cs) = true
      · simp only [hp, if_true]
        have hlen : 1 ≤ old.length := by
          cases old with
          | nil => exact absurd rfl hold
          | cons x xs => simp
        have hd : ((c :: cs).drop old.length).length ≤ n := by
          rw [List.length_drop, List.length_cons]
          omega
        have had : a ∉ (c :: cs).drop old.length := fun h => ha (List.mem_of_mem_drop h)
        rw [List.count_append, ih _ hd had]
        simp
      · simp only [hp, if_false, Bool.false_eq_true]
        rw [List.count_cons_of_ne hac, ih cs hn1 hacs]

theorem Split_single_length (t : String) (a : Char) :
    (strings.Split t (String.mk [a])).length = t.toList.count a + 1 := by
  have hsplit : strings.Split t (String.mk [a])
      = (strings.splitAux [a] t.toList.length [] t.toList).map String.mk := by
    simp [strings.Split]
  rw [hsplit, List.length_map, splitAux_single_length a _ _ _ (le_refl _)]

theorem Count_single (t : String) (a : Char) :
    strings.Count t (String.mk [a]) = t.toList.count a := by
  have h : strings.Count t (String.mk [a]) = strings.countAux [a] t.toList.length t.toList := by
    simp [strings.Count]
  rw [h, countAux_single a _ _ (le_refl _)]

theorem Split_ReplaceAll_length (t : String) (hunit : ¬ Contains t "\x1f") :
    (strings.Split (strings.ReplaceAll t "%1F" "\x1f") "\x1f").length
      = strings.Count t "%1F" + 1 := by
  have hmem : Char.ofNat 0x1f ∉ t.toList := by
    intro hm
    exact hunit ((infix_singleton_iff _ _).mpr hm)
  have hr : strings.ReplaceAll t "%1F" "\x1f"
      = String.mk (strings.replaceAux ['%', '1', 'F'] [Char.ofNat 0x1f] t.toList.length
          t.toList) := by
    unfold strings.ReplaceAll
    rfl
  have hc : strings.Count t "%1F" = strings.countAux ['%', '1', 'F'] t.toList.length t.toList := by
    unfold strings.Count
    rfl
  rw [hr, hc]
  have hs := Split_single_length
    (String.mk (strings.replaceAux ['%', '1', 'F'] [Char.ofNat 0x1f] t.toList.length t.toList))
    (Char.ofNat 0x1f)
  rw [show ("\x1f" : String) = String.mk [Char.ofNat 0x1f] from rfl, hs]
  have hcount := count_replaceAux ['%', '1', 'F'] (Char.ofNat 0x1f) (by simp) t.toList.length
    t.toList (le_refl _) hmem
  simp only [String.toList] at hcount ⊢
  rw [hcount]

/-- C27: `parseNamespaceArg` fails exactly when its input is empty or all
white space. For any other input it returns a list of at least one part, and
the number of parts is one more than the number of occurrences, in the trimmed
input, of the separator chosen: the unit separator, else "%1F", else '/', else
'.'. Empty parts are returned as they are: "a..b" gives "a", "", "b". -/
theorem C27_namespace_parts (input : String) :
    ((parseNamespaceArg input).isOk = false ↔ input.toList.all unicode.IsSpace = true) ∧
    (input.toList.all unicode.IsSpace = false →
      ∃ parts : List String, parseNamespaceArg input = Except.ok parts ∧
        1 ≤ parts.length ∧
        parts.length = strings.Count (strings.TrimSpace input)
          (chosenSeparator (strings.TrimSpace input)) + 1) ∧
    parseNamespaceArg "a..b" = Except.ok ["a", "", "b"] := by
  refine ⟨?_, ?_, rfl⟩
  · constructor
    · intro h
      by_contra hn
      have ht : strings.TrimSpace input ≠ "" := fun hb => hn ((TrimSpace_eq_empty_iff input).mp hb)
      obtain ⟨parts, hp, _⟩ := parseNamespaceArg_nonblank input ht
      rw [hp] at h
      cases h
    · intro h
      rw [parseNamespaceArg_blank input ((TrimSpace_eq_empty_iff input).mpr h)]
      rfl
  · intro h
    have ht : strings.TrimSpace input ≠ "" := by
      intro hb
      rw [(TrimSpace_eq_empty_iff input).mp hb] at h
      cases h
    have hlen : ∀ parts : List String,
        parts.length = strings.Count (strings.TrimSpace input)
          (chosenSeparator (strings.TrimSpace input)) + 1 → 1 ≤ parts.length := by
      intro parts hp
      omega
    unfold parseNamespaceArg chosenSeparator
    simp only [ht, if_false]
    by_cases h1 : strings.Contains (strings.TrimSpace input) "\x1f" = true
    · simp only [h1, if_true]
      have hl : (strings.Split (strings.TrimSpace input) "\x1f").length
          = strings.Count (strings.TrimSpace input) "\x1f" + 1 := by
        rw [show ("\x1f" : String) = String.mk [Char.ofNat 0x1f] from rfl,
          Split_single_length, Count_single]
      exact ⟨_, rfl, by omega, hl⟩
    · have h1c : ¬ Contains (strings.TrimSpace input) "\x1f" :=
        fun hc => h1 ((strings_Contains_iff _ _).mpr hc)
      simp only [h1, if_false, Bool.false_eq_true]
      by_cases h2 : strings.Contains (strings.TrimSpace input) "%1F" = true
      · simp only [h2, if_true]
        have hl := Split_ReplaceAll_length (strings.TrimSpace input) h1c
        exact ⟨_, rfl, by omega, hl⟩
      · simp only [h2, if_false, Bool.false_eq_true]
        by_cases h3 : strings.Contains (strings.TrimSpace input) "/" = true
        · simp only [h3, if_true]
          have hl : (strings.Split (strings.TrimSpace input) "/").length
              = strings.Count (strings.TrimSpace input) "/" + 1 := by
            rw [show ("/" : String) = String.mk ['/'] from rfl,
              Split_single_length, Count_single]
          exact ⟨_, rfl, by omega, hl⟩
        · simp only [h3, if_false, Bool.false_eq_true]
          have hl : (strings.Split (strings.TrimSpace input) ".").length
              = strings.Count (strings.TrimSpace input) "." + 1 := by
            rw [show ("." : String) = String.mk ['.'] from rfl,
              Split_single_length, Count_single]
          exact ⟨_, rfl, by omega, hl⟩

/-- Witness of C27: the input " a/b.c " is trimmed and split on '/', which
occurs once. -/
theorem C27_namespace_parts_witness :
    ∃ parts : List String, parseNamespaceArg " a/b.c " = Except.ok parts ∧
      1 ≤ parts.length ∧
      parts.length = strings.Count (strings.TrimSpace " a/b.c ")
        (chosenSeparator (strings.TrimSpace " a/b.c ")) + 1 :=
  (C27_namespace_parts " a/b.c ").2.1 (by decide)

theorem splitAux_single_none (a : Char) (n : Nat) (cur cs : List Char) (h : a ∉ cs) :
    strings.splitAux [a] n cur cs = [cur.reverse ++ cs] := by
  induction n generalizing cur cs with
  | zero => simp [strings.splitAux]
  | succ n ih =>
    cases cs with
    | nil => simp [strings.splitAux]
    | cons c cs =>
      have hac : ¬ a = c := fun he => h (by simp [he])
      have hacs : a ∉ cs := fun hm => h (List.mem_cons_of_mem _ hm)
      rw [splitAux_single_step, if_neg hac, ih (c :: cur) cs hacs]
      simp

theorem splitAux_single_through (a : Char) (p : List Char) (hp : a ∉ p) (n : Nat)
    (cur tl : List Char) (hn : p.length + 1 ≤ n) :
    strings.splitAux [a] n cur (p ++ a :: tl) =
      (cur.reverse ++ p) :: strings.splitAux [a] (n - p.length - 1) [] tl := by
  induction p generalizing n cur with
  | nil =>
    cases n with
    | zero => simp at hn
    | succ n =>
      simp only [List.nil_append, List.length_nil, List.append_nil]
      rw [splitAux_single_step, if_pos rfl]
      simp
  | cons c p ih =>
    cases n with
    | zero => simp at hn
    | succ n =>
      have hac : ¬ a = c := fun he => hp (by simp [he])
      have hap : a ∉ p := fun hm => hp (List.mem_cons_of_mem _ hm)
      have hn1 : p.length + 1 ≤ n := by simpa using hn
      rw [List.cons_append, splitAux_single_step, if_neg hac, ih hap n (c :: cur) hn1]
      simp only [List.reverse_cons, List.append_assoc, List.singleton_append, List.length_cons]
      congr 2
      omega

theorem splitAux_intercalate (a : Char) (rest : List (List Char)) :
    ∀ (p : List Char), a ∉ p → (∀ x ∈ rest, a ∉ x) → ∀ (n : Nat) (cur : List Char),
      ([a].intercalate (p :: rest)).length ≤ n →
      strings.splitAux [a] n cur ([a].intercalate (p :: rest)) = (cur.reverse ++ p) :: rest := by
  induction rest with
  | nil =>
    intro p hp _ n cur _
    have : [a].intercalate [p] = p := by simp [List.intercalate]
    rw [this, splitAux_single_none a n cur p hp]
  | cons q rest ih =>
    intro p hp hrest n cur hn
    have hj : [a].intercalate (p :: q :: rest) = p ++ a :: [a].intercalate (q :: rest) := by
      rw [intercalate_cons_ne_nil _ _ _ (List.cons_ne_nil _ _)]
      simp
    rw [hj] at hn ⊢
    have hlen : p.length + 1 + ([a].intercalate (q :: rest)).length ≤ n := by
      simp only [List.length_append, List.length_cons] at hn
      omega
    rw [splitAux_single_through a p hp n cur _ (by omega)]
    rw [ih q (hrest q (by simp)) (fun x hx => hrest x (List.mem_cons_of_mem _ hx))
      (n - p.length - 1) [] (by omega)]
    simp

theorem Split_Join_single (a : Char) (parts : List String) (hne : parts ≠ [])
    (hparts : ∀ p ∈ parts, a ∉ p.toList) :
    strings.Split (strings.Join parts (String.mk [a])) (String.mk [a]) = parts := by
  cases parts with
  | nil => exact absurd rfl hne
  | cons p rest =>
    have hsplit : strings.Split (strings.Join (p :: rest) (String.mk [a])) (String.mk [a])
        = (strings.splitAux [a] ([a].intercalate (p.toList :: rest.map String.toList)).length []
            ([a].intercalate (p.toList :: rest.map String.toList))).map String.mk := by
      simp [strings.Split, strings.Join]
    rw [hsplit, splitAux_intercalate a (rest.map String.toList) p.toList
      (hparts p (by simp))
      (by
        intro x hx
        obtain ⟨y, hy, rfl⟩ := List.mem_map.mp hx
        exact hparts y (List.mem_cons_of_mem _ hy)) _ [] (le_refl _)]
    simp only [List.reverse_nil, List.nil_append, List.map_cons, List.map_map]
    have hid : (String.mk ∘ String.toList) = (id : String → String) := rfl
    rw [hid, List.map_id]
    rfl

theorem dropWhile_of_head (p : Char → Bool) (l : List Char)
    (h : ∀ c, l.head? = some c → p c = false) : l.dropWhile p = l := by
  cases l with
  | nil => rfl
  | cons x xs =>
    have hx : p x = false := h x rfl
    simp [List.dropWhile, hx]

theorem TrimSpace_of_ends (s : String)
    (hh : ∀ c, s.toList.head? = some c → unicode.IsSpace c = false)
    (hl : ∀ c, s.toList.getLast? = some c → unicode.IsSpace c = false) :
    strings.TrimSpace s = s := by
  unfold strings.TrimSpace
  rw [dropWhile_of_head _ _ hh, dropWhile_of_head _ s.toList.reverse
    (by
      intro c hc
      rw [List.head?_reverse] at hc
      exact hl c hc), List.reverse_reverse]
  rfl

theorem intercalate_concat (sep l : List Char) (init : List (List Char)) (h : init ≠ []) :
    sep.intercalate (init ++ [l]) = sep.intercalate init ++ sep ++ l := by
  induction init with
  | nil => exact absurd rfl h
  | cons x r ih =>
    cases r with
    | nil => simp [List.intercalate, List.intersperse]
    | cons y r =>
      rw [List.cons_append, intercalate_cons_ne_nil _ _ _ (by simp),
        ih (List.cons_ne_nil _ _), intercalate_cons_ne_nil _ _ _ (List.cons_ne_nil _ _)]
      simp

/-- C28: for a list of at least two parts, none containing the unit
separator, whose first part does not begin with white space and whose last
part does not end with white space, `parseNamespaceArg` applied to
`namespacePath parts` succeeds and returns `parts`; the parts may contain '.',
'/' and "%1F". -/
theorem C28_parse_undoes_path (parts : List String) (hlen : 2 ≤ parts.length)
    (hunit : ∀ p ∈ parts, strings.Contains p "\x1f" = false)
    (hfirst : ∀ p c, parts.head? = some p → p.toList.head? = some c →
      unicode.IsSpace c = false)
    (hlast : ∀ p c, parts.getLast? = some p → p.toList.getLast? = some c →
      unicode.IsSpace c = false) :
    parseNamespaceArg (namespacePath parts) = Except.ok parts := by
  have hus : unicode.IsSpace (Char.ofNat 0x1f) = false := by decide
  have hmem : ∀ p ∈ parts, Char.ofNat 0x1f ∉ p.toList := by
    intro p hp hm
    have hc : strings.Contains p "\x1f" = true :=
      (strings_Contains_iff p "\x1f").mpr ((infix_singleton_iff _ _).mpr hm)
    rw [hunit p hp] at hc
    cases hc
  have hJ : (namespacePath parts).toList
      = [Char.ofNat 0x1f].intercalate (parts.map String.toList) := rfl
  -- the first character
  have hh : ∀ c, (namespacePath parts).toList.head? = some c → unicode.IsSpace c = false := by
    intro c hc
    rw [hJ] at hc
    match parts, hlen, hfirst with
    | p :: q :: rest, _, hfirst =>
      rw [List.map_cons, intercalate_cons_ne_nil _ _ _ (by simp)] at hc
      cases hp : p.toList with
      | nil =>
        rw [hp] at hc
        simp at hc
        rw [← hc]
        exact hus
      | cons x xs =>
        rw [hp] at hc
        simp at hc
        exact hfirst p c rfl (by rw [hp, ← hc]; rfl)
  -- the last character
  have hl : ∀ c, (namespacePath parts).toList.getLast? = some c →
      unicode.IsSpace c = false := by
    intro c hc
    rw [hJ] at hc
    have hne : parts ≠ [] := by
      intro h
      rw [h] at hlen
      simp at hlen
    obtain ⟨init, last, hparts⟩ : ∃ init last, parts = init ++ [last] :=
      ⟨parts.dropLast, parts.getLast hne, (List.dropLast_append_getLast hne).symm⟩
    have hinit : init ≠ [] := by
      intro h
      rw [hparts, h] at hlen
      simp at hlen
    have hlastp : parts.getLast? = some last := by
      rw [hparts]
      simp
    rw [hparts, List.map_append, List.map_cons, List.map_nil,
      intercalate_concat _ _ _ (by simpa using hinit)] at hc
    cases hp : last.toList with
    | nil =>
      rw [hp] at hc
      simp at hc
      rw [← hc]
      exact hus
    | cons x xs =>
      rw [hp] at hc
      rw [List.getLast?_append_of_ne_nil _ (List.cons_ne_nil _ _)] at hc
      exact hlast last c hlastp (by rw [hp]; exact hc)
  have hne : parts ≠ [] := by
    intro h
    rw [h] at hlen
    simp at hlen
  have hin : Char.ofNat 0x1f ∈ (namespacePath parts).toList := by
    rw [hJ]
    match parts, hlen with
    | p :: q :: rest, _ =>
      rw [List.map_cons, intercalate_cons_ne_nil _ _ _ (by simp)]
      simp
  have hcont : strings.Contains (namespacePath parts) "\x1f" = true :=
    (strings_Contains_iff _ _).mpr ((infix_singleton_iff _ _).mpr hin)
  have hne2 : namespacePath parts ≠ "" := by
    intro h
    rw [h] at hin
    simp at hin
  have hsplit : strings.Split (namespacePath parts) "\x1f" = parts :=
    Split_Join_single (Char.ofNat 0x1f) parts hne hmem
  unfold parseNamespaceArg
  simp only [TrimSpace_of_ends _ hh hl, hne2, if_false, hcont, if_true, hsplit]

/-- Witness of C28: two parts that contain '.', '/' and "%1F". -/
theorem C28_parse_undoes_path_witness :
    parseNamespaceArg (namespacePath ["a.b", "c/d%1F"]) = Except.ok ["a.b", "c/d%1F"] :=
  C28_parse_undoes_path ["a.b", "c/d%1F"] (by decide) (by decide)
    (by
      intro p c hp hc
      simp only [List.head?_cons, Option.some.injEq] at hp
      subst hp
      have : c = 'a' := by
        have h2 : ("a.b" : String).toList.head? = some 'a' := rfl
        rw [h2] at hc
        exact (Option.some.inj hc).symm
      subst this
      decide)
    (by
      intro p c hp hc
      have h1 : (["a.b", "c/d%1F"] : List String).getLast? = some "c/d%1F" := rfl
      rw [h1] at hp
      have hp2 := Option.some.inj hp
      subst hp2
      have h2 : ("c/d%1F" : String).toList.getLast? = some 'F' := rfl
      rw [h2] at hc
      have := Option.some.inj hc
      subst this
      decide)

theorem Config_slot_string (key : String) (slot : Slot Config)
    (h : findField Config.fields key = some slot) :
    ∃ set : String → Config → Config, slot = Slot.string set := by
  obtain ⟨f, hmem, hslot, _⟩ := findField_some _ _ _ h
  simp only [Config.fields, List.mem_cons, List.mem_singleton, List.not_mem_nil,
    or_false] at hmem
  rcases hmem with hf | hf <;> subst hf <;> exact ⟨_, hslot.symm⟩

theorem storeMember_error_keeps {σ : Type} (fields : List (String × Slot σ))
    (acc : σ × Option UnmarshalError) (m : String × JValue) (h : acc.2.isSome = true) :
    (storeMember fields acc m).2.isSome = true := by
  unfold storeMember
  cases findField fields m.1 with
  | none => exact h
  | some slot => simp [h]

theorem foldl_error_keeps {σ : Type} (fields : List (String × Slot σ))
    (ms : List (String × JValue)) (acc : σ × Option UnmarshalError)
    (h : acc.2.isSome = true) :
    (ms.foldl (storeMember fields) acc).2.isSome = true := by
  induction ms generalizing acc with
  | nil => exact h
  | cons m ms ih => exact ih _ (storeMember_error_keeps fields acc m h)

theorem storeMember_Config_ill (acc : Config × Option UnmarshalError) (m : String × JValue)
    (hfind : (findField Config.fields m.1).isSome = true) (hnull : m.2 ≠ JValue.null)
    (hstr : ∀ s, m.2 ≠ JValue.str s) :
    (storeMember Config.fields acc m).2.isSome = true := by
  unfold storeMember
  cases hf : findField Config.fields m.1 with
  | none => rw [hf] at hfind; cases hfind
  | some slot =>
    obtain ⟨set, rfl⟩ := Config_slot_string _ _ hf
    simp only
    cases hacc : acc.2.isSome with
    | true => simpa using hacc
    | false =>
      simp only [Bool.false_eq_true, if_false]
      cases hv : m.2 with
      | null => exact absurd hv hnull
      | str s => exact absurd hv (hstr s)
      | bool b => rfl
      | num lit => rfl
      | arr items => rfl
      | obj ms => rfl

theorem storeMember_Config_well (acc : Config × Option UnmarshalError) (m : String × JValue)
    (hacc : acc.2 = none)
    (hwell : (findField Config.fields m.1).isSome = true →
      m.2 = JValue.null ∨ ∃ s, m.2 = JValue.str s) :
    (storeMember Config.fields acc m).2 = none := by
  unfold storeMember
  cases hf : findField Config.fields m.1 with
  | none => exact hacc
  | some slot =>
    obtain ⟨set, rfl⟩ := Config_slot_string _ _ hf
    simp only [hacc, Option.isSome_none, Bool.false_eq_true, if_false]
    rcases hwell (by rw [hf]; rfl) with hv | ⟨s, hv⟩
    · rw [hv]; rfl
    · rw [hv]; rfl

theorem foldl_Config_ill (ms : List (String × JValue)) (acc : Config × Option UnmarshalError)
    (h : ∃ m ∈ ms, (findField Config.fields m.1).isSome = true ∧ m.2 ≠ JValue.null ∧
      ∀ s, m.2 ≠ JValue.str s) :
    (ms.foldl (storeMember Config.fields) acc).2.isSome = true := by
  induction ms generalizing acc with
  | nil =>
    obtain ⟨m, hm, _⟩ := h
    cases hm
  | cons x ms ih =>
    obtain ⟨m, hm, hfind, hnull, hstr⟩ := h
    simp only [List.foldl_cons]
    rcases List.mem_cons.mp hm with hx | hx
    · subst hx
      exact foldl_error_keeps _ _ _ (storeMember_Config_ill acc m hfind hnull hstr)
    · exact ih _ ⟨m, hx, hfind, hnull, hstr⟩

theorem foldl_Config_well (ms : List (String × JValue)) (acc : Config × Option UnmarshalError)
    (hacc : acc.2 = none)
    (h : ∀ m ∈ ms, (findField Config.fields m.1).isSome = true →
      m.2 = JValue.null ∨ ∃ s, m.2 = JValue.str s) :
    (ms.foldl (storeMember Config.fields) acc).2 = none := by
  induction ms generalizing acc with
  | nil => exact hacc
  | cons x ms ih =>
    simp only [List.foldl_cons]
    exact ih _ (storeMember_Config_well acc x hacc (h x (List.mem_cons_self _ _)))
      (fun m hm => h m (List.mem_cons_of_mem _ hm))

theorem LoadConfig_of_unmarshal_ok (w : World) (h data : String) (hh : w.home = Except.ok h)
    (hf : w.fs (configPath h) = Node.file data)
    (hu : (Unmarshal "config.Config" Config.fields Config.zero data).2 = none) :
    LoadConfig w = Except.ok (Unmarshal "config.Config" Config.fields Config.zero data).1 := by
  rw [LoadConfig_file w h data hh hf]
  rcases hx : Unmarshal "config.Config" Config.fields Config.zero data with ⟨c, _ | e⟩
  · rfl
  · rw [hx] at hu
    cases hu

theorem LoadConfig_of_unmarshal_error (w : World) (h data : String)
    (hh : w.home = Except.ok h) (hf : w.fs (configPath h) = Node.file data)
    (hu : (Unmarshal "config.Config" Config.fields Config.zero data).2.isSome = true) :
    ∃ msg, LoadConfig w = Except.error msg := by
  rw [LoadConfig_file w h data hh hf]
  rcases hx : Unmarshal "config.Config" Config.fields Config.zero data with ⟨c, _ | e⟩
  · rw [hx] at hu
    cases hu
  · exact ⟨_, rfl⟩

/-- C11, as stated, fails: the content `null` is valid JSON and not a
config object, and `LoadConfig` returns the config with empty host and realm
and no error. -/
theorem C11_null_config_accepted :
    JSON.parse "null" = some JValue.null ∧
      LoadConfig (configFileWorld "null") = Except.ok { Host := "", Realm := "" } :=
  ⟨rfl, rfl⟩

/-- C11 (amended): `LoadConfig` returns an error and no config when the
config file holds a text for which `json.Unmarshal` into `Config` reports an
error, even where `Unmarshal` has filled the record in part; that is the case
for every text that is not JSON, for every JSON value other than an object and
`null`, and for every object with a member addressing `host` or `realm` whose
value is neither a string nor `null`. The content `null` loads as the zero
config, and an object whose members for `host` and `realm` are strings or
`null` loads; `LoadConfig` succeeds on a file only when `Unmarshal` reports no
error. -/
theorem C11_malformed_config_rejected (w : World) (h data : String)
    (hh : w.home = Except.ok h) (hf : w.fs (configPath h) = Node.file data) :
    ((Unmarshal "config.Config" Config.fields Config.zero data).2 ≠ none →
      ∃ msg, LoadConfig w = Except.error msg) ∧
    (JSON.parse data = none → ∃ msg, LoadConfig w = Except.error msg) ∧
    (∀ v, JSON.parse data = some v → v ≠ JValue.null → (∀ ms, v ≠ JValue.obj ms) →
      ∃ msg, LoadConfig w = Except.error msg) ∧
    (∀ c, LoadConfig w = Except.ok c →
      Unmarshal "config.Config" Config.fields Config.zero data = (c, none)) ∧
    (∀ ms, JSON.parse data = some (JValue.obj ms) →
      (∃ m ∈ ms, (findField Config.fields m.1).isSome = true ∧ m.2 ≠ JValue.null ∧
        ∀ s, m.2 ≠ JValue.str s) →
      ∃ msg, LoadConfig w = Except.error msg) ∧
    (JSON.parse data = some JValue.null → LoadConfig w = Except.ok Config.zero) ∧
    (∀ ms, JSON.parse data = some (JValue.obj ms) →
      (∀ m ∈ ms, (findField Config.fields m.1).isSome = true →
        m.2 = JValue.null ∨ ∃ s, m.2 = JValue.str s) →
      ∃ c, LoadConfig w = Except.ok c) := by
  have key : (Unmarshal "config.Config" Config.fields Config.zero data).2 ≠ none →
      ∃ msg, LoadConfig w = Except.error msg := by
    intro hne
    apply LoadConfig_of_unmarshal_error w h data hh hf
    cases hx : (Unmarshal "config.Config" Config.fields Config.zero data).2 with
    | none => exact absurd hx hne
    | some e => rfl
  refine ⟨key, ?_, ?_, ?_, ?_, ?_, ?_⟩
  · intro hp
    apply key
    simp [Unmarshal, hp]
  · intro v hp hnull hobj
    apply key
    cases v with
    | null => exact absurd rfl hnull
    | obj ms => exact absurd rfl (hobj ms)
    | bool b => simp [Unmarshal, hp, decodeValue]
    | num lit => simp [Unmarshal, hp, decodeValue]
    | str s => simp [Unmarshal, hp, decodeValue]
    | arr items => simp [Unmarshal, hp, decodeValue]
  · intro c hc
    exact LoadConfig_ok_unmarshal w h data hh hf c hc
  · intro ms hp hill
    apply LoadConfig_of_unmarshal_error w h data hh hf
    unfold Unmarshal
    rw [hp]
    exact foldl_Config_ill ms _ hill
  · intro hp
    have hu : Unmarshal "config.Config" Config.fields Config.zero data = (Config.zero, none) := by
      unfold Unmarshal
      rw [hp]
      rfl
    rw [LoadConfig_of_unmarshal_ok w h data hh hf (by rw [hu]), hu]
  · intro ms hp hwell
    refine ⟨_, LoadConfig_of_unmarshal_ok w h data hh hf ?_⟩
    unfold Unmarshal
    rw [hp]
    exact foldl_Config_well ms _ rfl hwell

/-- Witness of C11: a config file whose realm is a number; `Unmarshal` fills
the host and reports the mismatch, `LoadConfig` returns only an error. -/
theorem C11_malformed_config_rejected_witness :
    (Unmarshal "config.Config" Config.fields Config.zero numericRealmText).1.Host = "http://h" ∧
      ∃ msg, LoadConfig (configFileWorld numericRealmText) = Except.error msg :=
  ⟨rfl, (C11_malformed_config_rejected (configFileWorld numericRealmText) "/home/u"
    numericRealmText rfl rfl).2.2.2.2.1
      [("host", JValue.str "http://h"), ("realm", JValue.num "5")] rfl
      ⟨("realm", JValue.num "5"), by simp, rfl, by simp, by simp⟩⟩

/-- C12, as stated, fails: a config file that is valid JSON without a host
field loads as a config whose host is empty, not "http://localhost:8181". -/
theorem C12_no_default_for_missing_field :
    JSON.parse realmOnlyText = some (JValue.obj [("realm", JValue.str "r")]) ∧
      LoadConfig (configFileWorld realmOnlyText) = Except.ok { Host := "", Realm := "r" } :=
  ⟨rfl, rfl⟩

/-- C12 (amended): the host defaults to "http://localhost:8181" when the
config file is absent. When the file is a JSON object without a member for
`host`, a config that `LoadConfig` returns has an empty host, and it does
return one when the members for `realm` are strings or `null`; when the file
is `null`, `LoadConfig` returns the zero config. And `auth login` rejects a
loaded config whose host is empty: `runLogin` fails with "Polaris host not
configured" and leaves the world as it is. -/
theorem C12_host_default (w : World) (h : String) (hh : w.home = Except.ok h) :
    (w.fs (configPath h) = Node.absent →
      LoadConfig w = Except.ok { Host := "http://localhost:8181", Realm := "" }) ∧
    (∀ data ms c, w.fs (configPath h) = Node.file data →
      JSON.parse data = some (JValue.obj ms) →
      (∀ m ∈ ms, foldName m.1 ≠ foldName "host") →
      LoadConfig w = Except.ok c → c.Host = "") ∧
    (∀ data ms, w.fs (configPath h) = Node.file data →
      JSON.parse data = some (JValue.obj ms) →
      (∀ m ∈ ms, foldName m.1 ≠ foldName "host") →
      (∀ m ∈ ms, (findField Config.fields m.1).isSome = true →
        m.2 = JValue.null ∨ ∃ s, m.2 = JValue.str s) →
      ∃ c, LoadConfig w = Except.ok c ∧ c.Host = "") ∧
    (∀ data, w.fs (configPath h) = Node.file data →
      JSON.parse data = some JValue.null →
      LoadConfig w = Except.ok { Host := "", Realm := "" }) ∧
    (∀ (c : Config) (clientID clientSecret : String),
      LoadConfig w = Except.ok c → c.Host = "" →
      runLogin clientID clientSecret w =
        (Except.error
          "Polaris host not configured. Run \x27polaris config set --host <url>\x27 first",
          w)) := by
  have hobj : ∀ data ms c, w.fs (configPath h) = Node.file data →
      JSON.parse data = some (JValue.obj ms) →
      (∀ m ∈ ms, foldName m.1 ≠ foldName "host") →
      LoadConfig w = Except.ok c → c.Host = "" := by
    intro data ms c hf hp hms hc
    have hu := LoadConfig_ok_unmarshal w h data hh hf c hc
    have : (Unmarshal "config.Config" Config.fields Config.zero data).1.Host = "" := by
      unfold Unmarshal
      rw [hp]
      exact foldl_host_keeps ms _ "" rfl hms
    rw [hu] at this
    exact this
  refine ⟨?_, hobj, ?_, ?_, ?_⟩
  · intro ha
    exact LoadConfig_of_absent w h hh ha
  · intro data ms hf hp hms hwell
    have hl : LoadConfig w
        = Except.ok (Unmarshal "config.Config" Config.fields Config.zero data).1 := by
      apply LoadConfig_of_unmarshal_ok w h data hh hf
      unfold Unmarshal
      rw [hp]
      exact foldl_Config_well ms _ rfl hwell
    exact ⟨_, hl, hobj data ms _ hf hp hms hl⟩
  · intro data hf hp
    have hu : Unmarshal "config.Config" Config.fields Config.zero data = (Config.zero, none) := by
      unfold Unmarshal
      rw [hp]
      rfl
    rw [LoadConfig_of_unmarshal_ok w h data hh hf (by rw [hu]), hu]
    rfl
  · intro c clientID clientSecret hc hhost
    unfold runLogin
    rw [hc]
    simp only [hhost, if_true]

/-- Witness of C12: no config file gives the default host; a file with a
realm only loads with an empty host, and `auth login` then fails. -/
theorem C12_host_default_witness :
    LoadConfig (mockWorld (Exchange.failed "offline"))
        = Except.ok { Host := "http://localhost:8181", Realm := "" } ∧
      (∃ c, LoadConfig (configFileWorld realmOnlyText) = Except.ok c ∧ c.Host = "") ∧
      runLogin "id" "secret" (configFileWorld realmOnlyText) =
        (Except.error
          "Polaris host not configured. Run \x27polaris config set --host <url>\x27 first",
          configFileWorld realmOnlyText) :=
  ⟨(C12_host_default (mockWorld (Exchange.failed "offline")) "/home/u" rfl).1 rfl,
   (C12_host_default (configFileWorld realmOnlyText) "/home/u" rfl).2.2.1 realmOnlyText
     [("realm", JValue.str "r")] rfl rfl (by decide)
     (by
       intro m hm _
       simp only [List.mem_singleton] at hm
       subst hm
       exact Or.inr ⟨"r", rfl⟩),
   (C12_host_default (configFileWorld realmOnlyText) "/home/u" rfl).2.2.2.2
     { Host := "", Realm := "r" } "id" "secret" rfl rfl⟩

/-- C13: for every method, path, body, token and config, `doRequest` either
builds no request (the method or the URL is rejected) or hands to the
transport exactly one request, which carries `Authorization: Bearer <token>`
and carries `Polaris-Realm` with the configured realm exactly when the realm
is non-empty; the request editors of the management and catalog clients are
the same function, which sets `Authorization` to `Bearer <token>` and sets
`Polaris-Realm` to the realm when it is non-empty and otherwise leaves that
header as it finds it; and whenever the config loads as `cfg` and the stored
token is `token`, `newManagementClient` and `newCatalogClient` succeed and
build their client with the editor for `cfg` and `token`, so every request of
the command clients passes through it; they build a client in no other
case. -/
theorem C13_bearer_and_realm_headers (c : Client) (method path : String) (body : Body)
    (w : World) :
    ((∃ err, (c.doRequest method path body w) =
          (Except.error ("failed to create request: " ++ err), w)) ∨
      ∃ req, (c.doRequest method path body w).2.sent = w.sent ++ [req] ∧
        HeaderGet req.header "Authorization" = some ("Bearer " ++ c.token) ∧
        HeaderGet req.header "Polaris-Realm"
          = (if c.config.Realm = "" then none else some c.config.Realm)) ∧
    (validMethod (if method = "" then "GET" else method) = true →
      w.urlError (TrimSuffix c.config.Host "/" ++ path) = none →
      ∃ req, (c.doRequest method path body w).2.sent = w.sent ++ [req] ∧
        HeaderGet req.header "Authorization" = some ("Bearer " ++ c.token) ∧
        HeaderGet req.header "Polaris-Realm"
          = (if c.config.Realm = "" then none else some c.config.Realm)) ∧
    (∀ (cfg : Config) (token : String) (req : Request),
      ∃ req1, managementRequestEditor cfg token req = Except.ok req1 ∧
        HeaderGet req1.header "Authorization" = some ("Bearer " ++ token) ∧
        (cfg.Realm ≠ "" → HeaderGet req1.header "Polaris-Realm" = some cfg.Realm) ∧
        (cfg.Realm = "" →
          HeaderGet req1.header "Polaris-Realm" = HeaderGet req.header "Polaris-Realm")) ∧
    (∀ (cfg : Config) (token : String),
      catalogRequestEditor cfg token = managementRequestEditor cfg token) ∧
    (∀ setup cfg, newManagementClient w = Except.ok (setup, cfg) →
      ∃ token, LoadConfig w = Except.ok cfg ∧ GetAccessToken w = Except.ok token ∧
        setup.editor = managementRequestEditor cfg token) ∧
    (∀ setup cfg, newCatalogClient w = Except.ok (setup, cfg) →
      ∃ token, LoadConfig w = Except.ok cfg ∧ GetAccessToken w = Except.ok token ∧
        setup.editor = catalogRequestEditor cfg token) ∧
    (∀ (cfg : Config) (token : String),
      LoadConfig w = Except.ok cfg → GetAccessToken w = Except.ok token →
      newManagementClient w = Except.ok
        ({ baseURL := TrimSuffix cfg.Host "/" ++ "/api/management/v1",
           editor := managementRequestEditor cfg token }, cfg) ∧
      newCatalogClient w = Except.ok
        ({ baseURL := TrimSuffix cfg.Host "/" ++ "/api/catalog",
           editor := catalogRequestEditor cfg token }, cfg)) ∧
    (∀ (cfg : Config) (token : String) (req : Request),
      ∃ req1, catalogRequestEditor cfg token req = Except.ok req1 ∧
        HeaderGet req1.header "Authorization" = some ("Bearer " ++ token) ∧
        HeaderGet req1.header "Polaris-Realm"
          = (if cfg.Realm = "" then HeaderGet req.header "Polaris-Realm"
             else some cfg.Realm) ∧
        req1.method = req.method ∧ req1.url = req.url ∧ req1.body = req.body) := by
  have hbuilt : validMethod (if method = "" then "GET" else method) = true →
      w.urlError (TrimSuffix c.config.Host "/" ++ path) = none →
      ∃ req, (c.doRequest method path body w).2.sent = w.sent ++ [req] ∧
        HeaderGet req.header "Authorization" = some ("Bearer " ++ c.token) ∧
        HeaderGet req.header "Polaris-Realm"
          = (if c.config.Realm = "" then none else some c.config.Realm) := by
    intro hm hurl
    refine ⟨clientRequest c method path body, ?_, (clientRequest_headers c method path body).1,
      (clientRequest_headers c method path body).2.1⟩
    rw [doRequest_eq c method path body w hm hurl]
  refine ⟨?_, hbuilt, ?_, ?_, ?_, ?_, ?_, ?_⟩
  · cases hn : NewRequest method (TrimSuffix c.config.Host "/" ++ path) body w with
    | error err => exact Or.inl ⟨err, doRequest_not_built c method path body w err hn⟩
    | ok req0 =>
      right
      apply hbuilt
      · exact (NewRequest_ok method _ body w req0 hn).1
      · exact (NewRequest_ok method _ body w req0 hn).2
  · intro cfg token req
    obtain ⟨req1, h1, h2, h3, h4, _⟩ := editor_headers cfg token req
    exact ⟨req1, h1, h2, h3, h4⟩
  · intro cfg token
    rfl
  · intro setup cfg h
    unfold newManagementClient at h
    cases hc : LoadConfig w with
    | error e => simp [hc] at h
    | ok cfg1 =>
      cases ht : GetAccessToken w with
      | error e => simp [hc, ht] at h
      | ok token =>
        simp only [hc, ht, Except.ok.injEq, Prod.mk.injEq] at h
        refine ⟨token, ?_, rfl, ?_⟩
        · rw [h.2]
        · rw [← h.1, h.2]
  · intro setup cfg h
    unfold newCatalogClient at h
    cases hc : LoadConfig w with
    | error e => simp [hc] at h
    | ok cfg1 =>
      cases ht : GetAccessToken w with
      | error e => simp [hc, ht] at h
      | ok token =>
        simp only [hc, ht, Except.ok.injEq, Prod.mk.injEq] at h
        refine ⟨token, ?_, rfl, ?_⟩
        · rw [h.2]
        · rw [← h.1, h.2]
  · intro cfg token hc ht
    constructor
    · unfold newManagementClient
      rw [hc, ht]
    · unfold newCatalogClient
      rw [hc, ht]
  · intro cfg token req
    obtain ⟨req1, h1, h2, h3, h4, h5⟩ := editor_headers cfg token req
    refine ⟨req1, h1, h2, ?_, h5⟩
    by_cases hr : cfg.Realm = ""
    · rw [if_pos hr]
      exact h4 hr
    · rw [if_neg hr]
      exact h3 hr

/-- Witness of C13: a GET by a client with realm "r" and token "tok", and
the catalog client built in a world with the stored token "old". -/
theorem C13_bearer_and_realm_headers_witness :
    (∃ req, (tokenClient.doRequest "GET" "/api/management/v1/catalogs" Body.none
          (mockWorld (Exchange.failed "offline"))).2.sent
        = (mockWorld (Exchange.failed "offline")).sent ++ [req] ∧
      HeaderGet req.header "Authorization" = some ("Bearer " ++ tokenClient.token) ∧
      HeaderGet req.header "Polaris-Realm"
        = (if tokenClient.config.Realm = "" then none else some tokenClient.config.Realm)) ∧
    newManagementClient (storedWorld (Exchange.failed "offline")) = Except.ok
      ({ baseURL := TrimSuffix "http://localhost:8181" "/" ++ "/api/management/v1",
         editor := managementRequestEditor { Host := "http://localhost:8181", Realm := "" }
           "old" },
       { Host := "http://localhost:8181", Realm := "" }) ∧
    newCatalogClient (storedWorld (Exchange.failed "offline")) = Except.ok
      ({ baseURL := TrimSuffix "http://localhost:8181" "/" ++ "/api/catalog",
         editor := catalogRequestEditor { Host := "http://localhost:8181", Realm := "" }
           "old" },
       { Host := "http://localhost:8181", Realm := "" }) :=
  ⟨(C13_bearer_and_realm_headers tokenClient "GET" "/api/management/v1/catalogs" Body.none
      (mockWorld (Exchange.failed "offline"))).2.1 (by decide) rfl,
   (C13_bearer_and_realm_headers tokenClient "GET" "/api/management/v1/catalogs" Body.none
      (storedWorld (Exchange.failed "offline"))).2.2.2.2.2.2.1
      { Host := "http://localhost:8181", Realm := "" } "old" rfl rfl⟩

theorem runConfigSet_eq (fld : CatalogPrefixField) (flags : ConfigSetFlags) (w : World) :
    runConfigSet fld flags w =
      if (configToSave fld flags w).Host = "" then
        (Except.error "host is required. Use --host to set the Polaris server URL", w)
      else
        match SaveConfig (configToSave fld flags w) w with
        | (Except.error err, w1) => (Except.error ("failed to save config: " ++ err), w1)
        | (Except.ok _, w1) =>
          let w2 := Print "✓ Configuration saved!\n" w1
          let w3 := Print ("  Host: " ++ (configToSave fld flags w).Host ++ "\n") w2
          let w4 :=
            if (configToSave fld flags w).Realm ≠ "" then
              Print ("  Realm: " ++ (configToSave fld flags w).Realm ++ "\n") w3
            else w3
          let w5 :=
            if fld.get (configToSave fld flags w) ≠ "" then
              Print ("  Catalog Prefix: " ++ fld.get (configToSave fld flags w) ++ "\n") w4
            else w4
          (Except.ok (), w5) := by
  unfold runConfigSet configToSave mergedConfig storedConfig
  cases LoadConfig w <;>
    by_cases h1 : flags.configHost = "" <;> by_cases h2 : flags.realmChanged = true <;>
    by_cases h3 : flags.catalogPrefixChanged = true <;>
    simp only [h1, h2, h3, if_true, if_false, ne_eq, not_true_eq_false, not_false_eq_true,
      Bool.false_eq_true]

theorem runConfigSet_no_host (fld : CatalogPrefixField) (flags : ConfigSetFlags) (w : World)
    (h : (configToSave fld flags w).Host = "") :
    runConfigSet fld flags w =
      (Except.error "host is required. Use --host to set the Polaris server URL", w) := by
  rw [runConfigSet_eq]
  simp only [h, if_true]

theorem runConfigSet_saved (fld : CatalogPrefixField) (flags : ConfigSetFlags) (w : World)
    (h : (configToSave fld flags w).Host ≠ "") :
    ∃ o : List (List Nat), runConfigSet fld flags w =
      ((match (SaveConfig (configToSave fld flags w) w).1 with
        | Except.error err => Except.error ("failed to save config: " ++ err)
        | Except.ok _ => Except.ok ()),
       { (SaveConfig (configToSave fld flags w) w).2 with stdout := o }) := by
  rw [runConfigSet_eq]
  simp only [h, if_false]
  rcases hs : SaveConfig (configToSave fld flags w) w with ⟨_ | _, w1⟩
  · exact ⟨w1.stdout, rfl⟩
  · simp only
    split <;> split <;> exact ⟨_, rfl⟩

theorem LoadConfig_stdout (w : World) (o : List (List Nat)) :
    LoadConfig { w with stdout := o } = LoadConfig w := rfl

/-- C23 (divergence): `runConfigSet` saves through `config.SaveConfig`,
whose record has host and realm only. When `--catalog-prefix` is not given the
command saves the host and the realm that the claim states, and with an empty
host it fails leaving the world as it is. But whatever the flags and whatever
the assignment `cfg.CatalogPrefix = value` does to the record, a run that
succeeds leaves a config file that is `MarshalIndent` of a `Config`, a JSON
object of the two members `host` and `realm`, and loading it returns that
two-field record: the value of `--catalog-prefix` is not in the saved
config. -/
theorem C23_catalog_prefix_not_saved (fld : CatalogPrefixField) (flags : ConfigSetFlags)
    (w : World) :
    (flags.catalogPrefixChanged = false →
      configToSave fld flags w = mergedConfig (storedConfig w) flags) ∧
    ((configToSave fld flags w).Host = "" →
      runConfigSet fld flags w =
        (Except.error "host is required. Use --host to set the Polaris server URL", w)) ∧
    ((configToSave fld flags w).Host ≠ "" →
      (runConfigSet fld flags w).1 =
        (match (SaveConfig (configToSave fld flags w) w).1 with
          | Except.error err => Except.error ("failed to save config: " ++ err)
          | Except.ok _ => Except.ok ()) ∧
      (runConfigSet fld flags w).2.fs = (SaveConfig (configToSave fld flags w) w).2.fs ∧
      (runConfigSet fld flags w).2.home = (SaveConfig (configToSave fld flags w) w).2.home) ∧
    ((runConfigSet fld flags w).1 = Except.ok () →
      ∃ h : String, (runConfigSet fld flags w).2.home = Except.ok h ∧
        (runConfigSet fld flags w).2.fs (configPath h)
          = Node.file (configToSave fld flags w).MarshalIndent ∧
        JSON.parse (configToSave fld flags w).MarshalIndent
          = some (JValue.obj [("host", JValue.str (configToSave fld flags w).Host),
              ("realm", JValue.str (configToSave fld flags w).Realm)]) ∧
        LoadConfig (runConfigSet fld flags w).2 = Except.ok (configToSave fld flags w)) := by
  refine ⟨?_, runConfigSet_no_host fld flags w, ?_, ?_⟩
  · intro h
    unfold configToSave
    simp [h]
  · intro h
    obtain ⟨o, ho⟩ := runConfigSet_saved fld flags w h
    rw [ho]
    exact ⟨rfl, rfl, rfl⟩
  · intro hok
    by_cases h : (configToSave fld flags w).Host = ""
    · rw [runConfigSet_no_host fld flags w h] at hok
      cases hok
    · obtain ⟨o, ho⟩ := runConfigSet_saved fld flags w h
      rw [ho] at hok ⊢
      have hs : (SaveConfig (configToSave fld flags w) w).1 = Except.ok () := by
        rcases hsv : (SaveConfig (configToSave fld flags w) w).1 with e | u
        · rw [hsv] at hok
          cases hok
        · rfl
      obtain ⟨hd, hh, hf⟩ := SaveConfig_ok _ w hs
      refine ⟨hd, hh, hf, parse_Config_MarshalIndent _, ?_⟩
      rw [LoadConfig_stdout]
      exact LoadConfig_SaveConfig _ w hs

/-- Witness of C23: `config set --host http://h --realm r --catalog-prefix p`
with no config file; the file written has the host and the realm. -/
theorem C23_catalog_prefix_not_saved_witness :
    ∃ h : String,
      (runConfigSet droppedCatalogPrefix sampleSetFlags
          (mockWorld (Exchange.failed "offline"))).2.home = Except.ok h ∧
      (runConfigSet droppedCatalogPrefix sampleSetFlags
          (mockWorld (Exchange.failed "offline"))).2.fs (configPath h)
        = Node.file (configToSave droppedCatalogPrefix sampleSetFlags
            (mockWorld (Exchange.failed "offline"))).MarshalIndent ∧
      JSON.parse (configToSave droppedCatalogPrefix sampleSetFlags
            (mockWorld (Exchange.failed "offline"))).MarshalIndent
        = some (JValue.obj
            [("host", JValue.str (configToSave droppedCatalogPrefix sampleSetFlags
                (mockWorld (Exchange.failed "offline"))).Host),
             ("realm", JValue.str (configToSave droppedCatalogPrefix sampleSetFlags
                (mockWorld (Exchange.failed "offline"))).Realm)]) ∧
      LoadConfig (runConfigSet droppedCatalogPrefix sampleSetFlags
          (mockWorld (Exchange.failed "offline"))).2
        = Except.ok (configToSave droppedCatalogPrefix sampleSetFlags
            (mockWorld (Exchange.failed "offline"))) :=
  (C23_catalog_prefix_not_saved droppedCatalogPrefix sampleSetFlags
    (mockWorld (Exchange.failed "offline"))).2.2.2 rfl

/-- C24 (divergence): `resolveCatalogPrefix` returns the `--prefix` flag
when it is non-empty, otherwise what the selector `cfg.CatalogPrefix` gives
when that is non-empty, and fails exactly when both are empty. But the config
it is given is the two-field record that `LoadConfig` returns: a config file
with `catalog_prefix` "p" and the same file without it load as the same
record, so whatever the selector is, the command resolves the same prefix for
both and cannot return "p" for the first and fail for the second. -/
theorem C24_config_prefix_unavailable (fld : CatalogPrefixField) (catalogPrefix : String)
    (cfg : Config) :
    (catalogPrefix ≠ "" →
      resolveCatalogPrefix fld catalogPrefix cfg = Except.ok catalogPrefix) ∧
    (catalogPrefix = "" → fld.get cfg ≠ "" →
      resolveCatalogPrefix fld catalogPrefix cfg = Except.ok (fld.get cfg)) ∧
    ((resolveCatalogPrefix fld catalogPrefix cfg).isOk = false ↔
      catalogPrefix = "" ∧ fld.get cfg = "") ∧
    LoadConfig catalogConfigWorld = Except.ok { Host := "http://h", Realm := "r" } ∧
    LoadConfig (configFileWorld plainConfigText)
      = Except.ok { Host := "http://h", Realm := "r" } ∧
    loadedCatalogPrefix fld catalogPrefix catalogConfigWorld
      = loadedCatalogPrefix fld catalogPrefix (configFileWorld plainConfigText) ∧
    ¬ (loadedCatalogPrefix fld "" catalogConfigWorld = Except.ok "p" ∧
        (loadedCatalogPrefix fld "" (configFileWorld plainConfigText)).isOk = false) := by
  have hsame : ∀ p : String, loadedCatalogPrefix fld p catalogConfigWorld
      = loadedCatalogPrefix fld p (configFileWorld plainConfigText) := fun _ => rfl
  refine ⟨?_, ?_, ?_, rfl, rfl, hsame catalogPrefix, ?_⟩
  · intro h
    simp [resolveCatalogPrefix, h]
  · intro h1 h2
    simp [resolveCatalogPrefix, h1, h2]
  · unfold resolveCatalogPrefix
    by_cases h1 : catalogPrefix = ""
    · by_cases h2 : fld.get cfg = ""
      · simp [h1, h2, Except.isOk, Except.toBool]
      · simp [h1, h2, Except.isOk, Except.toBool]
    · simp [h1, Except.isOk, Except.toBool]
  · rintro ⟨hp, hn⟩
    rw [← hsame "", hp] at hn
    cases hn

/-- Witness of C24: the flag `--prefix demo` is returned. -/
theorem C24_config_prefix_unavailable_witness :
    resolveCatalogPrefix droppedCatalogPrefix "demo" { Host := "http://h", Realm := "r" }
      = Except.ok "demo" :=
  (C24_config_prefix_unavailable droppedCatalogPrefix "demo"
    { Host := "http://h", Realm := "r" }).1 (by decide)

end Polaris
